import Mathlib

/-!
# GeoIP database reader (`src/base/net/private/geoipdatabase.cpp`)

A shallow embedding of the MaxMind-DB reader of qBittorrent: the tagged-value
decoder (`readDataFieldDescriptor`, `readDataField`, `readMapValue`,
`readArrayValue`), the metadata parser (`readMetadata`, `parseMetadata`), the
loader (`load`, `loadDB`) and the trie lookup (`lookup`).

Conventions of the embedding

* A byte (`uchar`) is a `Fin 256`; the buffer `m_data` is a list of bytes.
* `quint32` values are natural numbers kept below `2^32`; every C++ operation
  that can wrap is followed by an explicit reduction (`u32`).
* A read outside `m_data` is undefined behaviour in C++; here it is the fault
  `Fault.outOfBounds`.  The recursion of the decoder is bounded by a fuel
  argument; running out of it is the fault `Fault.outOfFuel`.
* Qt library functions whose exact behaviour is not part of this repository
  (`QString::fromUtf8`, the textual form of floating point numbers) are
  fields of the structure `Qt`, an argument of the functions that use them.
-/

namespace GeoIP

/-! ## Machine integers -/

/-- Reduction of a natural number to the range of `quint32`. -/
def u32 (x : Nat) : Nat := x % 4294967296

/-- Subtraction of two `quint32` values, as C++ computes it (modulo `2^32`). -/
def sub32 (a b : Nat) : Nat := (u32 a + 4294967296 - u32 b) % 4294967296

/-- Conversion of a 32-bit pattern to `int` (two's complement). -/
def toInt32 (x : Nat) : Int :=
  if u32 x < 2147483648 then (u32 x : Int) else (u32 x : Int) - 4294967296

/-- Conversion of an `int` to `size_t` (64 bits wide, as on LP64 and LLP64 hosts). -/
def toSizeT (x : Int) : Nat := (x % 18446744073709551616).toNat

/-! ## Qt values -/

/-- A byte of the database buffer. -/
abbrev uchar := Fin 256

/-- A `QString`, by its characters.  The null and the empty string are not told
apart: the reader only ever asks `isEmpty()`. -/
abbrev QString := String

/-- A `QByteArray`, by its bytes. -/
abbrev QByteArray := List uchar

/-- The text made of the given bytes, each read as one character (the reading
of a 7-bit ASCII byte sequence). -/
def asciiString (bs : List uchar) : QString :=
  String.mk (bs.map (fun b => Char.ofNat b.val))

/-- The part of the Qt library that the reader relies on and that is kept
abstract: UTF-8 decoding (only its behaviour on 7-bit ASCII input is fixed) and
the decimal rendering of floating point numbers, given by their bit pattern. -/
structure Qt where
  /-- `QString::fromUtf8(const char *, int)`. -/
  fromUtf8 : List uchar → QString
  /-- On 7-bit ASCII input, `fromUtf8` yields the same characters. -/
  fromUtf8_ascii : ∀ bs : List uchar, (∀ b ∈ bs, b.val < 128) → fromUtf8 bs = asciiString bs
  /-- `QString::number(double)` on the IEEE-754 bit pattern of the number. -/
  numberDouble : Nat → QString
  /-- `QString::number(float)` on the IEEE-754 bit pattern of the number. -/
  numberFloat : Nat → QString

/-- The `QMetaType` ids that the decoder can produce (`QVariant::userType()`). -/
inductive QMetaType where
  | UnknownType
  | QString
  | Double
  | QByteArray
  | UShort
  | UInt
  | QVariantHash
  | Int
  | ULongLong
  | QVariantList
  | Bool
  | Float
  deriving DecidableEq, Repr

/-- A `QVariant` as the decoder builds it.  `double` and `float` carry the
IEEE-754 bit pattern of the number. -/
inductive QVariant where
  | invalid
  | string (s : String)
  | double (bits : Nat)
  | bytes (b : List (Fin 256))
  | ushort (v : Nat)
  | uint (v : Nat)
  | hash (h : List (String × QVariant))
  | int (v : Int)
  | ulonglong (v : Nat)
  | list (l : List QVariant)
  | bool (b : Bool)
  | float (bits : Nat)

/-- A `QHash<K, V>`, by its entries; a key occurs at most once when the hash is
built with `QHash.insert` only. -/
abbrev QHash (κ ν : Type) := List (κ × ν)

/-- A `QVariantHash`, that is `QHash<QString, QVariant>`. -/
abbrev QVariantHash := QHash QString QVariant

/-- The entry stored under a key, if any. -/
def QHash.find {κ ν : Type} [DecidableEq κ] (m : QHash κ ν) (k : κ) : Option ν :=
  match m with
  | [] => none
  | (k', v) :: rest => if k' = k then some v else QHash.find rest k

/-- `QHash::contains(key)`. -/
def QHash.contains {κ ν : Type} [DecidableEq κ] (m : QHash κ ν) (k : κ) : Bool :=
  (QHash.find m k).isSome

/-- `QHash::value(key)`: the stored value, or a default-constructed one. -/
def QHash.value {κ ν : Type} [DecidableEq κ] (m : QHash κ ν) (k : κ) (dflt : ν) : ν :=
  (QHash.find m k).getD dflt

/-- `hash[key] = v`: the value under `key` is replaced or added. -/
def QHash.insert {κ ν : Type} [DecidableEq κ] (m : QHash κ ν) (k : κ) (v : ν) : QHash κ ν :=
  (k, v) :: m.filter (fun p => decide (p.1 ≠ k))

namespace QVariant

/-- `QVariant::userType()`. -/
def userType : QVariant → QMetaType
  | invalid => QMetaType.UnknownType
  | string _ => QMetaType.QString
  | double _ => QMetaType.Double
  | bytes _ => QMetaType.QByteArray
  | ushort _ => QMetaType.UShort
  | uint _ => QMetaType.UInt
  | hash _ => QMetaType.QVariantHash
  | int _ => QMetaType.Int
  | ulonglong _ => QMetaType.ULongLong
  | list _ => QMetaType.QVariantList
  | bool _ => QMetaType.Bool
  | float _ => QMetaType.Float

/-- `QVariant::toHash()`: the hash itself, and an empty hash for a variant of
any other type the decoder produces. -/
def toHash : QVariant → QVariantHash
  | hash h => h
  | _ => []

/-- `QVariant::toString()`: a string is returned as it is, numbers are written
in decimal, a boolean is `true` or `false`, a byte array is decoded as UTF-8
up to its first zero byte; lists, hashes and the invalid variant give the
empty string. -/
def toString (qt : Qt) : QVariant → QString
  | string s => s
  | double b => qt.numberDouble b
  | bytes b => qt.fromUtf8 (b.takeWhile (fun x => decide (x.val ≠ 0)))
  | ushort v => Nat.repr v
  | uint v => Nat.repr v
  | int v => if v < 0 then "-" ++ Nat.repr v.natAbs else Nat.repr v.natAbs
  | ulonglong v => Nat.repr v
  | bool b => if b then "true" else "false"
  | float b => qt.numberFloat b
  | invalid => ""
  | hash _ => ""
  | list _ => ""

/-- `QVariant::toUInt()`, used on a variant whose type was checked to be
`UShort`: the number it holds, as an `uint`. -/
def toUInt : QVariant → Nat
  | ushort v => u32 v
  | uint v => u32 v
  | ulonglong v => u32 v
  | _ => 0

/-- `QVariant::value<quint16>()`, used on a variant whose type was checked to
be `UShort`. -/
def valueUShort : QVariant → Nat
  | ushort v => v % 65536
  | _ => 0

/-- `QVariant::value<quint32>()`, used on a variant whose type was checked to
be `UInt`. -/
def valueUInt : QVariant → Nat
  | uint v => u32 v
  | _ => 0

/-- `QVariant::toULongLong()`, used on a variant whose type was checked to be
`ULongLong`. -/
def toULongLong : QVariant → Nat
  | ulonglong v => v % 18446744073709551616
  | _ => 0

end QVariant

/-- `QHash::operator[]` on a temporary `QVariantHash`, read only: the stored
variant, or a default-constructed (invalid) one. -/
def QVariantHash.get (m : QVariantHash) (k : QString) : QVariant :=
  QHash.value m k QVariant.invalid

/-! ## The database object -/

/-- The ways in which a run of the embedded code can leave the model. -/
inductive Fault where
  /-- A read outside the buffer `m_data` (undefined behaviour in C++). -/
  | outOfBounds
  /-- The recursion of the decoder went deeper than the fuel allows. -/
  | outOfFuel
  deriving DecidableEq, Repr

/-- The members of `GeoIPDatabase`.  `m_nodeSize`, `m_indexSize` and
`m_recordBytes` hold the 32-bit pattern of the member; `m_buildEpoch` is the
number of seconds handed to `QDateTime::fromTime_t`. -/
structure GeoIPDatabase where
  m_ipVersion : Nat
  m_recordSize : Nat
  m_nodeCount : Nat
  m_nodeSize : Nat
  m_indexSize : Nat
  m_recordBytes : Nat
  m_buildEpoch : Nat
  m_dbType : QString
  m_countries : QHash Nat QString
  m_size : Nat
  m_data : List uchar

namespace GeoIPDatabase

/-- The constructor `GeoIPDatabase(quint32 size)` followed by the copy of the
input bytes into `m_data` (as `load` does). -/
def create (data : QByteArray) : GeoIPDatabase :=
  { m_ipVersion := 0, m_recordSize := 0, m_nodeCount := 0, m_nodeSize := 0,
    m_indexSize := 0, m_recordBytes := 0, m_buildEpoch := 0, m_dbType := "",
    m_countries := [], m_size := u32 data.length, m_data := data }

/-- The byte `m_data[i]`. -/
def byteAt (db : GeoIPDatabase) (i : Nat) : Except Fault Nat :=
  match db.m_data.get? i with
  | some b => Except.ok b.val
  | none => Except.error Fault.outOfBounds

/-- The `len` bytes `m_data[i] .. m_data[i + len - 1]`; nothing is read when
`len` is zero. -/
def bytesAt (db : GeoIPDatabase) (i len : Nat) : Except Fault (List uchar) :=
  if len = 0 then Except.ok []
  else if i + len ≤ db.m_data.length then Except.ok ((db.m_data.drop i).take len)
  else Except.error Fault.outOfBounds

end GeoIPDatabase

/-- A big-endian byte sequence as a number (`fromBigEndian` applied to the
bytes once they are copied to the low end of a zeroed integer). -/
def fromBigEndian (bs : List uchar) : Nat :=
  bs.foldl (fun acc b => acc * 256 + b.val) 0

/-! ## The tagged-value decoder -/

/-- The values of `enum class DataType`; a field type is kept as a number
because `static_cast<DataType>(dataPtr[1] + 7)` can leave the enumerators. -/
abbrev DataType := Nat

namespace DataType
def Unknown : DataType := 0
def Pointer : DataType := 1
def String : DataType := 2
def Double : DataType := 3
def Bytes : DataType := 4
def Integer16 : DataType := 5
def Integer32 : DataType := 6
def Map : DataType := 7
def SignedInteger32 : DataType := 8
def Integer64 : DataType := 9
def Integer128 : DataType := 10
def Array : DataType := 11
def DataCacheContainer : DataType := 12
def EndMarker : DataType := 13
def Boolean : DataType := 14
def Float : DataType := 15
end DataType

/-- The `struct DataFieldDescriptor`; `fieldSize` and `offset` share storage. -/
structure DataFieldDescriptor where
  fieldType : DataType
  fieldSize : Nat
  deriving DecidableEq, Repr

/-- The member `offset` of the union inside `DataFieldDescriptor`. -/
def DataFieldDescriptor.offset (d : DataFieldDescriptor) : Nat := d.fieldSize

/-- The width of the data section separator, `sizeof(DATA_SECTION_SEPARATOR)`. -/
def SEPARATOR_SIZE : Nat := 16

/-- The constant `MAX_FILE_SIZE`. -/
def MAX_FILE_SIZE : Nat := 67108864

/-- The constant `MAX_METADATA_SIZE`. -/
def MAX_METADATA_SIZE : Nat := 131072

/-- The constant `METADATA_BEGIN_MARK`: the bytes AB CD EF and `MaxMind.com`. -/
def METADATA_BEGIN_MARK : List uchar :=
  [0xab, 0xcd, 0xef, 77, 97, 120, 77, 105, 110, 100, 46, 99, 111, 109]

/-- The function `GeoIPDatabase::readDataFieldDescriptor`: `none` when it
returns `false` (the offset is then left as it was), otherwise the advanced
offset and the descriptor. -/
def readDataFieldDescriptor (db : GeoIPDatabase) (offset : Nat) :
    Except Fault (Option (Nat × DataFieldDescriptor)) :=
  let availSize : Int := toInt32 (sub32 db.m_size offset)
  if availSize < 1 then pure none
  else do
    let d0 ← db.byteAt offset
    let fieldType : DataType := (d0 &&& 0xE0) >>> 5
    if fieldType = DataType.Pointer then
      let size := (d0 &&& 0x18) >>> 3
      if availSize < (size : Int) + 2 then pure none
      else do
        let value ←
          if size = 0 then do
            let d1 ← db.byteAt (offset + 1)
            pure (u32 (((d0 &&& 0x07) <<< 8) + d1))
          else if size = 1 then do
            let d1 ← db.byteAt (offset + 1)
            let d2 ← db.byteAt (offset + 2)
            pure (u32 (((d0 &&& 0x07) <<< 16) + (d1 <<< 8) + d2 + 2048))
          else if size = 2 then do
            let d1 ← db.byteAt (offset + 1)
            let d2 ← db.byteAt (offset + 2)
            let d3 ← db.byteAt (offset + 3)
            pure (u32 (((d0 &&& 0x07) <<< 24) + (d1 <<< 16) + (d2 <<< 8) + d3 + 526336))
          else do
            let d1 ← db.byteAt (offset + 1)
            let d2 ← db.byteAt (offset + 2)
            let d3 ← db.byteAt (offset + 3)
            let d4 ← db.byteAt (offset + 4)
            pure (u32 ((d1 <<< 24) + (d2 <<< 16) + (d3 <<< 8) + d4))
        pure (some (u32 (offset + size + 2), { fieldType := fieldType, fieldSize := value }))
    else
      let fieldSize := d0 &&& 0x1F
      if fieldSize ≤ 28 then
        if fieldType = DataType.Unknown then do
          let d1 ← db.byteAt (offset + 1)
          let extType : DataType := d1 + 7
          if extType ≤ DataType.Map ∨ extType > DataType.Float ∨ availSize < 3 then pure none
          else pure (some (u32 (offset + 2), { fieldType := extType, fieldSize := fieldSize }))
        else pure (some (u32 (offset + 1), { fieldType := fieldType, fieldSize := fieldSize }))
      else if fieldSize = 29 then
        if availSize < 2 then pure none
        else do
          let d1 ← db.byteAt (offset + 1)
          pure (some (u32 (offset + 2), { fieldType := fieldType, fieldSize := d1 + 29 }))
      else if fieldSize = 30 then
        if availSize < 3 then pure none
        else do
          let d1 ← db.byteAt (offset + 1)
          let d2 ← db.byteAt (offset + 2)
          pure (some (u32 (offset + 3),
            { fieldType := fieldType, fieldSize := (d1 <<< 8) + d2 + 285 }))
      else
        if availSize < 4 then pure none
        else do
          let d1 ← db.byteAt (offset + 1)
          let d2 ← db.byteAt (offset + 2)
          let d3 ← db.byteAt (offset + 3)
          pure (some (u32 (offset + 4),
            { fieldType := fieldType, fieldSize := (d1 <<< 16) + (d2 <<< 8) + d3 + 65821 }))

/-- Modelled from the spec: `readPlainValue<T>`, a member template declared in
the class header, which is not among the sources.  The spec (4.3) has it read a
big-endian integer from `len` bytes, `len` being at most the width of `T`,
with the missing high bytes zero.  Returned are the bit pattern of the value
and the advanced offset.  Where the spec is silent (`len` above the width, or
fewer than `len` bytes left) the value is zero and the offset stays. -/
def readPlainValue (db : GeoIPDatabase) (width offset len : Nat) : Nat × Nat :=
  if 0 < len ∧ len ≤ width ∧ offset + len ≤ db.m_data.length then
    (fromBigEndian ((db.m_data.drop offset).take len), u32 (offset + len))
  else (0, offset)

/-- The loop of `GeoIPDatabase::readMapValue`, over the reader `rd` of one
field: `count` pairs of a string key and a value are read into `map`. -/
def readMapValueWith (rd : Nat → Except Fault (QVariant × Nat)) :
    Nat → Nat → QVariantHash → Except Fault (QVariant × Nat)
  | 0, offset, map => pure (QVariant.hash map, offset)
  | count + 1, offset, map => do
    let (key, offset1) ← rd offset
    match key with
    | QVariant.string k => do
      let (field, offset2) ← rd offset1
      if field.userType = QMetaType.UnknownType then pure (QVariant.invalid, offset2)
      else readMapValueWith rd count offset2 (QHash.insert map k field)
    | _ => pure (QVariant.invalid, offset1)

/-- The loop of `GeoIPDatabase::readArrayValue`, over the reader `rd` of one
field: `count` values are appended to `array`. -/
def readArrayValueWith (rd : Nat → Except Fault (QVariant × Nat)) :
    Nat → Nat → List QVariant → Except Fault (QVariant × Nat)
  | 0, offset, array => pure (QVariant.list array, offset)
  | count + 1, offset, array => do
    let (field, offset1) ← rd offset
    if field.userType = QMetaType.UnknownType then pure (QVariant.invalid, offset1)
    else readArrayValueWith rd count offset1 (array ++ [field])

/-- The payload switch of `GeoIPDatabase::readDataField`, over the reader `rd`
used for the members of maps and arrays: the value of the field described by
`descr` whose payload starts at `locOffset`, and the offset after it. -/
def readPayload (qt : Qt) (db : GeoIPDatabase) (rd : Nat → Except Fault (QVariant × Nat))
    (descr : DataFieldDescriptor) (locOffset : Nat) : Except Fault (QVariant × Nat) :=
  if descr.fieldType = DataType.Pointer then pure (QVariant.invalid, locOffset)
  else if descr.fieldType = DataType.String then do
    let bs ← db.bytesAt locOffset descr.fieldSize
    pure (QVariant.string (qt.fromUtf8 bs), u32 (locOffset + descr.fieldSize))
  else if descr.fieldType = DataType.Double then
    if descr.fieldSize = 8 then
      let r := readPlainValue db 8 locOffset descr.fieldSize
      pure (QVariant.double r.1, r.2)
    else pure (QVariant.invalid, locOffset)
  else if descr.fieldType = DataType.Bytes then do
    let bs ← db.bytesAt locOffset descr.fieldSize
    pure (QVariant.bytes bs, u32 (locOffset + descr.fieldSize))
  else if descr.fieldType = DataType.Integer16 then
    let r := readPlainValue db 2 locOffset descr.fieldSize
    pure (QVariant.ushort r.1, r.2)
  else if descr.fieldType = DataType.Integer32 then
    let r := readPlainValue db 4 locOffset descr.fieldSize
    pure (QVariant.uint r.1, r.2)
  else if descr.fieldType = DataType.Map then
    readMapValueWith rd descr.fieldSize locOffset []
  else if descr.fieldType = DataType.SignedInteger32 then
    let r := readPlainValue db 4 locOffset descr.fieldSize
    pure (QVariant.int (toInt32 r.1), r.2)
  else if descr.fieldType = DataType.Integer64 then
    let r := readPlainValue db 8 locOffset descr.fieldSize
    pure (QVariant.ulonglong r.1, r.2)
  else if descr.fieldType = DataType.Integer128 then pure (QVariant.invalid, locOffset)
  else if descr.fieldType = DataType.Array then
    readArrayValueWith rd descr.fieldSize locOffset []
  else if descr.fieldType = DataType.DataCacheContainer then pure (QVariant.invalid, locOffset)
  else if descr.fieldType = DataType.EndMarker then pure (QVariant.invalid, locOffset)
  else if descr.fieldType = DataType.Boolean then
    pure (QVariant.bool (decide (descr.fieldSize ≠ 0)), locOffset)
  else if descr.fieldType = DataType.Float then
    if descr.fieldSize = 4 then
      let r := readPlainValue db 4 locOffset descr.fieldSize
      pure (QVariant.float r.1, r.2)
    else pure (QVariant.invalid, locOffset)
  else pure (QVariant.invalid, locOffset)

/-- The function `GeoIPDatabase::readDataField`: the decoded value and the
offset it leaves in its reference argument.  `fuel` bounds the depth of the
recursion through maps and arrays. -/
def readDataField (qt : Qt) (db : GeoIPDatabase) : Nat → Nat → Except Fault (QVariant × Nat)
  | 0, _ => Except.error Fault.outOfFuel
  | fuel + 1, offset => do
    match ← readDataFieldDescriptor db offset with
    | none => pure (QVariant.invalid, offset)
    | some (offset1, descr) =>
      if descr.fieldType = DataType.Pointer then
        -- convert offset from data section to global
        let locOffset := u32 (descr.offset + u32 (db.m_nodeCount * db.m_recordSize) / 4
          + SEPARATOR_SIZE)
        match ← readDataFieldDescriptor db locOffset with
        | none => pure (QVariant.invalid, offset1)
        | some (locOffset1, descr1) => do
          let r ← readPayload qt db (readDataField qt db fuel) descr1 locOffset1
          pure (r.1, offset1)
      else
        readPayload qt db (readDataField qt db fuel) descr offset1

/-- The function `GeoIPDatabase::readMapValue`. -/
def readMapValue (qt : Qt) (db : GeoIPDatabase) (fuel offset count : Nat) :
    Except Fault (QVariant × Nat) :=
  readMapValueWith (readDataField qt db fuel) count offset []

/-- The function `GeoIPDatabase::readArrayValue`. -/
def readArrayValue (qt : Qt) (db : GeoIPDatabase) (fuel offset count : Nat) :
    Except Fault (QVariant × Nat) :=
  readArrayValueWith (readDataField qt db fuel) count offset []

/-! ## Loading -/

/-- The errors that `load` reports through its `error` argument (the message
texts are translated at run time, so an error is kept by its kind and its
arguments). -/
inductive LoadError where
  /-- "Unsupported database file size." -/
  | unsupportedFileSize
  /-- "Metadata error: '%1' entry not found." -/
  | entryNotFound (key : String)
  /-- "Metadata error: '%1' entry has invalid type." -/
  | entryInvalidType (key : String)
  /-- "Unsupported database version: %1.%2" -/
  | unsupportedVersion (major minor : Nat)
  /-- "Unsupported IP version: %1" -/
  | unsupportedIpVersion (version : Nat)
  /-- "Unsupported record size: %1" -/
  | unsupportedRecordSize (size : Nat)
  /-- "Database corrupted: no data section found." -/
  | noDataSection
  deriving DecidableEq, Repr

/-- `QByteArray::lastIndexOf(needle)`: the greatest index at which `needle`
occurs in `hay`, if there is one. -/
def lastIndexOf (hay needle : List uchar) : Option Nat :=
  (List.range (hay.length + 1 - needle.length)).reverse.find?
    (fun i => decide ((hay.drop i).take needle.length = needle))

/-- The function `GeoIPDatabase::readMetadata`. -/
def readMetadata (qt : Qt) (db : GeoIPDatabase) (fuel : Nat) : Except Fault QVariantHash :=
  let start := if db.m_size > MAX_METADATA_SIZE then db.m_size - MAX_METADATA_SIZE else 0
  let size := if db.m_size > MAX_METADATA_SIZE then MAX_METADATA_SIZE else db.m_size
  let data : QByteArray := (db.m_data.drop start).take size
  match lastIndexOf data METADATA_BEGIN_MARK with
  | some index =>
    let offset := u32 (index + start + METADATA_BEGIN_MARK.length)
    do
      let r ← readDataField qt db fuel offset
      if r.1.userType = QMetaType.QVariantHash then pure r.1.toHash else pure []
  | none => pure []

/-- The macro `CHECK_METADATA_REQ(key, type)`: the error with which
`parseMetadata` returns `false`, if it does. -/
def CHECK_METADATA_REQ (metadata : QVariantHash) (key : String) (type : QMetaType) :
    Option LoadError :=
  if ¬ QHash.contains metadata key then some (LoadError.entryNotFound key)
  else if (QHash.value metadata key QVariant.invalid).userType ≠ type then
    some (LoadError.entryInvalidType key)
  else none

/-- The macro `CHECK_METADATA_OPT(key, type)`. -/
def CHECK_METADATA_OPT (metadata : QVariantHash) (key : String) (type : QMetaType) :
    Option LoadError :=
  if QHash.contains metadata key then
    if (QHash.value metadata key QVariant.invalid).userType ≠ type then
      some (LoadError.entryInvalidType key)
    else none
  else none

/-- The function `GeoIPDatabase::parseMetadata`: the error it reports, or the
database with the members it has set.  `QDateTime::fromTime_t` takes an `uint`,
so the build epoch is narrowed to 32 bits. -/
def parseMetadata (qt : Qt) (metadata : QVariantHash) (db : GeoIPDatabase) :
    Except LoadError GeoIPDatabase :=
  match CHECK_METADATA_REQ metadata "binary_format_major_version" QMetaType.UShort with
  | some e => Except.error e
  | none =>
  match CHECK_METADATA_REQ metadata "binary_format_minor_version" QMetaType.UShort with
  | some e => Except.error e
  | none =>
  let versionMajor := (QHash.value metadata "binary_format_major_version" QVariant.invalid).toUInt
  let versionMinor := (QHash.value metadata "binary_format_minor_version" QVariant.invalid).toUInt
  if versionMajor ≠ 2 then Except.error (LoadError.unsupportedVersion versionMajor versionMinor)
  else
  match CHECK_METADATA_REQ metadata "ip_version" QMetaType.UShort with
  | some e => Except.error e
  | none =>
  let m_ipVersion := (QHash.value metadata "ip_version" QVariant.invalid).valueUShort
  if m_ipVersion ≠ 6 then Except.error (LoadError.unsupportedIpVersion m_ipVersion)
  else
  match CHECK_METADATA_REQ metadata "record_size" QMetaType.UShort with
  | some e => Except.error e
  | none =>
  let m_recordSize := (QHash.value metadata "record_size" QVariant.invalid).valueUShort
  if m_recordSize ≠ 24 then Except.error (LoadError.unsupportedRecordSize m_recordSize)
  else
  let m_nodeSize := m_recordSize / 4
  let m_recordBytes := m_nodeSize / 2
  match CHECK_METADATA_REQ metadata "node_count" QMetaType.UInt with
  | some e => Except.error e
  | none =>
  let m_nodeCount := (QHash.value metadata "node_count" QVariant.invalid).valueUInt
  let m_indexSize := u32 (m_nodeCount * m_nodeSize)
  match CHECK_METADATA_REQ metadata "database_type" QMetaType.QString with
  | some e => Except.error e
  | none =>
  let m_dbType := (QHash.value metadata "database_type" QVariant.invalid).toString qt
  match CHECK_METADATA_REQ metadata "build_epoch" QMetaType.ULongLong with
  | some e => Except.error e
  | none =>
  let m_buildEpoch := u32 (QHash.value metadata "build_epoch" QVariant.invalid).toULongLong
  match CHECK_METADATA_OPT metadata "languages" QMetaType.QVariantList with
  | some e => Except.error e
  | none =>
  match CHECK_METADATA_OPT metadata "description" QMetaType.QVariantHash with
  | some e => Except.error e
  | none =>
  Except.ok { db with
    m_ipVersion := m_ipVersion, m_recordSize := m_recordSize, m_nodeSize := m_nodeSize,
    m_recordBytes := m_recordBytes, m_nodeCount := m_nodeCount, m_indexSize := m_indexSize,
    m_dbType := m_dbType, m_buildEpoch := m_buildEpoch }

/-- The function `GeoIPDatabase::loadDB`: `none` when it returns `true`,
otherwise the error.  The sixteen bytes that `memcmp` compares are read at
`m_data + indexSize`, `indexSize` being an `int`. -/
def loadDB (db : GeoIPDatabase) : Except Fault (Option LoadError) :=
  let nodeSize : Nat := db.m_recordSize / 4
  let indexSize : Int := toInt32 (u32 (db.m_nodeCount * nodeSize))
  if db.m_size < toSizeT (indexSize + SEPARATOR_SIZE) then pure (some LoadError.noDataSection)
  else if indexSize < 0 then Except.error Fault.outOfBounds
  else do
    let bs ← db.bytesAt indexSize.toNat SEPARATOR_SIZE
    if bs ≠ List.replicate SEPARATOR_SIZE 0 then pure (some LoadError.noDataSection)
    else pure none

/-- The function `GeoIPDatabase::load(const QByteArray &data, QString &error)`:
the error it reports (it then returns `nullptr`), or the database. -/
def load (qt : Qt) (data : QByteArray) (fuel : Nat) :
    Except Fault (Except LoadError GeoIPDatabase) :=
  if data.length > MAX_FILE_SIZE then pure (Except.error LoadError.unsupportedFileSize)
  else
    let db := GeoIPDatabase.create data
    do
      let metadata ← readMetadata qt db fuel
      match parseMetadata qt metadata db with
      | Except.error e => pure (Except.error e)
      | Except.ok db1 =>
        match ← loadDB db1 with
        | some e => pure (Except.error e)
        | none => pure (Except.ok db1)

/-! ## Lookup -/

/-- An IPv6 address, `Q_IPV6ADDR`: sixteen bytes, the first one the most
significant. -/
structure Q_IPV6ADDR where
  c : Fin 16 → uchar

/-- The byte `addr[i]` of an address. -/
def Q_IPV6ADDR.byte (addr : Q_IPV6ADDR) (i : Nat) : Nat :=
  if h : i < 16 then (addr.c ⟨i, h⟩).val else 0

/-- The flag `right` of iteration `k = 8 * i + j` of `lookup`:
`static_cast<bool>((addr[i] >> (7 - j)) & 1)`. -/
def Q_IPV6ADDR.right (addr : Q_IPV6ADDR) (k : Nat) : Bool :=
  ((addr.byte (k / 8) >>> (7 - k % 8)) &&& 1) != 0

/-- What a call of `lookup` leaves behind: the string it returns, the cache
`m_countries` after the call, and how many times it called `readDataField`. -/
structure LookupResult where
  country : QString
  m_countries : QHash Nat QString
  decodeCalls : Nat
  deriving DecidableEq, Repr

/-- The database with the cache `m_countries` replaced, as a call of `lookup`
leaves it. -/
def GeoIPDatabase.withCountries (db : GeoIPDatabase) (cache : QHash Nat QString) :
    GeoIPDatabase :=
  { db with m_countries := cache }

/-- The record that `lookup` reads at `ptr`: `m_recordBytes` bytes are copied to
the low end of the zeroed `quint32 id` and read as a big-endian number.  With
more than four bytes the copy would start before `id`. -/
def readRecord (db : GeoIPDatabase) (ptr : Nat) : Except Fault Nat :=
  if 4 < db.m_recordBytes then Except.error Fault.outOfBounds
  else do
    let bs ← db.bytesAt ptr db.m_recordBytes
    pure (fromBigEndian bs)

/-- The offset `tmp` that `lookup` hands to `readDataField` for the record
value `id`: `offset = id - m_nodeCount - sizeof(DATA_SECTION_SEPARATOR)`, then
`tmp = offset + m_indexSize + sizeof(DATA_SECTION_SEPARATOR)`, each narrowed to
`quint32`. -/
def dataOffset (db : GeoIPDatabase) (id : Nat) : Nat :=
  let offset := sub32 (sub32 id db.m_nodeCount) SEPARATOR_SIZE
  u32 (u32 (offset + db.m_indexSize) + SEPARATOR_SIZE)

/-- The country code that `lookup` takes from a decoded hash:
`val.toHash()["country"].toHash()["iso_code"].toString()`. -/
def countryOf (qt : Qt) (val : QVariant) : QString :=
  QVariant.toString qt
    (QVariantHash.get (QVariantHash.get val.toHash "country").toHash "iso_code")

/-- The branch `id > m_nodeCount` of `lookup`: the cached country or, when
there is none or an empty one, the one decoded from the data section. -/
def lookupData (qt : Qt) (db : GeoIPDatabase) (fuel id : Nat) : Except Fault LookupResult :=
  let country := QHash.value db.m_countries id ""
  if country = "" then do
    let r ← readDataField qt db fuel (dataOffset db id)
    if r.1.userType = QMetaType.QVariantHash then
      pure { country := countryOf qt r.1,
             m_countries := QHash.insert db.m_countries id (countryOf qt r.1),
             decodeCalls := 1 }
    else pure { country := country, m_countries := db.m_countries, decodeCalls := 1 }
  else pure { country := country, m_countries := db.m_countries, decodeCalls := 0 }

/-- The two nested loops of `lookup` as one: `steps` iterations are left, the
next one is iteration `k` (byte `k / 8` of the address, bit `7 - k % 8`), and
the cursor `ptr` is an offset into `m_data`. -/
def lookupLoop (qt : Qt) (db : GeoIPDatabase) (addr : Q_IPV6ADDR) (fuel : Nat) :
    Nat → Nat → Nat → Except Fault LookupResult
  | 0, _, _ => pure { country := "", m_countries := db.m_countries, decodeCalls := 0 }
  | steps + 1, k, ptr =>
    let ptr1 := if addr.right k then ptr + db.m_recordBytes else ptr
    do
      let id ← readRecord db ptr1
      if id = db.m_nodeCount then
        pure { country := "", m_countries := db.m_countries, decodeCalls := 0 }
      else if id > db.m_nodeCount then lookupData qt db fuel id
      else lookupLoop qt db addr fuel steps (k + 1) (u32 (id * db.m_nodeSize))

/-- The function `GeoIPDatabase::lookup`. -/
def lookup (qt : Qt) (db : GeoIPDatabase) (hostAddr : Q_IPV6ADDR) (fuel : Nat) :
    Except Fault LookupResult :=
  lookupLoop qt db hostAddr fuel 128 0 0

/-! ## The traversal on its own -/

/-- How the index traversal of `lookup` ends: at iteration `step` on a record
equal to the node count, at iteration `step` on a record `id` above the node
count, or after all 128 iterations. -/
inductive Traversal where
  | noMatch (step : Nat)
  | data (step : Nat) (id : Nat)
  | exhausted
  deriving DecidableEq, Repr

/-- The loop of `lookup` without the body of its branch `id > m_nodeCount`:
only the end of the traversal is reported. -/
def traverseLoop (db : GeoIPDatabase) (addr : Q_IPV6ADDR) :
    Nat → Nat → Nat → Except Fault Traversal
  | 0, _, _ => pure Traversal.exhausted
  | steps + 1, k, ptr =>
    let ptr1 := if addr.right k then ptr + db.m_recordBytes else ptr
    do
      let id ← readRecord db ptr1
      if id = db.m_nodeCount then pure (Traversal.noMatch k)
      else if id > db.m_nodeCount then pure (Traversal.data k id)
      else traverseLoop db addr steps (k + 1) (u32 (id * db.m_nodeSize))

/-- The index traversal that `lookup` performs for an address. -/
def traverse (db : GeoIPDatabase) (addr : Q_IPV6ADDR) : Except Fault Traversal :=
  traverseLoop db addr 128 0 0

/-- What `lookup` returns once its traversal has ended. -/
def finish (qt : Qt) (db : GeoIPDatabase) (fuel : Nat) : Traversal → Except Fault LookupResult
  | Traversal.noMatch _ =>
    pure { country := "", m_countries := db.m_countries, decodeCalls := 0 }
  | Traversal.data _ id => lookupData qt db fuel id
  | Traversal.exhausted =>
    pure { country := "", m_countries := db.m_countries, decodeCalls := 0 }

/-- The reference trie walk, in the words of the specification: from node
`node` at step `k`, bit `7 - k mod 8` of address byte `k / 8` selects the first
(bit 0) or second (bit 1) record of the node, the child id is
`65536 * B[p] + 256 * B[p+1] + B[p+2]` with `p = 6 * node + 3 * bit`, and a child
id below the node count is the next node. -/
def referenceWalk (B : List uchar) (nodeCount : Nat) (addr : Q_IPV6ADDR) :
    Nat → Nat → Nat → Except Fault Traversal
  | 0, _, _ => pure Traversal.exhausted
  | steps + 1, k, node =>
    let bit : Nat := if (addr.byte (k / 8)).testBit (7 - k % 8) then 1 else 0
    let p := 6 * node + 3 * bit
    match B.get? p, B.get? (p + 1), B.get? (p + 2) with
    | some b0, some b1, some b2 =>
      let child := 65536 * b0.val + 256 * b1.val + b2.val
      if child = nodeCount then pure (Traversal.noMatch k)
      else if child > nodeCount then pure (Traversal.data k child)
      else referenceWalk B nodeCount addr steps (k + 1) child
    | _, _, _ => Except.error Fault.outOfBounds

/-- The cache states that calls of `lookup` lead to: `LookupSteps qt db c c1`
holds when some sequence of successful lookups on the database `db`, started
with the cache `c`, ends with the cache `c1`. -/
inductive LookupSteps (qt : Qt) (db : GeoIPDatabase) :
    QHash Nat QString → QHash Nat QString → Prop where
  | refl (c : QHash Nat QString) : LookupSteps qt db c c
  | step {c c1 : QHash Nat QString} (addr : Q_IPV6ADDR) (fuel : Nat) (r : LookupResult) :
      LookupSteps qt db c c1 →
      lookup qt (db.withCountries c1) addr fuel = Except.ok r →
      LookupSteps qt db c r.m_countries

/-! ## Notions used to state the properties -/

/-- The step at which a traversal ended, when it did not run through all
iterations. -/
def Traversal.endStep : Traversal → Option Nat
  | Traversal.noMatch k => some k
  | Traversal.data k _ => some k
  | Traversal.exhausted => none

/-- One reader extends another when it returns every result the other returns. -/
def ReaderLe (rd rd1 : Nat → Except Fault (QVariant × Nat)) : Prop :=
  ∀ offset r, rd offset = Except.ok r → rd1 offset = Except.ok r

/-- Every entry of the cache is the country code of the value decoded at the
offset of its record value. -/
def CacheSound (qt : Qt) (db : GeoIPDatabase) (c : QHash Nat QString) : Prop :=
  ∀ id s, QHash.find c id = some s →
    ∃ fuel r, readDataField qt db fuel (dataOffset db id) = Except.ok r
      ∧ r.1.userType = QMetaType.QVariantHash ∧ s = countryOf qt r.1

/-! ## Test databases -/

/-- The bytes of a 7-bit ASCII text. -/
def ascii (s : String) : List uchar := s.toList.map (fun c => Fin.ofNat c.toNat)

/-- A stand-in for the Qt library that reads every byte as one character. -/
def qtAscii : Qt :=
  { fromUtf8 := asciiString
    fromUtf8_ascii := fun _ _ => rfl
    numberDouble := fun _ => ""
    numberFloat := fun _ => "" }

/-- The Qt library `qt`, with `fromUtf8` replaced on 7-bit ASCII input by the
reading that `qt` is known to give there. -/
def Qt.normal (qt : Qt) : Qt :=
  { fromUtf8 := fun bs =>
      if bs.all (fun b => decide (b.val < 128)) then asciiString bs else qt.fromUtf8 bs
    fromUtf8_ascii := by
      intro bs h
      have : bs.all (fun b => decide (b.val < 128)) = true := by
        simpa [List.all_eq_true] using h
      simp [this]
    numberDouble := qt.numberDouble
    numberFloat := qt.numberFloat }

/-- A metadata block as it is encoded after the marker: format 2.0, IP version
6, record size 24, the node count given by its encoded field, type `Test`,
build epoch 5. -/
def metadataBytes (nodeCount : List uchar) : List uchar :=
  [0xE7, 0x5B] ++ ascii "binary_format_major_version" ++ [0xA1, 2]
  ++ [0x5B] ++ ascii "binary_format_minor_version" ++ [0xA1, 0]
  ++ [0x4A] ++ ascii "ip_version" ++ [0xA1, 6]
  ++ [0x4B] ++ ascii "record_size" ++ [0xA1, 24]
  ++ [0x4A] ++ ascii "node_count" ++ nodeCount
  ++ [0x4D] ++ ascii "database_type" ++ [0x44] ++ ascii "Test"
  ++ [0x4B] ++ ascii "build_epoch" ++ [0x01, 0x02, 0x05]

/-- The metadata hash that `metadataBytes` decodes to. -/
def metadataHash (nodeCount : Nat) : QVariantHash :=
  [("build_epoch", QVariant.ulonglong 5), ("database_type", QVariant.string "Test"),
   ("node_count", QVariant.uint nodeCount), ("record_size", QVariant.ushort 24),
   ("ip_version", QVariant.ushort 6), ("binary_format_minor_version", QVariant.ushort 0),
   ("binary_format_major_version", QVariant.ushort 2)]

/-- A database file with two nodes.  Node 0: bit 0 leads to node 1, bit 1 to
the node count (no match).  Node 1: bit 0 leads to the record value 40, bit 1
to the record value 18.  The data section holds, at offset 28 (record value
18), the map `country -> (iso_code -> US)` and, at offset 50 (record value 40),
the map `continent -> EU`. -/
def countryFile : List uchar :=
  [0, 0, 1, 0, 0, 2, 0, 0, 40, 0, 0, 18] ++ List.replicate 16 0
  ++ [0xE1, 0x47] ++ ascii "country" ++ [0xE1, 0x48] ++ ascii "iso_code" ++ [0x42] ++ ascii "US"
  ++ [0xE1, 0x49] ++ ascii "continent" ++ [0x42] ++ ascii "EU"
  ++ METADATA_BEGIN_MARK ++ metadataBytes [0xC1, 2]

/-- The database object right after construction from `countryFile`. -/
def countryDb0 : GeoIPDatabase :=
  { m_ipVersion := 0, m_recordSize := 0, m_nodeCount := 0, m_nodeSize := 0, m_indexSize := 0,
    m_recordBytes := 0, m_buildEpoch := 0, m_dbType := "", m_countries := [],
    m_size := 213, m_data := countryFile }

/-- The database that `load` returns for `countryFile`. -/
def countryDb : GeoIPDatabase :=
  { m_ipVersion := 6, m_recordSize := 24, m_nodeCount := 2, m_nodeSize := 6, m_indexSize := 12,
    m_recordBytes := 3, m_buildEpoch := 5, m_dbType := "Test", m_countries := [],
    m_size := 213, m_data := countryFile }

/-- An address whose first two bits are 0 and 1. -/
def addr01 : Q_IPV6ADDR := ⟨fun i => if i = 0 then 0x40 else 0⟩

/-- An address whose first two bits are 0 and 0. -/
def addr00 : Q_IPV6ADDR := ⟨fun _ => 0⟩

/-- An address whose first bit is 1. -/
def addr1 : Q_IPV6ADDR := ⟨fun i => if i = 0 then 0x80 else 0⟩

/-- A database file with two nodes in which the record value 18 (bit path 0,
1) leads to the map `country -> (iso_code -> 840)`, the code being an unsigned
32-bit integer and not a string. -/
def isoNumberFile : List uchar :=
  [0, 0, 1, 0, 0, 2, 0, 0, 2, 0, 0, 18] ++ List.replicate 16 0
  ++ [0xE1, 0x47] ++ ascii "country" ++ [0xE1, 0x48] ++ ascii "iso_code" ++ [0xC2, 0x03, 0x48]
  ++ METADATA_BEGIN_MARK ++ metadataBytes [0xC1, 2]

/-- The database object right after construction from `isoNumberFile`. -/
def isoNumberDb0 : GeoIPDatabase :=
  { m_ipVersion := 0, m_recordSize := 0, m_nodeCount := 0, m_nodeSize := 0, m_indexSize := 0,
    m_recordBytes := 0, m_buildEpoch := 0, m_dbType := "", m_countries := [],
    m_size := 199, m_data := isoNumberFile }

/-- The database that `load` returns for `isoNumberFile`. -/
def isoNumberDb : GeoIPDatabase :=
  { m_ipVersion := 6, m_recordSize := 24, m_nodeCount := 2, m_nodeSize := 6, m_indexSize := 12,
    m_recordBytes := 3, m_buildEpoch := 5, m_dbType := "Test", m_countries := [],
    m_size := 199, m_data := isoNumberFile }

/-- A database file whose metadata gives the node count 715827883, so that
six times the node count is `2^32 + 2`: two index bytes, the separator, the
marker and the metadata. -/
def wrapFile : List uchar :=
  [0xFF, 0xFF] ++ List.replicate 16 0
  ++ METADATA_BEGIN_MARK ++ metadataBytes [0xC4, 0x2A, 0xAA, 0xAA, 0xAB]

/-- The database object right after construction from `wrapFile`. -/
def wrapDb0 : GeoIPDatabase :=
  { m_ipVersion := 0, m_recordSize := 0, m_nodeCount := 0, m_nodeSize := 0, m_indexSize := 0,
    m_recordBytes := 0, m_buildEpoch := 0, m_dbType := "", m_countries := [],
    m_size := 170, m_data := wrapFile }

/-- The database that `load` returns for `wrapFile`. -/
def wrapDb : GeoIPDatabase :=
  { m_ipVersion := 6, m_recordSize := 24, m_nodeCount := 715827883, m_nodeSize := 6,
    m_indexSize := 2, m_recordBytes := 3, m_buildEpoch := 5, m_dbType := "Test",
    m_countries := [], m_size := 170, m_data := wrapFile }

/-! ## Notions used to state the properties of loading -/

/-- A metadata map holds, under `key`, a value of the type `type`. -/
def HasType (md : QVariantHash) (key : QString) (type : QMetaType) : Prop :=
  QHash.contains md key = true ∧ (QHash.value md key QVariant.invalid).userType = type

/-- The required keys of the metadata map, in the words of the specification
(4.1): the binary-format major version, an unsigned 16-bit value equal to 2;
the IP version, an unsigned 16-bit value equal to 6; the record size, an
unsigned 16-bit value equal to 24; the node count, an unsigned 32-bit value;
the database type, a string; the build epoch, an unsigned 64-bit value. -/
def SpecRequiredMetadata (md : QVariantHash) : Prop :=
  HasType md "binary_format_major_version" QMetaType.UShort
  ∧ (QHash.value md "binary_format_major_version" QVariant.invalid).toUInt = 2
  ∧ HasType md "ip_version" QMetaType.UShort
  ∧ (QHash.value md "ip_version" QVariant.invalid).valueUShort = 6
  ∧ HasType md "record_size" QMetaType.UShort
  ∧ (QHash.value md "record_size" QVariant.invalid).valueUShort = 24
  ∧ HasType md "node_count" QMetaType.UInt
  ∧ HasType md "database_type" QMetaType.QString
  ∧ HasType md "build_epoch" QMetaType.ULongLong

/-- The optional keys of the metadata map, in the words of the specification
(4.1): the language list and the description map are type-checked if present. -/
def SpecOptionalMetadata (md : QVariantHash) : Prop :=
  (QHash.contains md "languages" = true →
    (QHash.value md "languages" QVariant.invalid).userType = QMetaType.QVariantList)
  ∧ (QHash.contains md "description" = true →
    (QHash.value md "description" QVariant.invalid).userType = QMetaType.QVariantHash)

/-- The marker `METADATA_BEGIN_MARK` occurs in `data` at index `i`, entirely
inside `data`. -/
def MarkerAt (data : List uchar) (i : Nat) : Prop :=
  (data.drop i).take 14 = METADATA_BEGIN_MARK

/-- The index `i` is the greatest index not below `size - 131072` at which the
marker occurs entirely inside `data`, `size` being the length of `data`. -/
def LastMarker (data : List uchar) (i : Nat) : Prop :=
  data.length - 131072 ≤ i ∧ MarkerAt data i ∧ ∀ j, i < j → ¬ MarkerAt data j

/-- The key/value pairs that the loop of `GeoIPDatabase::readMapValue` reads
with the reader `rd`, in the order in which they are encoded, and the offset
after them; `none` when the loop returns the invalid variant. -/
def readPairsWith (rd : Nat → Except Fault (QVariant × Nat)) :
    Nat → Nat → Except Fault (Option (List (QString × QVariant)) × Nat)
  | 0, offset => pure (some [], offset)
  | count + 1, offset => do
    let (key, offset1) ← rd offset
    match key with
    | QVariant.string k => do
      let (field, offset2) ← rd offset1
      if field.userType = QMetaType.UnknownType then pure (none, offset2)
      else do
        let (rest, offset3) ← readPairsWith rd count offset2
        pure (rest.map (fun ps => (k, field) :: ps), offset3)
    | _ => pure (none, offset1)

/-- The value of the last pair with the key `k` in a list of key/value pairs. -/
def lastValue (ps : List (QString × QVariant)) (k : QString) : Option QVariant :=
  (ps.reverse.find? (fun p => decide (p.1 = k))).map (fun p => p.2)

/-! ## Test buffers for loading and decoding -/

/-- A metadata hash with every key that the specification lists as required
and without the key `binary_format_minor_version`. -/
def metadataHashNoMinor : QVariantHash :=
  [("build_epoch", QVariant.ulonglong 5), ("database_type", QVariant.string "Test"),
   ("node_count", QVariant.uint 2), ("record_size", QVariant.ushort 24),
   ("ip_version", QVariant.ushort 6), ("binary_format_major_version", QVariant.ushort 2)]

/-- A buffer in which the marker is followed by the string `US`, not by a map. -/
def markerStringFile : List uchar := METADATA_BEGIN_MARK ++ [0x42] ++ ascii "US"

/-- A metadata block in which the key `record_size` is encoded twice, first
with the value 16 and then with the value 24. -/
def dupMetadataBytes : List uchar :=
  [0xE8, 0x5B] ++ ascii "binary_format_major_version" ++ [0xA1, 2]
  ++ [0x5B] ++ ascii "binary_format_minor_version" ++ [0xA1, 0]
  ++ [0x4A] ++ ascii "ip_version" ++ [0xA1, 6]
  ++ [0x4B] ++ ascii "record_size" ++ [0xA1, 16]
  ++ [0x4B] ++ ascii "record_size" ++ [0xA1, 24]
  ++ [0x4A] ++ ascii "node_count" ++ [0xC1, 2]
  ++ [0x4D] ++ ascii "database_type" ++ [0x44] ++ ascii "Test"
  ++ [0x4B] ++ ascii "build_epoch" ++ [0x01, 0x02, 0x05]

/-- The pairs encoded in `dupMetadataBytes`, in their order. -/
def dupPairs : List (QString × QVariant) :=
  [("binary_format_major_version", QVariant.ushort 2),
   ("binary_format_minor_version", QVariant.ushort 0),
   ("ip_version", QVariant.ushort 6), ("record_size", QVariant.ushort 16),
   ("record_size", QVariant.ushort 24), ("node_count", QVariant.uint 2),
   ("database_type", QVariant.string "Test"), ("build_epoch", QVariant.ulonglong 5)]

/-- A database file with two nodes and the metadata block `dupMetadataBytes`. -/
def dupFile : List uchar :=
  [0, 0, 1, 0, 0, 2, 0, 0, 40, 0, 0, 18] ++ List.replicate 16 0
  ++ METADATA_BEGIN_MARK ++ dupMetadataBytes

/-- The database object right after construction from `dupFile`. -/
def dupDb0 : GeoIPDatabase :=
  { m_ipVersion := 0, m_recordSize := 0, m_nodeCount := 0, m_nodeSize := 0, m_indexSize := 0,
    m_recordBytes := 0, m_buildEpoch := 0, m_dbType := "", m_countries := [],
    m_size := 191, m_data := dupFile }

/-- The database that `load` returns for `dupFile`. -/
def dupDb : GeoIPDatabase :=
  { m_ipVersion := 6, m_recordSize := 24, m_nodeCount := 2, m_nodeSize := 6, m_indexSize := 12,
    m_recordBytes := 3, m_buildEpoch := 5, m_dbType := "Test", m_countries := [],
    m_size := 191, m_data := dupFile }

/-- A database file whose metadata gives the node count 715827880, so that
six times the node count is `2^32 - 16`, which is -16 as an `int`. -/
def negFile : List uchar :=
  [0xFF, 0xFF] ++ List.replicate 16 0
  ++ METADATA_BEGIN_MARK ++ metadataBytes [0xC4, 0x2A, 0xAA, 0xAA, 0xA8]

/-- The database object right after construction from `negFile`. -/
def negDb0 : GeoIPDatabase :=
  { m_ipVersion := 0, m_recordSize := 0, m_nodeCount := 0, m_nodeSize := 0, m_indexSize := 0,
    m_recordBytes := 0, m_buildEpoch := 0, m_dbType := "", m_countries := [],
    m_size := 170, m_data := negFile }

/-- The database object on which `load` calls `loadDB` for `negFile`. -/
def negDb : GeoIPDatabase :=
  { m_ipVersion := 6, m_recordSize := 24, m_nodeCount := 715827880, m_nodeSize := 6,
    m_indexSize := 4294967280, m_recordBytes := 3, m_buildEpoch := 5, m_dbType := "Test",
    m_countries := [], m_size := 170, m_data := negFile }

/-- A database file with two nodes whose data section holds, at offset 28, the
string `US`, at offset 31 a pointer of size class 0 with the value 0 (to the
string) and at offset 33 a pointer of size class 0 with the value 3 (to the
pointer before it). -/
def pointerFile : List uchar :=
  [0, 0, 1, 0, 0, 2, 0, 0, 40, 0, 0, 18] ++ List.replicate 16 0
  ++ [0x42] ++ ascii "US" ++ [0x20, 0x00] ++ [0x20, 0x03]
  ++ METADATA_BEGIN_MARK ++ metadataBytes [0xC1, 2]

/-- The database object right after construction from `pointerFile`. -/
def pointerDb0 : GeoIPDatabase :=
  { m_ipVersion := 0, m_recordSize := 0, m_nodeCount := 0, m_nodeSize := 0, m_indexSize := 0,
    m_recordBytes := 0, m_buildEpoch := 0, m_dbType := "", m_countries := [],
    m_size := 184, m_data := pointerFile }

/-- The database that `load` returns for `pointerFile`. -/
def pointerDb : GeoIPDatabase :=
  { m_ipVersion := 6, m_recordSize := 24, m_nodeCount := 2, m_nodeSize := 6, m_indexSize := 12,
    m_recordBytes := 3, m_buildEpoch := 5, m_dbType := "Test", m_countries := [],
    m_size := 184, m_data := pointerFile }

/-- A buffer in which the marker is followed by the descriptor of a string of
five bytes and by two bytes only. -/
def truncatedStringFile : List uchar := METADATA_BEGIN_MARK ++ [0x45] ++ ascii "US"

/-- A buffer in which the marker is followed by the descriptor of a byte array
of five bytes and by two bytes only. -/
def truncatedBytesFile : List uchar := METADATA_BEGIN_MARK ++ [0x85] ++ ascii "US"

/-- A metadata block like `metadataBytes` with the node count 2 and the record
size 16. -/
def metadataBytes16 : List uchar :=
  [0xE7, 0x5B] ++ ascii "binary_format_major_version" ++ [0xA1, 2]
  ++ [0x5B] ++ ascii "binary_format_minor_version" ++ [0xA1, 0]
  ++ [0x4A] ++ ascii "ip_version" ++ [0xA1, 6]
  ++ [0x4B] ++ ascii "record_size" ++ [0xA1, 16]
  ++ [0x4A] ++ ascii "node_count" ++ [0xC1, 2]
  ++ [0x4D] ++ ascii "database_type" ++ [0x44] ++ ascii "Test"
  ++ [0x4B] ++ ascii "build_epoch" ++ [0x01, 0x02, 0x05]

/-- The metadata hash that `metadataBytes16` decodes to. -/
def metadataHash16 : QVariantHash :=
  [("build_epoch", QVariant.ulonglong 5), ("database_type", QVariant.string "Test"),
   ("node_count", QVariant.uint 2), ("record_size", QVariant.ushort 16),
   ("ip_version", QVariant.ushort 6), ("binary_format_minor_version", QVariant.ushort 0),
   ("binary_format_major_version", QVariant.ushort 2)]

/-- A database file with two nodes whose metadata give the record size 16. -/
def recordSize16File : List uchar :=
  [0, 0, 1, 0, 0, 2, 0, 0, 40, 0, 0, 18] ++ List.replicate 16 0
  ++ METADATA_BEGIN_MARK ++ metadataBytes16

/-- The database object right after construction from `recordSize16File`. -/
def recordSize16Db0 : GeoIPDatabase :=
  { m_ipVersion := 0, m_recordSize := 0, m_nodeCount := 0, m_nodeSize := 0, m_indexSize := 0,
    m_recordBytes := 0, m_buildEpoch := 0, m_dbType := "", m_countries := [],
    m_size := 177, m_data := recordSize16File }

/-! ## Notions used to state the properties of the decoder -/

/-- The byte `m_data[i]` as a number, and zero outside the buffer. -/
def GeoIPDatabase.byte (db : GeoIPDatabase) (i : Nat) : Nat := (db.m_data.getD i 0).val

/-- The offsets into `m_data` at which the loop of `lookup` reads a record, in
the order of the reads: the loop as in `traverseLoop`, with the cursor of each
read written down. -/
def readOffsets (db : GeoIPDatabase) (addr : Q_IPV6ADDR) : Nat → Nat → Nat → List Nat
  | 0, _, _ => []
  | steps + 1, k, ptr =>
    let ptr1 := if addr.right k then ptr + db.m_recordBytes else ptr
    ptr1 ::
      (match readRecord db ptr1 with
       | Except.ok id =>
         if id = db.m_nodeCount then []
         else if id > db.m_nodeCount then []
         else readOffsets db addr steps (k + 1) (u32 (id * db.m_nodeSize))
       | Except.error _ => [])

/-- The target of a pointer with the descriptor `d`, as `readDataField`
computes it: `descr.offset + (m_nodeCount * m_recordSize / 4)
+ sizeof(DATA_SECTION_SEPARATOR)`, narrowed to `quint32`. -/
def pointerTarget (db : GeoIPDatabase) (d : DataFieldDescriptor) : Nat :=
  u32 (d.offset + u32 (db.m_nodeCount * db.m_recordSize) / 4 + SEPARATOR_SIZE)

/-- The target of the pointer field at offset `o`, when the descriptor at `o`
is that of a pointer. -/
def pointerTargetAt (db : GeoIPDatabase) (o : Nat) : Option Nat :=
  match readDataFieldDescriptor db o with
  | Except.ok (some (_, d)) =>
    if d.fieldType = DataType.Pointer then some (pointerTarget db d) else none
  | _ => none

/-- Whether the descriptor at offset `t` is that of a map or of an array. -/
def containerAt (db : GeoIPDatabase) (t : Nat) : Bool :=
  match readDataFieldDescriptor db t with
  | Except.ok (some (_, d)) =>
    decide (d.fieldType = DataType.Map) || decide (d.fieldType = DataType.Array)
  | _ => false

/-- The field at the target of every pointer that leads to a map or an array
is complete before the pointer: `readDataField` at the target returns, and the
offset it returns, the end of the target field, is not above the offset of the
pointer field. -/
def TargetsComplete (qt : Qt) (db : GeoIPDatabase) : Prop :=
  ∀ o t, pointerTargetAt db o = some t → containerAt db t = true →
    ∃ fuel r, readDataField qt db fuel t = Except.ok r ∧ r.2 ≤ o

/-- A metadata block like `metadataBytes` with the node count 2 and an eighth
pair, the key `x` with the boolean `true`, whose two descriptor bytes (type
tag 0, size 1, extended type 14) are the last bytes of the block. -/
def extTailMetadataBytes : List uchar :=
  [0xE8, 0x5B] ++ ascii "binary_format_major_version" ++ [0xA1, 2]
  ++ [0x5B] ++ ascii "binary_format_minor_version" ++ [0xA1, 0]
  ++ [0x4A] ++ ascii "ip_version" ++ [0xA1, 6]
  ++ [0x4B] ++ ascii "record_size" ++ [0xA1, 24]
  ++ [0x4A] ++ ascii "node_count" ++ [0xC1, 2]
  ++ [0x4D] ++ ascii "database_type" ++ [0x44] ++ ascii "Test"
  ++ [0x4B] ++ ascii "build_epoch" ++ [0x01, 0x02, 0x05]
  ++ [0x41] ++ ascii "x" ++ [0x01, 0x07]

/-- A database file with two nodes that ends with `extTailMetadataBytes`: the
boolean field occupies its last two bytes. -/
def extTailFile : List uchar :=
  [0, 0, 1, 0, 0, 2, 0, 0, 40, 0, 0, 18] ++ List.replicate 16 0
  ++ METADATA_BEGIN_MARK ++ extTailMetadataBytes

/-- The database object right after construction from `extTailFile`. -/
def extTailDb0 : GeoIPDatabase :=
  { m_ipVersion := 0, m_recordSize := 0, m_nodeCount := 0, m_nodeSize := 0, m_indexSize := 0,
    m_recordBytes := 0, m_buildEpoch := 0, m_dbType := "", m_countries := [],
    m_size := 181, m_data := extTailFile }

/-- The database object right after construction from `extTailFile` followed
by one more byte. -/
def extTailPlusDb0 : GeoIPDatabase :=
  { m_ipVersion := 0, m_recordSize := 0, m_nodeCount := 0, m_nodeSize := 0, m_indexSize := 0,
    m_recordBytes := 0, m_buildEpoch := 0, m_dbType := "", m_countries := [],
    m_size := 182, m_data := extTailFile ++ [0] }

/-- The database that `load` returns for `extTailFile` followed by one more
byte. -/
def extTailPlusDb : GeoIPDatabase :=
  { m_ipVersion := 6, m_recordSize := 24, m_nodeCount := 2, m_nodeSize := 6, m_indexSize := 12,
    m_recordBytes := 3, m_buildEpoch := 5, m_dbType := "Test", m_countries := [],
    m_size := 182, m_data := extTailFile ++ [0] }

/-- A database file with two nodes in which the record value 18 (bit path 0,
1) leads to a pointer of size class 3 with the value `0xFFFFFF00`. -/
def farPointerFile : List uchar :=
  [0, 0, 1, 0, 0, 2, 0, 0, 40, 0, 0, 18] ++ List.replicate 16 0
  ++ [0x38, 0xFF, 0xFF, 0xFF, 0x00]
  ++ METADATA_BEGIN_MARK ++ metadataBytes [0xC1, 2]

/-- The database object right after construction from `farPointerFile`. -/
def farPointerDb0 : GeoIPDatabase :=
  { m_ipVersion := 0, m_recordSize := 0, m_nodeCount := 0, m_nodeSize := 0, m_indexSize := 0,
    m_recordBytes := 0, m_buildEpoch := 0, m_dbType := "", m_countries := [],
    m_size := 182, m_data := farPointerFile }

/-- The database that `load` returns for `farPointerFile`. -/
def farPointerDb : GeoIPDatabase :=
  { m_ipVersion := 6, m_recordSize := 24, m_nodeCount := 2, m_nodeSize := 6, m_indexSize := 12,
    m_recordBytes := 3, m_buildEpoch := 5, m_dbType := "Test", m_countries := [],
    m_size := 182, m_data := farPointerFile }

/-- A buffer with a pointer of size class 1 at offset 0 (control byte `0x29`,
then 1 and 2) and, at offset 3, the descriptor of a string of size class 29
(control byte `0x5D`, then 3). -/
def selectorFile : List uchar := [0x29, 0x01, 0x02, 0x5D, 0x03, 0x00]

/-- The database object right after construction from `selectorFile`. -/
def selectorDb : GeoIPDatabase :=
  { m_ipVersion := 0, m_recordSize := 0, m_nodeCount := 0, m_nodeSize := 0, m_indexSize := 0,
    m_recordBytes := 0, m_buildEpoch := 0, m_dbType := "", m_countries := [],
    m_size := 6, m_data := selectorFile }

/-- A buffer that holds a byte array of three bytes: the control byte `0x83`
(type tag 4, size 3), the bytes 1, 2, 3, and one more byte. -/
def bytesFile : List uchar := [0x83, 1, 2, 3, 9]

/-- The database object right after construction from `bytesFile`. -/
def bytesDb : GeoIPDatabase :=
  { m_ipVersion := 0, m_recordSize := 0, m_nodeCount := 0, m_nodeSize := 0, m_indexSize := 0,
    m_recordBytes := 0, m_buildEpoch := 0, m_dbType := "", m_countries := [],
    m_size := 5, m_data := bytesFile }

/-- A buffer that holds a map of two pairs whose second key is a boolean: the
pair `a -> US`, then the key `true`. -/
def badKeyFile : List uchar := [0xE2, 0x41, 97, 0x42, 85, 83, 0x01, 0x07, 0x41, 98]

/-- The database object right after construction from `badKeyFile`. -/
def badKeyDb : GeoIPDatabase :=
  { m_ipVersion := 0, m_recordSize := 0, m_nodeCount := 0, m_nodeSize := 0, m_indexSize := 0,
    m_recordBytes := 0, m_buildEpoch := 0, m_dbType := "", m_countries := [],
    m_size := 10, m_data := badKeyFile }

/-- A database object without nodes whose data section, at offset 16, holds a
map of one pair: the key `a` and, at offset 19, a pointer with the value 0,
whose target is the map itself. -/
def cycleDb : GeoIPDatabase :=
  { m_ipVersion := 6, m_recordSize := 24, m_nodeCount := 0, m_nodeSize := 6, m_indexSize := 0,
    m_recordBytes := 3, m_buildEpoch := 0, m_dbType := "", m_countries := [],
    m_size := 21, m_data := List.replicate 16 0 ++ [0xE1, 0x41, 97, 0x20, 0x00] }

@[simp] theorem Except.bind_ok_eq {ε α β : Type} (a : α) (f : α → Except ε β) :
    (Except.ok a >>= f) = f a := rfl

@[simp] theorem Except.bind_error_eq {ε α β : Type} (e : ε) (f : α → Except ε β) :
    ((Except.error e : Except ε α) >>= f) = Except.error e := rfl

@[simp] theorem Except.pure_eq {ε α : Type} (a : α) : (pure a : Except ε α) = Except.ok a := rfl

theorem Except.bind_eq_ok {ε α β : Type} {x : Except ε α} {f : α → Except ε β} {b : β}
    (h : (x >>= f) = Except.ok b) : ∃ a, x = Except.ok a ∧ f a = Except.ok b := by
  cases x with
  | error e => simp at h
  | ok a => exact ⟨a, rfl, by simpa using h⟩

/-- `lookup` is its traversal followed by `finish`. -/
theorem lookupLoop_eq_traverseLoop (qt : Qt) (db : GeoIPDatabase) (addr : Q_IPV6ADDR) (fuel : Nat) :
    ∀ steps k ptr, lookupLoop qt db addr fuel steps k ptr
      = (traverseLoop db addr steps k ptr >>= finish qt db fuel) := by
  intro steps
  induction steps with
  | zero => intro k ptr; rfl
  | succ n ih =>
    intro k ptr
    simp only [lookupLoop, traverseLoop]
    cases hrec : readRecord db (if addr.right k then ptr + db.m_recordBytes else ptr) with
    | error e => simp
    | ok id =>
      simp only [Except.bind_ok_eq]
      by_cases h1 : id = db.m_nodeCount
      · simp [h1, finish]
      · by_cases h2 : id > db.m_nodeCount
        · simp [h1, h2, finish]
        · simp only [h1, h2, if_false]
          exact ih _ _

theorem lookup_eq_traverse (qt : Qt) (db : GeoIPDatabase) (addr : Q_IPV6ADDR) (fuel : Nat) :
    lookup qt db addr fuel = (traverse db addr >>= finish qt db fuel) :=
  lookupLoop_eq_traverseLoop qt db addr fuel 128 0 0

/-! ## The traversal -/

theorem traverseLoop_withCountries (db : GeoIPDatabase) (c : QHash Nat QString)
    (addr : Q_IPV6ADDR) : ∀ steps k ptr,
    traverseLoop (db.withCountries c) addr steps k ptr = traverseLoop db addr steps k ptr := by
  intro steps
  induction steps with
  | zero => intro k ptr; rfl
  | succ n ih =>
    intro k ptr
    have hr : ∀ p, readRecord (db.withCountries c) p = readRecord db p := fun _ => rfl
    have h1 : (db.withCountries c).m_nodeCount = db.m_nodeCount := rfl
    have h2 : (db.withCountries c).m_nodeSize = db.m_nodeSize := rfl
    have h3 : (db.withCountries c).m_recordBytes = db.m_recordBytes := rfl
    simp only [traverseLoop, hr, h1, h2, h3, ih]

theorem traverse_withCountries (db : GeoIPDatabase) (c : QHash Nat QString)
    (addr : Q_IPV6ADDR) : traverse (db.withCountries c) addr = traverse db addr :=
  traverseLoop_withCountries db c addr 128 0 0

/-- A traversal that ends early ends at one of the iterations it ran. -/
theorem traverseLoop_endStep (db : GeoIPDatabase) (addr : Q_IPV6ADDR) :
    ∀ steps k ptr t j, traverseLoop db addr steps k ptr = Except.ok t → t.endStep = some j →
      k ≤ j ∧ j < k + steps := by
  intro steps
  induction steps with
  | zero =>
    intro k ptr t j h hj
    simp only [traverseLoop, Except.pure_eq, Except.ok.injEq] at h
    subst h
    simp [Traversal.endStep] at hj
  | succ n ih =>
    intro k ptr t j h hj
    simp only [traverseLoop] at h
    cases hrec : readRecord db (if addr.right k then ptr + db.m_recordBytes else ptr) with
    | error e => rw [hrec] at h; simp at h
    | ok id =>
      rw [hrec] at h
      simp only [Except.bind_ok_eq] at h
      by_cases h1 : id = db.m_nodeCount
      · simp only [h1, if_true, Except.pure_eq, Except.ok.injEq] at h
        subst h
        simp only [Traversal.endStep, Option.some.injEq] at hj
        omega
      · by_cases h2 : id > db.m_nodeCount
        · simp only [h1, h2, if_true, if_false, Except.pure_eq, Except.ok.injEq] at h
          subst h
          simp only [Traversal.endStep, Option.some.injEq] at hj
          omega
        · simp only [h1, h2, if_false] at h
          have := ih _ _ _ _ h hj
          omega

/-- A traversal that ends at iteration `j` only depends on the address bits up to `j`. -/
theorem traverseLoop_congr (db : GeoIPDatabase) (addr addr1 : Q_IPV6ADDR) :
    ∀ steps k ptr t j, traverseLoop db addr steps k ptr = Except.ok t → t.endStep = some j →
      (∀ i, k ≤ i → i ≤ j → addr1.right i = addr.right i) →
      traverseLoop db addr1 steps k ptr = Except.ok t := by
  intro steps
  induction steps with
  | zero =>
    intro k ptr t j h hj
    simp only [traverseLoop, Except.pure_eq, Except.ok.injEq] at h
    subst h
    simp [Traversal.endStep] at hj
  | succ n ih =>
    intro k ptr t j h hj hbits
    have hkj := (traverseLoop_endStep db addr _ _ _ _ _ h hj).1
    simp only [traverseLoop] at h ⊢
    rw [hbits k (Nat.le_refl k) hkj]
    cases hrec : readRecord db (if addr.right k then ptr + db.m_recordBytes else ptr) with
    | error e => rw [hrec] at h; simp at h
    | ok id =>
      rw [hrec] at h
      simp only [Except.bind_ok_eq] at h ⊢
      by_cases h1 : id = db.m_nodeCount
      · simpa only [h1, if_true] using h
      · by_cases h2 : id > db.m_nodeCount
        · simpa only [h1, h2, if_true, if_false] using h
        · simp only [h1, h2, if_false] at h ⊢
          exact ih _ _ _ _ h hj (fun i hi hij => hbits i (by omega) hij)

theorem fromBigEndian_three (b0 b1 b2 : uchar) :
    fromBigEndian [b0, b1, b2] = 65536 * b0.val + 256 * b1.val + b2.val := by
  simp only [fromBigEndian, List.foldl]
  omega

theorem right_eq_testBit (addr : Q_IPV6ADDR) (k : Nat) :
    addr.right k = (addr.byte (k / 8)).testBit (7 - k % 8) := by
  simp only [Q_IPV6ADDR.right, Nat.testBit, Nat.and_comm]

theorem take_drop_three {α : Type} (l : List α) (p : Nat) (h : p + 3 ≤ l.length) :
    (l.drop p).take 3 = [l[p], l[p + 1], l[p + 2]] := by
  rw [List.drop_eq_getElem_cons (by omega : p < l.length)]
  rw [List.drop_eq_getElem_cons (by omega : p + 1 < l.length)]
  rw [List.drop_eq_getElem_cons (by omega : p + 1 + 1 < l.length)]
  rfl

theorem readRecord_three (db : GeoIPDatabase) (h : db.m_recordBytes = 3) (p : Nat) :
    readRecord db p =
      match db.m_data.get? p, db.m_data.get? (p + 1), db.m_data.get? (p + 2) with
      | some b0, some b1, some b2 => Except.ok (65536 * b0.val + 256 * b1.val + b2.val)
      | _, _, _ => Except.error Fault.outOfBounds := by
  simp only [readRecord, h, GeoIPDatabase.bytesAt, List.get?_eq_getElem?]
  by_cases hlen : p + 3 ≤ db.m_data.length
  · rw [List.getElem?_eq_getElem (by omega : p < db.m_data.length),
      List.getElem?_eq_getElem (by omega : p + 1 < db.m_data.length),
      List.getElem?_eq_getElem (by omega : p + 2 < db.m_data.length)]
    simp [hlen, take_drop_three _ _ hlen, fromBigEndian_three]
  · have h2 : db.m_data[p + 2]? = none := by
      rw [List.getElem?_eq_none_iff]; omega
    rw [h2]
    simp only [hlen]
    cases db.m_data[p]? <;> cases db.m_data[p + 1]? <;> simp

/-- On a database with 6-byte nodes and 3-byte records the traversal of
`lookup` is the reference trie walk. -/
theorem traverseLoop_eq_referenceWalk (db : GeoIPDatabase) (addr : Q_IPV6ADDR)
    (hnode : db.m_nodeSize = 6) (hrec : db.m_recordBytes = 3) :
    ∀ steps k node, traverseLoop db addr steps k (6 * node)
      = referenceWalk db.m_data db.m_nodeCount addr steps k node := by
  intro steps
  induction steps with
  | zero => intro k node; rfl
  | succ n ih =>
    intro k node
    simp only [traverseLoop, referenceWalk, hrec, hnode]
    have hp : (if addr.right k = true then 6 * node + 3 else 6 * node)
        = 6 * node + 3 * (if (addr.byte (k / 8)).testBit (7 - k % 8) = true then 1 else 0) := by
      rw [right_eq_testBit]
      split <;> simp
    rw [hp, readRecord_three db hrec]
    generalize 6 * node + 3 * (if (addr.byte (k / 8)).testBit (7 - k % 8) = true then 1 else 0) = p
    cases h0 : db.m_data.get? p with
    | none => simp
    | some b0 =>
      cases h1 : db.m_data.get? (p + 1) with
      | none => simp
      | some b1 =>
        cases h2 : db.m_data.get? (p + 2) with
        | none => simp
        | some b2 =>
          simp only [Except.bind_ok_eq]
          have hb0 := b0.isLt
          have hb1 := b1.isLt
          have hb2 := b2.isLt
          have hu : u32 ((65536 * b0.val + 256 * b1.val + b2.val) * 6)
              = 6 * (65536 * b0.val + 256 * b1.val + b2.val) := by
            simp only [u32]; omega
          rw [hu, ih]

/-! ## The decoder does not look at the cache, and more fuel does not change a result -/

theorem readDataField_withCountries (qt : Qt) (db : GeoIPDatabase) (c : QHash Nat QString) :
    ∀ fuel offset, readDataField qt (db.withCountries c) fuel offset
      = readDataField qt db fuel offset := by
  intro fuel
  induction fuel with
  | zero => intro offset; rfl
  | succ n ih =>
    intro offset
    have hd : ∀ o, readDataFieldDescriptor (db.withCountries c) o = readDataFieldDescriptor db o :=
      fun _ => rfl
    have hp : ∀ rd d o, readPayload qt (db.withCountries c) rd d o = readPayload qt db rd d o :=
      fun _ _ _ => rfl
    have hf : readDataField qt (db.withCountries c) n = readDataField qt db n := funext ih
    have h1 : (db.withCountries c).m_nodeCount = db.m_nodeCount := rfl
    have h2 : (db.withCountries c).m_recordSize = db.m_recordSize := rfl
    simp only [readDataField, hd, hp, hf, h1, h2]

theorem readMapValueWith_mono {rd rd1 : Nat → Except Fault (QVariant × Nat)}
    (hle : ReaderLe rd rd1) : ∀ count offset map r,
    readMapValueWith rd count offset map = Except.ok r →
    readMapValueWith rd1 count offset map = Except.ok r := by
  intro count
  induction count with
  | zero => intro offset map r h; exact h
  | succ n ih =>
    intro offset map r h
    simp only [readMapValueWith] at h ⊢
    obtain ⟨⟨key, offset1⟩, hk, h⟩ := Except.bind_eq_ok h
    rw [hle _ _ hk]
    simp only [Except.bind_ok_eq]
    cases key with
    | string k =>
      simp only at h ⊢
      obtain ⟨⟨field, offset2⟩, hv, h⟩ := Except.bind_eq_ok h
      rw [hle _ _ hv]
      simp only [Except.bind_ok_eq]
      simp only at h
      split
      · rename_i hu; simpa [hu] using h
      · rename_i hu
        simp only [hu, if_false] at h
        exact ih _ _ _ h
    | _ => exact h

theorem readArrayValueWith_mono {rd rd1 : Nat → Except Fault (QVariant × Nat)}
    (hle : ReaderLe rd rd1) : ∀ count offset array r,
    readArrayValueWith rd count offset array = Except.ok r →
    readArrayValueWith rd1 count offset array = Except.ok r := by
  intro count
  induction count with
  | zero => intro offset array r h; exact h
  | succ n ih =>
    intro offset array r h
    simp only [readArrayValueWith] at h ⊢
    obtain ⟨⟨field, offset1⟩, hv, h⟩ := Except.bind_eq_ok h
    rw [hle _ _ hv]
    simp only [Except.bind_ok_eq]
    simp only at h
    split
    · rename_i hu; simpa [hu] using h
    · rename_i hu
      simp only [hu, if_false] at h
      exact ih _ _ _ h

theorem readPayload_map (qt : Qt) (db : GeoIPDatabase) (rd : Nat → Except Fault (QVariant × Nat))
    (descr : DataFieldDescriptor) (locOffset : Nat) (h : descr.fieldType = DataType.Map) :
    readPayload qt db rd descr locOffset = readMapValueWith rd descr.fieldSize locOffset [] := by
  simp [readPayload, h, DataType.Map, DataType.Pointer, DataType.String, DataType.Double,
    DataType.Bytes, DataType.Integer16, DataType.Integer32]

theorem readPayload_array (qt : Qt) (db : GeoIPDatabase)
    (rd : Nat → Except Fault (QVariant × Nat))
    (descr : DataFieldDescriptor) (locOffset : Nat) (h : descr.fieldType = DataType.Array) :
    readPayload qt db rd descr locOffset = readArrayValueWith rd descr.fieldSize locOffset [] := by
  simp [readPayload, h, DataType.Map, DataType.Pointer, DataType.String, DataType.Double,
    DataType.Bytes, DataType.Integer16, DataType.Integer32, DataType.Array,
    DataType.SignedInteger32, DataType.Integer64, DataType.Integer128]

theorem readPayload_scalar (qt : Qt) (db : GeoIPDatabase)
    (rd rd1 : Nat → Except Fault (QVariant × Nat))
    (descr : DataFieldDescriptor) (locOffset : Nat) (hm : descr.fieldType ≠ DataType.Map)
    (ha : descr.fieldType ≠ DataType.Array) :
    readPayload qt db rd descr locOffset = readPayload qt db rd1 descr locOffset := by
  simp only [readPayload, hm, ha, if_false]

theorem readPayload_mono (qt : Qt) (db : GeoIPDatabase)
    {rd rd1 : Nat → Except Fault (QVariant × Nat)} (hle : ReaderLe rd rd1)
    (descr : DataFieldDescriptor) (locOffset : Nat) (r : QVariant × Nat)
    (h : readPayload qt db rd descr locOffset = Except.ok r) :
    readPayload qt db rd1 descr locOffset = Except.ok r := by
  by_cases hm : descr.fieldType = DataType.Map
  · rw [readPayload_map _ _ _ _ _ hm] at h ⊢
    exact readMapValueWith_mono hle _ _ _ _ h
  · by_cases ha : descr.fieldType = DataType.Array
    · rw [readPayload_array _ _ _ _ _ ha] at h ⊢
      exact readArrayValueWith_mono hle _ _ _ _ h
    · rw [← readPayload_scalar qt db rd rd1 _ _ hm ha]
      exact h

theorem readDataField_succ (qt : Qt) (db : GeoIPDatabase) :
    ∀ fuel, ReaderLe (readDataField qt db fuel) (readDataField qt db (fuel + 1)) := by
  intro fuel
  induction fuel with
  | zero => intro offset r h; simp [readDataField] at h
  | succ n ih =>
    intro offset r h
    rw [readDataField] at h ⊢
    cases hd : readDataFieldDescriptor db offset with
    | error e => rw [hd] at h; simp at h
    | ok d =>
      rw [hd] at h
      simp only [Except.bind_ok_eq] at h ⊢
      cases d with
      | none => exact h
      | some p =>
        obtain ⟨offset1, descr⟩ := p
        simp only at h ⊢
        split
        · rename_i hp
          simp only [hp, if_true] at h
          cases hd2 : readDataFieldDescriptor db
              (u32 (descr.offset + u32 (db.m_nodeCount * db.m_recordSize) / 4 + SEPARATOR_SIZE)) with
          | error e => rw [hd2] at h; simp at h
          | ok d2 =>
            rw [hd2] at h
            simp only [Except.bind_ok_eq] at h ⊢
            cases d2 with
            | none => exact h
            | some p2 =>
              obtain ⟨locOffset1, descr1⟩ := p2
              simp only at h ⊢
              obtain ⟨r1, hr1, h⟩ := Except.bind_eq_ok h
              rw [readPayload_mono qt db ih _ _ _ hr1]
              exact h
        · rename_i hp
          simp only [hp, if_false] at h
          exact readPayload_mono qt db ih _ _ _ h

theorem readDataField_mono (qt : Qt) (db : GeoIPDatabase) {fuel fuel1 : Nat} (hle : fuel ≤ fuel1)
    {offset : Nat} {r : QVariant × Nat} (h : readDataField qt db fuel offset = Except.ok r) :
    readDataField qt db fuel1 offset = Except.ok r := by
  induction hle with
  | refl => exact h
  | step _ ih => exact readDataField_succ qt db _ _ _ ih

/-! ## The hash -/

theorem QHash.find_filter_ne {κ ν : Type} [DecidableEq κ] (m : QHash κ ν) (k k1 : κ)
    (h : k1 ≠ k) :
    QHash.find (m.filter (fun p => decide (p.1 ≠ k))) k1 = QHash.find m k1 := by
  induction m with
  | nil => rfl
  | cons p rest ih =>
    obtain ⟨a, b⟩ := p
    by_cases hak : a = k
    · have hne : ¬ (a = k1) := fun e => h (e ▸ hak)
      rw [List.filter_cons_of_neg (by simpa using hak)]
      simp only [QHash.find, hne, if_false]
      exact ih
    · rw [List.filter_cons_of_pos (by simpa using hak)]
      simp only [QHash.find]
      split
      · rfl
      · exact ih

theorem QHash.find_insert {κ ν : Type} [DecidableEq κ] (m : QHash κ ν) (k k1 : κ) (v : ν) :
    QHash.find (QHash.insert m k v) k1 = if k1 = k then some v else QHash.find m k1 := by
  by_cases h : k1 = k
  · subst h; simp [QHash.insert, QHash.find]
  · have h' : ¬ (k = k1) := fun e => h e.symm
    simp only [QHash.insert, QHash.find, h, h', if_false]
    exact QHash.find_filter_ne m k k1 h

theorem QHash.value_eq_of_find {κ ν : Type} [DecidableEq κ] (m : QHash κ ν) (k : κ) (v d : ν)
    (h : QHash.find m k = some v) : QHash.value m k d = v := by
  simp [QHash.value, h]

/-! ## The branch of `lookup` for a record above the node count -/

theorem lookupData_hit (qt : Qt) (db : GeoIPDatabase) (fuel id : Nat) (s : QString)
    (h : QHash.find db.m_countries id = some s) (hs : s ≠ "") :
    lookupData qt db fuel id
      = Except.ok { country := s, m_countries := db.m_countries, decodeCalls := 0 } := by
  simp [lookupData, QHash.value, h, hs]

theorem lookupData_miss (qt : Qt) (db : GeoIPDatabase) (fuel id : Nat)
    (h : QHash.value db.m_countries id "" = "") :
    lookupData qt db fuel id
      = (readDataField qt db fuel (dataOffset db id) >>= fun r =>
          if r.1.userType = QMetaType.QVariantHash then
            Except.ok { country := countryOf qt r.1,
                        m_countries := QHash.insert db.m_countries id (countryOf qt r.1),
                        decodeCalls := 1 }
          else Except.ok { country := "", m_countries := db.m_countries, decodeCalls := 1 }) := by
  simp only [lookupData, h, if_true]
  rfl

/-! ## The cache -/

theorem readDataField_unique (qt : Qt) (db : GeoIPDatabase) {fuel fuel1 offset : Nat}
    {r r1 : QVariant × Nat} (h : readDataField qt db fuel offset = Except.ok r)
    (h1 : readDataField qt db fuel1 offset = Except.ok r1) : r = r1 := by
  have a := readDataField_mono qt db (Nat.le_max_left fuel fuel1) h
  have b := readDataField_mono qt db (Nat.le_max_right fuel fuel1) h1
  rw [a] at b
  exact Except.ok.inj b

theorem QHash.value_ne_default {κ : Type} [DecidableEq κ] (m : QHash κ QString) (k : κ)
    (h : QHash.value m k "" ≠ "") : QHash.find m k = some (QHash.value m k "") := by
  unfold QHash.value at h ⊢
  cases hf : QHash.find m k with
  | none => rw [hf] at h; exact absurd rfl h
  | some v => rfl

/-- The ways in which the branch for a record above the node count can end. -/
theorem lookupData_cases (qt : Qt) (db : GeoIPDatabase) (fuel id : Nat) (r : LookupResult)
    (h : lookupData qt db fuel id = Except.ok r) :
    (∃ s, QHash.find db.m_countries id = some s ∧ s ≠ ""
        ∧ r = { country := s, m_countries := db.m_countries, decodeCalls := 0 })
    ∨ (QHash.value db.m_countries id "" = "" ∧
        ∃ v, readDataField qt db fuel (dataOffset db id) = Except.ok v ∧
          ((v.1.userType = QMetaType.QVariantHash ∧
              r = { country := countryOf qt v.1,
                    m_countries := QHash.insert db.m_countries id (countryOf qt v.1),
                    decodeCalls := 1 })
           ∨ (v.1.userType ≠ QMetaType.QVariantHash ∧
              r = { country := "", m_countries := db.m_countries, decodeCalls := 1 }))) := by
  by_cases hc : QHash.value db.m_countries id "" = ""
  · right
    refine ⟨hc, ?_⟩
    rw [lookupData_miss qt db fuel id hc] at h
    obtain ⟨v, hv, h⟩ := Except.bind_eq_ok h
    refine ⟨v, hv, ?_⟩
    by_cases hu : v.1.userType = QMetaType.QVariantHash
    · left
      simp only [hu, if_true, Except.ok.injEq] at h
      exact ⟨hu, h.symm⟩
    · right
      simp only [hu, if_false, Except.ok.injEq] at h
      exact ⟨hu, h.symm⟩
  · left
    have hf := QHash.value_ne_default _ _ hc
    rw [lookupData_hit qt db fuel id _ hf hc] at h
    exact ⟨_, hf, hc, (Except.ok.inj h).symm⟩

theorem CacheSound_withCountries (qt : Qt) (db : GeoIPDatabase) (c c1 : QHash Nat QString) :
    CacheSound qt (db.withCountries c) c1 ↔ CacheSound qt db c1 := by
  have hd : ∀ id, dataOffset (db.withCountries c) id = dataOffset db id := fun _ => rfl
  simp only [CacheSound, readDataField_withCountries, hd]

theorem lookupData_sound (qt : Qt) (db : GeoIPDatabase) (fuel id : Nat) (r : LookupResult)
    (hs : CacheSound qt db db.m_countries) (h : lookupData qt db fuel id = Except.ok r) :
    CacheSound qt db r.m_countries := by
  rcases lookupData_cases qt db fuel id r h with ⟨s, _, _, hr⟩ | ⟨_, v, hv, ⟨hu, hr⟩ | ⟨_, hr⟩⟩
  · subst hr; exact hs
  · subst hr
    intro id1 s1 hf
    rw [QHash.find_insert] at hf
    by_cases hid : id1 = id
    · subst hid
      simp only [if_true, Option.some.injEq] at hf
      exact ⟨fuel, v, hv, hu, hf.symm⟩
    · simp only [hid, if_false] at hf
      exact hs id1 s1 hf
  · subst hr; exact hs

theorem finish_sound (qt : Qt) (db : GeoIPDatabase) (fuel : Nat) (t : Traversal)
    (r : LookupResult) (hs : CacheSound qt db db.m_countries)
    (h : finish qt db fuel t = Except.ok r) : CacheSound qt db r.m_countries := by
  cases t with
  | noMatch k =>
    simp only [finish, Except.pure_eq, Except.ok.injEq] at h
    subst h; exact hs
  | data k id => exact lookupData_sound qt db fuel id r hs h
  | exhausted =>
    simp only [finish, Except.pure_eq, Except.ok.injEq] at h
    subst h; exact hs

theorem lookup_sound (qt : Qt) (db : GeoIPDatabase) (addr : Q_IPV6ADDR) (fuel : Nat)
    (r : LookupResult) (hs : CacheSound qt db db.m_countries)
    (h : lookup qt db addr fuel = Except.ok r) : CacheSound qt db r.m_countries := by
  rw [lookup_eq_traverse] at h
  obtain ⟨t, _, ht⟩ := Except.bind_eq_ok h
  exact finish_sound qt db fuel t r hs ht

/-- Lookups keep the cache sound. -/
theorem LookupSteps_sound (qt : Qt) (db : GeoIPDatabase) (c c1 : QHash Nat QString)
    (hsteps : LookupSteps qt db c c1) (hs : CacheSound qt db c) : CacheSound qt db c1 := by
  induction hsteps with
  | refl => exact hs
  | step addr fuel r _ hl ih =>
    have := lookup_sound qt (db.withCountries _) addr fuel r
      ((CacheSound_withCountries qt db _ _).mpr ih) hl
    exact (CacheSound_withCountries qt db _ _).mp this

theorem CacheSound_nil (qt : Qt) (db : GeoIPDatabase) : CacheSound qt db [] := by
  intro id s h
  simp [QHash.find] at h

/-- With a sound cache, the country that the branch for a record above the
node count returns is the one of the value decoded at the record's offset. -/
theorem lookupData_country (qt : Qt) (db : GeoIPDatabase) (fuel id : Nat) (r : LookupResult)
    (hs : CacheSound qt db db.m_countries) (h : lookupData qt db fuel id = Except.ok r) :
    ∃ fuel1 v, readDataField qt db fuel1 (dataOffset db id) = Except.ok v ∧
      r.country = if v.1.userType = QMetaType.QVariantHash then countryOf qt v.1 else "" := by
  rcases lookupData_cases qt db fuel id r h with ⟨s, hf, _, hr⟩ | ⟨_, v, hv, ⟨hu, hr⟩ | ⟨hu, hr⟩⟩
  · obtain ⟨fuel1, v, hv, hu, hsv⟩ := hs id s hf
    exact ⟨fuel1, v, hv, by simp [hr, hu, hsv]⟩
  · exact ⟨fuel, v, hv, by simp [hr, hu]⟩
  · exact ⟨fuel, v, hv, by simp [hr, hu]⟩

/-- A non-empty entry of the cache stays as it is through a lookup. -/
theorem lookup_keeps_entry (qt : Qt) (db : GeoIPDatabase) (addr : Q_IPV6ADDR) (fuel : Nat)
    (r : LookupResult) (id : Nat) (s : QString)
    (hf : QHash.find db.m_countries id = some s) (hne : s ≠ "")
    (h : lookup qt db addr fuel = Except.ok r) : QHash.find r.m_countries id = some s := by
  rw [lookup_eq_traverse] at h
  obtain ⟨t, _, ht⟩ := Except.bind_eq_ok h
  cases t with
  | noMatch k =>
    simp only [finish, Except.pure_eq, Except.ok.injEq] at ht
    subst ht; exact hf
  | exhausted =>
    simp only [finish, Except.pure_eq, Except.ok.injEq] at ht
    subst ht; exact hf
  | data k id1 =>
    rcases lookupData_cases qt db fuel id1 r ht with
      ⟨s1, _, _, hr⟩ | ⟨hmiss, v, _, ⟨_, hr⟩ | ⟨_, hr⟩⟩
    · subst hr; exact hf
    · subst hr
      rw [QHash.find_insert]
      by_cases hid : id = id1
      · subst hid
        rw [QHash.value_eq_of_find _ _ _ _ hf] at hmiss
        exact absurd hmiss hne
      · simp only [hid, if_false]; exact hf
    · subst hr; exact hf

theorem LookupSteps_keeps_entry (qt : Qt) (db : GeoIPDatabase) (c c1 : QHash Nat QString)
    (hsteps : LookupSteps qt db c c1) (id : Nat) (s : QString)
    (hf : QHash.find c id = some s) (hne : s ≠ "") : QHash.find c1 id = some s := by
  induction hsteps with
  | refl => exact hf
  | step addr fuel r _ hl ih => exact lookup_keeps_entry qt _ addr fuel r id s ih hne hl

/-! ## The record values and the data offset -/

theorem fromBigEndian_foldl_lt (bs : List uchar) : ∀ acc n, acc < 256 ^ n →
    bs.foldl (fun a b => a * 256 + b.val) acc < 256 ^ (n + bs.length) := by
  induction bs with
  | nil => intro acc n h; simpa using h
  | cons b rest ih =>
    intro acc n h
    simp only [List.foldl, List.length_cons]
    have hb := b.isLt
    have : acc * 256 + b.val < 256 ^ (n + 1) := by
      rw [pow_succ]
      have : acc + 1 ≤ 256 ^ n := h
      nlinarith
    have := ih _ _ this
    rw [show n + (rest.length + 1) = n + 1 + rest.length by omega]
    exact this

theorem fromBigEndian_lt (bs : List uchar) : fromBigEndian bs < 256 ^ bs.length := by
  have := fromBigEndian_foldl_lt bs 0 0 (by norm_num)
  simpa [fromBigEndian] using this

theorem bytesAt_length (db : GeoIPDatabase) (i len : Nat) (bs : List uchar)
    (h : db.bytesAt i len = Except.ok bs) : bs.length = len := by
  unfold GeoIPDatabase.bytesAt at h
  split at h
  · rename_i h0; simp only [Except.ok.injEq] at h; subst h; simp [h0]
  · split at h
    · rename_i h1
      simp only [Except.ok.injEq] at h
      subst h
      simp only [List.length_take, List.length_drop]
      omega
    · simp at h

/-- A record value fits a `quint32`. -/
theorem readRecord_lt (db : GeoIPDatabase) (ptr id : Nat) (h : readRecord db ptr = Except.ok id) :
    id < 4294967296 := by
  unfold readRecord at h
  split at h
  · simp at h
  · rename_i h4
    obtain ⟨bs, hbs, h⟩ := Except.bind_eq_ok h
    simp only [Except.pure_eq, Except.ok.injEq] at h
    subst h
    have hl := bytesAt_length db _ _ _ hbs
    have := fromBigEndian_lt bs
    rw [hl] at this
    have h2 : 256 ^ db.m_recordBytes ≤ 256 ^ 4 := Nat.pow_le_pow_right (by norm_num) (by omega)
    have h3 : (256 : Nat) ^ 4 = 4294967296 := by norm_num
    omega

/-- A traversal that ends on a data record read a value above the node count
that fits a `quint32`. -/
theorem traverseLoop_data (db : GeoIPDatabase) (addr : Q_IPV6ADDR) :
    ∀ steps k ptr j id, traverseLoop db addr steps k ptr = Except.ok (Traversal.data j id) →
      db.m_nodeCount < id ∧ id < 4294967296 := by
  intro steps
  induction steps with
  | zero => intro k ptr j id h; simp [traverseLoop] at h
  | succ n ih =>
    intro k ptr j id h
    simp only [traverseLoop] at h
    obtain ⟨id1, hrec, h⟩ := Except.bind_eq_ok h
    by_cases h1 : id1 = db.m_nodeCount
    · simp [h1] at h
    · by_cases h2 : id1 > db.m_nodeCount
      · simp only [h1, h2, if_true, if_false, Except.pure_eq, Except.ok.injEq,
          Traversal.data.injEq] at h
        obtain ⟨_, hid⟩ := h
        subst hid
        exact ⟨h2, readRecord_lt db _ _ hrec⟩
      · simp only [h1, h2, if_false] at h
        exact ih _ _ _ _ h

theorem dataOffset_eq (db : GeoIPDatabase) (id : Nat) (hn : db.m_nodeCount < id)
    (hid : id < 4294967296) :
    dataOffset db id = u32 (db.m_indexSize + (id - db.m_nodeCount)) := by
  simp only [dataOffset, sub32, u32, SEPARATOR_SIZE]
  omega

/-! ## Loading -/

theorem valueUInt_lt (v : QVariant) : v.valueUInt < 4294967296 := by
  cases v <;> simp only [QVariant.valueUInt, u32] <;> omega

/-- What `parseMetadata` has set when it succeeds. -/
theorem parseMetadata_ok (qt : Qt) (md : QVariantHash) (db db1 : GeoIPDatabase)
    (h : parseMetadata qt md db = Except.ok db1) :
    db1.m_ipVersion = 6 ∧ db1.m_recordSize = 24 ∧ db1.m_nodeSize = 6 ∧ db1.m_recordBytes = 3
      ∧ db1.m_nodeCount = (QHash.value md "node_count" QVariant.invalid).valueUInt
      ∧ db1.m_indexSize = u32 (db1.m_nodeCount * 6)
      ∧ db1.m_countries = db.m_countries ∧ db1.m_size = db.m_size ∧ db1.m_data = db.m_data := by
  unfold parseMetadata at h
  split at h
  · simp at h
  split at h
  · simp at h
  simp only at h
  split at h
  · simp at h
  split at h
  · simp at h
  split at h
  · simp at h
  split at h
  · simp at h
  split at h
  · simp at h
  split at h
  · simp at h
  split at h
  · simp at h
  split at h
  · simp at h
  split at h
  · simp at h
  split at h
  · simp at h
  simp only [Except.ok.injEq] at h
  subst h
  simp_all

/-- What `loadDB` has checked when it succeeds on a database with 24-bit
records whose index size is not negative as an `int`. -/
theorem loadDB_ok (db : GeoIPDatabase) (hrs : db.m_recordSize = 24)
    (h : loadDB db = Except.ok none) :
    u32 (db.m_nodeCount * 6) < 2147483648
      ∧ u32 (db.m_nodeCount * 6) + 16 ≤ db.m_size
      ∧ db.bytesAt (u32 (db.m_nodeCount * 6)) 16 = Except.ok (List.replicate 16 0) := by
  unfold loadDB at h
  simp only [hrs, SEPARATOR_SIZE] at h
  have h6 : (24 : Nat) / 4 = 6 := rfl
  rw [h6] at h
  split at h
  · simp at h
  rename_i hsize
  split at h
  · simp at h
  rename_i hneg
  obtain ⟨bs, hbs, h⟩ := Except.bind_eq_ok h
  split at h
  · simp at h
  rename_i hzero
  simp only [ne_eq, Decidable.not_not] at hzero
  have hu : u32 (u32 (db.m_nodeCount * 6)) = u32 (db.m_nodeCount * 6) := by
    simp only [u32]; omega
  have hlt : u32 (db.m_nodeCount * 6) < 2147483648 := by
    by_contra hc
    apply hneg
    simp only [toInt32, hu, hc, if_false]
    have : u32 (db.m_nodeCount * 6) < 4294967296 := by simp only [u32]; omega
    omega
  have hi : toInt32 (u32 (db.m_nodeCount * 6)) = (u32 (db.m_nodeCount * 6) : Int) := by
    simp only [toInt32, hu, hlt, if_true]
  rw [hi] at hsize hbs
  refine ⟨hlt, ?_, ?_⟩
  · simp only [toSizeT] at hsize
    omega
  · rw [← hzero]
    simpa using hbs


/-- What holds of a database that `load` returns. -/
theorem load_ok (qt : Qt) (data : QByteArray) (fuel : Nat) (db : GeoIPDatabase)
    (h : load qt data fuel = Except.ok (Except.ok db)) :
    db.m_ipVersion = 6 ∧ db.m_recordSize = 24 ∧ db.m_nodeSize = 6 ∧ db.m_recordBytes = 3
      ∧ db.m_nodeCount < 4294967296
      ∧ db.m_indexSize = u32 (db.m_nodeCount * 6)
      ∧ db.m_indexSize < 2147483648
      ∧ db.m_indexSize + 16 ≤ db.m_size
      ∧ db.bytesAt db.m_indexSize 16 = Except.ok (List.replicate 16 0)
      ∧ db.m_countries = [] ∧ db.m_size = data.length ∧ db.m_data = data
      ∧ data.length ≤ MAX_FILE_SIZE := by
  unfold load at h
  split at h
  · simp at h
  rename_i hlen
  obtain ⟨md, _, h⟩ := Except.bind_eq_ok h
  cases hp : parseMetadata qt md (GeoIPDatabase.create data) with
  | error e => rw [hp] at h; simp at h
  | ok db1 =>
    rw [hp] at h
    simp only at h
    obtain ⟨o, hl, h⟩ := Except.bind_eq_ok h
    cases o with
    | some e => simp at h
    | none =>
      simp only [Except.pure_eq, Except.ok.injEq] at h
      subst h
      obtain ⟨h1, h2, h3, h4, h5, h6, h7, h8, h9⟩ := parseMetadata_ok qt md _ _ hp
      obtain ⟨g1, g2, g3⟩ := loadDB_ok db1 h2 hl
      have hlen' : data.length ≤ MAX_FILE_SIZE := by omega
      have hsz : db1.m_size = data.length := by
        rw [h8]
        simp only [GeoIPDatabase.create, u32]
        simp only [MAX_FILE_SIZE] at hlen'
        omega
      refine ⟨h1, h2, h3, h4, ?_, h6, ?_, ?_, ?_, ?_, hsz, ?_, hlen'⟩
      · rw [h5]; exact valueUInt_lt _
      · rw [h6]; exact g1
      · rw [h6]; exact g2
      · rw [h6]; exact g3
      · rw [h7]; rfl
      · rw [h9]; rfl

theorem bytesAt_get (db : GeoIPDatabase) (i len : Nat) (bs : List uchar)
    (h : db.bytesAt i len = Except.ok bs) (j : Nat) (hj : j < len) :
    db.m_data.get? (i + j) = bs.get? j ∧ j < bs.length := by
  have hl := bytesAt_length db i len bs h
  unfold GeoIPDatabase.bytesAt at h
  split at h
  · omega
  · split at h
    · simp only [Except.ok.injEq] at h
      subst h
      refine ⟨?_, by omega⟩
      simp only [List.get?_eq_getElem?, List.getElem?_take, hj, if_true, List.getElem?_drop]
    · simp at h

theorem byteAt_eq (db : GeoIPDatabase) (i : Nat) (b : uchar) (h : db.m_data.get? i = some b) :
    db.byteAt i = Except.ok b.val := by
  unfold GeoIPDatabase.byteAt
  rw [h]

theorem replicate_get (j : Nat) (hj : j < 16) :
    (List.replicate 16 (0 : uchar)).get? j = some 0 := by
  rw [List.get?_eq_getElem?, List.getElem?_replicate]
  simp [hj]


theorem avail_in_bounds (size offset : Nat) (h : offset < size) (hmax : size ≤ MAX_FILE_SIZE) :
    toInt32 (sub32 size offset) = ((size - offset : Nat) : Int) := by
  simp only [MAX_FILE_SIZE] at hmax
  have e : sub32 size offset = size - offset := by
    simp only [sub32, u32]; omega
  rw [e]
  have e2 : u32 (size - offset) = size - offset := by simp only [u32]; omega
  simp only [toInt32, e2]
  have : size - offset < 2147483648 := by omega
  simp only [this, if_true]

theorem zero_control_byte :
    (((0 : uchar).val &&& 0xE0) >>> 5 = 0) ∧ ((0 : uchar).val &&& 0x1F = 0) := by
  decide

/-- In a loaded database, no value is decoded at an offset that lies in the
first fifteen bytes of the separator: the control byte and the byte after it
are zero, which is not a field descriptor. -/
theorem readDataFieldDescriptor_in_separator (db : GeoIPDatabase)
    (hsep : db.bytesAt db.m_indexSize 16 = Except.ok (List.replicate 16 0))
    (hsize : db.m_indexSize + 16 ≤ db.m_size) (hmax : db.m_size ≤ MAX_FILE_SIZE)
    (j : Nat) (hj : j < 15) :
    readDataFieldDescriptor db (db.m_indexSize + j) = Except.ok none := by
  have g0 := (bytesAt_get db _ _ _ hsep j (by omega)).1
  have g1 := (bytesAt_get db _ _ _ hsep (j + 1) (by omega)).1
  rw [replicate_get j (by omega)] at g0
  rw [replicate_get (j + 1) (by omega), ← Nat.add_assoc] at g1
  have b0 := byteAt_eq db _ _ g0
  have b1 := byteAt_eq db _ _ g1
  have hav := avail_in_bounds db.m_size (db.m_indexSize + j) (by omega) hmax
  have hav1 : ¬ (toInt32 (sub32 db.m_size (db.m_indexSize + j)) < 1) := by
    rw [hav]; omega
  unfold readDataFieldDescriptor
  simp only [hav1, if_false]
  rw [b0]
  simp only [Except.bind_ok_eq]
  rw [zero_control_byte.1, zero_control_byte.2,
    if_neg (by decide : ¬ ((0 : DataType) = DataType.Pointer)),
    if_pos (by decide : (0 : Nat) ≤ 28), if_pos (show (0 : DataType) = DataType.Unknown from rfl), b1]
  simp only [Except.bind_ok_eq]
  rw [if_pos (Or.inl (by decide))]
  rfl

/-! ## The test databases, evaluated -/

theorem Qt.eq_normal (qt : Qt) : qt = qt.normal := by
  cases qt with
  | mk f hf d fl =>
    simp only [Qt.normal, Qt.mk.injEq, and_true]
    funext bs
    by_cases h : bs.all (fun b => decide (b.val < 128)) = true
    · simp only [h, if_true]
      exact hf bs (by simpa [List.all_eq_true] using h)
    · simp [h]

/-- How `load` is put together from its parts. -/
theorem load_eq_of (qt : Qt) (data : QByteArray) (fuel : Nat) (db0 db : GeoIPDatabase)
    (md : QVariantHash) (hlen : data.length ≤ MAX_FILE_SIZE)
    (hc : GeoIPDatabase.create data = db0)
    (hm : readMetadata qt db0 fuel = Except.ok md)
    (hp : parseMetadata qt md db0 = Except.ok db)
    (hl : loadDB db = Except.ok none) : load qt data fuel = Except.ok (Except.ok db) := by
  unfold load
  rw [if_neg (by omega)]
  simp only [hc, hm, Except.bind_ok_eq, hp, hl, Except.pure_eq]

theorem countryFile_length : countryFile.length = 213 := rfl

theorem create_countryFile : GeoIPDatabase.create countryFile = countryDb0 := by
  simp only [GeoIPDatabase.create, countryFile_length, u32]
  rfl

set_option maxRecDepth 100000 in
theorem readMetadata_countryFile (qt : Qt) :
    readMetadata qt countryDb0 3 = Except.ok (metadataHash 2) := by
  rw [Qt.eq_normal qt]
  rfl

set_option maxRecDepth 100000 in
theorem load_countryFile (qt : Qt) : load qt countryFile 3 = Except.ok (Except.ok countryDb) := by
  refine load_eq_of qt countryFile 3 countryDb0 countryDb (metadataHash 2) ?_ create_countryFile
    (readMetadata_countryFile qt) rfl rfl
  rw [countryFile_length]
  decide

set_option maxRecDepth 100000 in
theorem lookup_countryDb_addr01 (qt : Qt) :
    lookup qt countryDb addr01 3
      = Except.ok { country := "US", m_countries := [(18, "US")], decodeCalls := 1 } := by
  rw [Qt.eq_normal qt]
  rfl

theorem isoNumberFile_length : isoNumberFile.length = 199 := rfl

theorem create_isoNumberFile : GeoIPDatabase.create isoNumberFile = isoNumberDb0 := by
  simp only [GeoIPDatabase.create, isoNumberFile_length, u32]
  rfl

set_option maxRecDepth 100000 in
theorem readMetadata_isoNumberFile (qt : Qt) :
    readMetadata qt isoNumberDb0 3 = Except.ok (metadataHash 2) := by
  rw [Qt.eq_normal qt]
  rfl

set_option maxRecDepth 100000 in
theorem load_isoNumberFile (qt : Qt) :
    load qt isoNumberFile 3 = Except.ok (Except.ok isoNumberDb) := by
  refine load_eq_of qt isoNumberFile 3 isoNumberDb0 isoNumberDb (metadataHash 2) ?_
    create_isoNumberFile (readMetadata_isoNumberFile qt) rfl rfl
  rw [isoNumberFile_length]
  decide

theorem wrapFile_length : wrapFile.length = 170 := rfl

theorem create_wrapFile : GeoIPDatabase.create wrapFile = wrapDb0 := by
  simp only [GeoIPDatabase.create, wrapFile_length, u32]
  rfl

set_option maxRecDepth 100000 in
theorem readMetadata_wrapFile (qt : Qt) :
    readMetadata qt wrapDb0 3 = Except.ok (metadataHash 715827883) := by
  rw [Qt.eq_normal qt]
  rfl

set_option maxRecDepth 100000 in
theorem load_wrapFile (qt : Qt) : load qt wrapFile 3 = Except.ok (Except.ok wrapDb) := by
  refine load_eq_of qt wrapFile 3 wrapDb0 wrapDb (metadataHash 715827883) ?_
    create_wrapFile (readMetadata_wrapFile qt) rfl rfl
  rw [wrapFile_length]
  decide

set_option maxRecDepth 100000 in
theorem lookup_wrapDb (qt : Qt) (fuel : Nat) :
    lookup qt wrapDb addr00 fuel = Except.error Fault.outOfBounds := rfl

set_option maxRecDepth 100000 in
theorem traverse_countryDb_addr01 :
    traverse countryDb addr01 = Except.ok (Traversal.data 1 18) := rfl

set_option maxRecDepth 100000 in
theorem traverse_countryDb_addr00 :
    traverse countryDb addr00 = Except.ok (Traversal.data 1 40) := rfl

set_option maxRecDepth 100000 in
theorem traverse_countryDb_addr1 :
    traverse countryDb addr1 = Except.ok (Traversal.noMatch 0) := rfl

set_option maxRecDepth 100000 in
theorem decode_countryDb_18 (qt : Qt) :
    readDataField qt countryDb 3 (dataOffset countryDb 18)
      = Except.ok (QVariant.hash [("country", QVariant.hash [("iso_code", QVariant.string "US")])],
          50) := by
  rw [Qt.eq_normal qt]
  rfl

set_option maxRecDepth 100000 in
theorem decode_countryDb_40 (qt : Qt) :
    readDataField qt countryDb 3 (dataOffset countryDb 40)
      = Except.ok (QVariant.hash [("continent", QVariant.string "EU")], 64) := by
  rw [Qt.eq_normal qt]
  rfl

set_option maxRecDepth 100000 in
theorem lookup_countryDb_addr00 (qt : Qt) :
    lookup qt countryDb addr00 3
      = Except.ok { country := "", m_countries := [(40, "")], decodeCalls := 1 } := by
  rw [Qt.eq_normal qt]
  rfl

set_option maxRecDepth 100000 in
theorem lookup_countryDb_addr00_again (qt : Qt) :
    lookup qt (countryDb.withCountries [(40, "")]) addr00 3
      = Except.ok { country := "", m_countries := [(40, "")], decodeCalls := 1 } := by
  rw [Qt.eq_normal qt]
  rfl

set_option maxRecDepth 100000 in
theorem traverse_isoNumberDb_addr01 :
    traverse isoNumberDb addr01 = Except.ok (Traversal.data 1 18) := rfl

set_option maxRecDepth 100000 in
theorem decode_isoNumberDb_18 (qt : Qt) :
    readDataField qt isoNumberDb 3 (dataOffset isoNumberDb 18)
      = Except.ok (QVariant.hash [("country", QVariant.hash [("iso_code", QVariant.uint 840)])],
          50) := by
  rw [Qt.eq_normal qt]
  rfl

set_option maxRecDepth 100000 in
theorem lookup_isoNumberDb_addr01 (qt : Qt) :
    lookup qt isoNumberDb addr01 3
      = Except.ok { country := "840", m_countries := [(18, "840")], decodeCalls := 1 } := by
  rw [Qt.eq_normal qt]
  rfl

set_option maxRecDepth 100000 in
theorem lookup_countryDb_addr1 (qt : Qt) :
    lookup qt countryDb addr1 3
      = Except.ok { country := "", m_countries := [], decodeCalls := 0 } := rfl

/-! ## The claims -/

/-- C1: when the traversal of `lookup` ends on a record value `id` above the
node count, the offset that `lookup` computes for the decoder,
`(id - m_nodeCount - 16) + m_indexSize + 16` with every step taken modulo
`2^32`, is `m_indexSize + (id - m_nodeCount)` modulo `2^32`; and `lookup` calls
the decoder once, at that offset, and builds its result from the value decoded
there, unless the cache holds a non-empty string for `id` (after `load` the
cache is empty). -/
theorem lookup_decodes_at_data_offset (qt : Qt) (db : GeoIPDatabase) (addr : Q_IPV6ADDR)
    (fuel k id : Nat)
    (htrav : traverse db addr = Except.ok (Traversal.data k id)) :
    u32 (u32 (sub32 (sub32 id db.m_nodeCount) 16 + db.m_indexSize) + 16)
        = u32 (db.m_indexSize + (id - db.m_nodeCount))
    ∧ lookup qt db addr fuel
        = (if QHash.value db.m_countries id "" = "" then
            readDataField qt db fuel (u32 (db.m_indexSize + (id - db.m_nodeCount))) >>= fun r =>
              if r.1.userType = QMetaType.QVariantHash then
                Except.ok { country := countryOf qt r.1,
                            m_countries := QHash.insert db.m_countries id (countryOf qt r.1),
                            decodeCalls := 1 }
              else Except.ok { country := "", m_countries := db.m_countries, decodeCalls := 1 }
          else
            Except.ok { country := QHash.value db.m_countries id "",
                        m_countries := db.m_countries, decodeCalls := 0 }) := by
  obtain ⟨hn, hid⟩ := traverseLoop_data db addr _ _ _ _ _ htrav
  have hoff := dataOffset_eq db id hn hid
  refine ⟨hoff, ?_⟩
  rw [lookup_eq_traverse, htrav, Except.bind_ok_eq]
  simp only [finish]
  by_cases hmiss : QHash.value db.m_countries id "" = ""
  · rw [lookupData_miss qt db fuel id hmiss, hoff, if_pos hmiss]
  · rw [if_neg hmiss]
    exact lookupData_hit qt db fuel id _ (QHash.value_ne_default _ _ hmiss) hmiss

/-- C3: when the traversal of `lookup` ends at step `k` on a record equal to
the node count, `lookup` returns the empty string without calling the decoder
and leaves the cache as it was; the same holds for every address with the same
bits up to step `k`, and for the same lookup repeated on the database it left. -/
theorem lookup_no_match (qt : Qt) (db : GeoIPDatabase) (addr : Q_IPV6ADDR) (fuel k : Nat)
    (htrav : traverse db addr = Except.ok (Traversal.noMatch k)) :
    k < 128
    ∧ lookup qt db addr fuel
        = Except.ok { country := "", m_countries := db.m_countries, decodeCalls := 0 }
    ∧ (∀ addr1 : Q_IPV6ADDR, (∀ i, i ≤ k → addr1.right i = addr.right i) →
        lookup qt db addr1 fuel
          = Except.ok { country := "", m_countries := db.m_countries, decodeCalls := 0 })
    ∧ (∀ r, lookup qt db addr fuel = Except.ok r →
        lookup qt (db.withCountries r.m_countries) addr fuel = Except.ok r) := by
  have hk := traverseLoop_endStep db addr 128 0 0 _ k htrav rfl
  have hl : lookup qt db addr fuel
      = Except.ok { country := "", m_countries := db.m_countries, decodeCalls := 0 } := by
    rw [lookup_eq_traverse, htrav]; rfl
  refine ⟨by omega, hl, ?_, ?_⟩
  · intro addr1 hbits
    have := traverseLoop_congr db addr addr1 128 0 0 _ k htrav rfl (fun i _ hi => hbits i hi)
    rw [lookup_eq_traverse]
    show (traverseLoop db addr1 128 0 0 >>= finish qt db fuel) = _
    rw [this]; rfl
  · intro r hr
    rw [hl] at hr
    have hr' := Except.ok.inj hr
    subst hr'
    exact hl

/-- C4: on a database whose node size is 6 bytes and whose record size is 3
bytes (as `parseMetadata` sets them), the traversal of `lookup` is the
reference trie walk from node 0, and `lookup` returns what follows from the
end of that walk. -/
theorem lookup_eq_referenceWalk (qt : Qt) (db : GeoIPDatabase) (addr : Q_IPV6ADDR) (fuel : Nat)
    (hnode : db.m_nodeSize = 6) (hrec : db.m_recordBytes = 3) :
    traverse db addr = referenceWalk db.m_data db.m_nodeCount addr 128 0 0
    ∧ lookup qt db addr fuel
        = (referenceWalk db.m_data db.m_nodeCount addr 128 0 0 >>= finish qt db fuel) := by
  have h := traverseLoop_eq_referenceWalk db addr hnode hrec 128 0 0
  have ht : traverse db addr = referenceWalk db.m_data db.m_nodeCount addr 128 0 0 := h
  exact ⟨ht, by rw [lookup_eq_traverse, ht]⟩

/-- C5, amended: once a lookup whose traversal ends on the record value `id`
has returned a non-empty country code, every later lookup whose traversal
ends on `id`, after any further lookups, returns that string without calling
the decoder and leaves the cache as it is; after an empty result, the lookup
repeated right away calls the decoder again. -/
theorem lookup_cached_when_not_empty (qt : Qt) (db : GeoIPDatabase) (addr : Q_IPV6ADDR)
    (fuel k id : Nat) (r : LookupResult)
    (htrav : traverse db addr = Except.ok (Traversal.data k id))
    (hl : lookup qt db addr fuel = Except.ok r) :
    (r.country ≠ "" →
      ∀ (c : QHash Nat QString) (addr1 : Q_IPV6ADDR) (fuel1 k1 : Nat),
        LookupSteps qt db r.m_countries c →
        traverse db addr1 = Except.ok (Traversal.data k1 id) →
        lookup qt (db.withCountries c) addr1 fuel1
          = Except.ok { country := r.country, m_countries := c, decodeCalls := 0 })
    ∧ (r.country = "" →
      ∀ (addr1 : Q_IPV6ADDR) (fuel1 k1 : Nat) (r1 : LookupResult),
        traverse db addr1 = Except.ok (Traversal.data k1 id) →
        lookup qt (db.withCountries r.m_countries) addr1 fuel1 = Except.ok r1 →
        r1.decodeCalls = 1) := by
  rw [lookup_eq_traverse, htrav, Except.bind_ok_eq] at hl
  simp only [finish] at hl
  rcases lookupData_cases qt db fuel id r hl with
    ⟨s, hf, hs, hr⟩ | ⟨hmiss, v, _, ⟨_, hr⟩ | ⟨_, hr⟩⟩
  · -- served from the cache
    subst hr
    refine ⟨?_, fun h => absurd h hs⟩
    intro _ c addr1 fuel1 k1 hsteps htrav1
    have hf1 := LookupSteps_keeps_entry qt db _ c hsteps id s hf hs
    rw [lookup_eq_traverse, traverse_withCountries, htrav1, Except.bind_ok_eq]
    simp only [finish]
    exact lookupData_hit qt (db.withCountries c) fuel1 id s hf1 hs
  · -- decoded and stored
    subst hr
    have hfind : QHash.find (QHash.insert db.m_countries id (countryOf qt v.1)) id
        = some (countryOf qt v.1) := by
      rw [QHash.find_insert]; simp
    refine ⟨?_, ?_⟩
    · intro hne c addr1 fuel1 k1 hsteps htrav1
      have hf1 := LookupSteps_keeps_entry qt db _ c hsteps id _ hfind hne
      rw [lookup_eq_traverse, traverse_withCountries, htrav1, Except.bind_ok_eq]
      simp only [finish]
      exact lookupData_hit qt (db.withCountries c) fuel1 id _ hf1 hne
    · intro he addr1 fuel1 k1 r1 htrav1 hl1
      simp only at he
      rw [lookup_eq_traverse, traverse_withCountries, htrav1, Except.bind_ok_eq] at hl1
      simp only [finish] at hl1
      rcases lookupData_cases qt _ fuel1 id r1 hl1 with
        ⟨s, hf2, hs2, _⟩ | ⟨_, _, _, ⟨_, hr1⟩ | ⟨_, hr1⟩⟩
      · have hf3 : QHash.find (QHash.insert db.m_countries id (countryOf qt v.1)) id = some s :=
          hf2
        rw [hfind, he] at hf3
        exact absurd (Option.some.inj hf3).symm hs2
      · rw [hr1]
      · rw [hr1]
  · -- decoded, not a hash, nothing stored
    subst hr
    refine ⟨fun h => absurd rfl h, ?_⟩
    intro _ addr1 fuel1 k1 r1 htrav1 hl1
    rw [lookup_eq_traverse, traverse_withCountries, htrav1, Except.bind_ok_eq] at hl1
    simp only [finish] at hl1
    rcases lookupData_cases qt _ fuel1 id r1 hl1 with
      ⟨s, hf2, hs2, _⟩ | ⟨_, _, _, ⟨_, hr1⟩ | ⟨_, hr1⟩⟩
    · have hv : QHash.value db.m_countries id "" = s := QHash.value_eq_of_find _ _ _ _ hf2
      rw [hmiss] at hv
      exact absurd hv.symm hs2
    · rw [hr1]
    · rw [hr1]

theorem countryOf_no_country (qt : Qt) (h : QVariantHash) (hno : QHash.contains h "country" = false) :
    countryOf qt (QVariant.hash h) = "" := by
  have hf : QHash.find h "country" = none := by
    simpa [QHash.contains] using hno
  simp [countryOf, QVariant.toHash, QVariantHash.get, QHash.value, hf, QHash.find,
    QVariant.toString]

theorem countryOf_iso_code (qt : Qt) (h h2 : QVariantHash) (v : QVariant)
    (hc : QVariantHash.get h "country" = QVariant.hash h2)
    (hv : QHash.find h2 "iso_code" = some v) :
    countryOf qt (QVariant.hash h) = QVariant.toString qt v := by
  unfold countryOf
  simp only [QVariant.toHash]
  rw [hc]
  simp only [QVariant.toHash, QVariantHash.get, QHash.value, hv, Option.getD_some]

/-- With a cache that lookups have filled, the branch for a record above the
node count returns the country code of the value decoded at the record's
offset, whenever that value is a hash. -/
theorem lookupData_of_decoded (qt : Qt) (db : GeoIPDatabase) (fuel id : Nat)
    (h : QVariantHash) (off : Nat)
    (hs : CacheSound qt db db.m_countries)
    (hdec : readDataField qt db fuel (dataOffset db id) = Except.ok (QVariant.hash h, off)) :
    ∃ r, lookupData qt db fuel id = Except.ok r ∧ r.country = countryOf qt (QVariant.hash h) := by
  by_cases hc : QHash.value db.m_countries id "" = ""
  · rw [lookupData_miss qt db fuel id hc, hdec]
    simp [QVariant.userType]
  · have hf := QHash.value_ne_default _ _ hc
    obtain ⟨fuel1, v, hv, _, hsv⟩ := hs id _ hf
    have := readDataField_unique qt db hv hdec
    subst this
    rw [lookupData_hit qt db fuel id _ hf hc]
    exact ⟨_, rfl, hsv⟩

/-- C6: in every cache state that lookups lead to from the empty cache, each
entry is the country code of the hash decoded at the offset of its record
value; and two lookups whose traversals end on the same record value return
the same country code, whatever cache states (reached from the empty cache)
they start from. -/
theorem cache_entries_are_decoded_countries (qt : Qt) (db : GeoIPDatabase)
    (cache : QHash Nat QString) (hreach : LookupSteps qt db [] cache) :
    (∀ id s, QHash.find cache id = some s →
      ∃ fuel r, readDataField qt db fuel (dataOffset db id) = Except.ok r
        ∧ r.1.userType = QMetaType.QVariantHash ∧ s = countryOf qt r.1)
    ∧ (∀ (cache1 : QHash Nat QString) (addr addr1 : Q_IPV6ADDR) (fuel fuel1 k k1 id : Nat)
        (r r1 : LookupResult),
        LookupSteps qt db [] cache1 →
        traverse db addr = Except.ok (Traversal.data k id) →
        traverse db addr1 = Except.ok (Traversal.data k1 id) →
        lookup qt (db.withCountries cache) addr fuel = Except.ok r →
        lookup qt (db.withCountries cache1) addr1 fuel1 = Except.ok r1 →
        r.country = r1.country) := by
  have hs := LookupSteps_sound qt db [] cache hreach (CacheSound_nil qt db)
  refine ⟨hs, ?_⟩
  intro cache1 addr addr1 fuel fuel1 k k1 id r r1 hreach1 ht ht1 hl hl1
  have hs1 := LookupSteps_sound qt db [] cache1 hreach1 (CacheSound_nil qt db)
  rw [lookup_eq_traverse, traverse_withCountries, ht, Except.bind_ok_eq] at hl
  rw [lookup_eq_traverse, traverse_withCountries, ht1, Except.bind_ok_eq] at hl1
  simp only [finish] at hl hl1
  obtain ⟨f, v, hv, hc⟩ := lookupData_country qt (db.withCountries cache) fuel id r
    ((CacheSound_withCountries qt db _ _).mpr hs) hl
  obtain ⟨f1, v1, hv1, hc1⟩ := lookupData_country qt (db.withCountries cache1) fuel1 id r1
    ((CacheSound_withCountries qt db _ _).mpr hs1) hl1
  rw [readDataField_withCountries] at hv hv1
  have hd : dataOffset (db.withCountries cache) id = dataOffset db id := rfl
  have hd1 : dataOffset (db.withCountries cache1) id = dataOffset db id := rfl
  rw [hd] at hv
  rw [hd1] at hv1
  have := readDataField_unique qt db hv hv1
  subst this
  rw [hc, hc1]

/-- C7: when the traversal of `lookup` ends on a record value whose data offset
decodes to a map without the key `country`, and the cache is one that lookups
have filled from the empty cache, `lookup` returns (it does not fail) and the
string it returns is empty. -/
theorem lookup_map_without_country (qt : Qt) (db : GeoIPDatabase) (addr : Q_IPV6ADDR)
    (fuel k id off : Nat) (h : QVariantHash)
    (hreach : LookupSteps qt db [] db.m_countries)
    (htrav : traverse db addr = Except.ok (Traversal.data k id))
    (hdec : readDataField qt db fuel (dataOffset db id) = Except.ok (QVariant.hash h, off))
    (hno : QHash.contains h "country" = false) :
    ∃ r, lookup qt db addr fuel = Except.ok r ∧ r.country = "" := by
  have hs := LookupSteps_sound qt db [] _ hreach (CacheSound_nil qt db)
  obtain ⟨r, hr, hc⟩ := lookupData_of_decoded qt db fuel id h off hs hdec
  refine ⟨r, ?_, ?_⟩
  · rw [lookup_eq_traverse, htrav, Except.bind_ok_eq]; exact hr
  · rw [hc, countryOf_no_country qt h hno]

/-- C8, amended: when the traversal of `lookup` ends on a record value whose
data offset decodes to a map whose `country` entry is a map that holds a value
`v` under `iso_code`, `lookup` returns `QVariant::toString()` of `v`: the empty
string when `v` is a map or a list, the decimal digits when `v` is an unsigned
integer, `true` or `false` when `v` is a boolean. -/
theorem lookup_iso_code_toString (qt : Qt) (db : GeoIPDatabase) (addr : Q_IPV6ADDR)
    (fuel k id off : Nat) (h h2 : QVariantHash) (v : QVariant)
    (hreach : LookupSteps qt db [] db.m_countries)
    (htrav : traverse db addr = Except.ok (Traversal.data k id))
    (hdec : readDataField qt db fuel (dataOffset db id) = Except.ok (QVariant.hash h, off))
    (hc : QVariantHash.get h "country" = QVariant.hash h2)
    (hv : QHash.find h2 "iso_code" = some v) :
    ∃ r, lookup qt db addr fuel = Except.ok r ∧ r.country = QVariant.toString qt v
      ∧ ((∃ m, v = QVariant.hash m) → r.country = "")
      ∧ ((∃ l, v = QVariant.list l) → r.country = "")
      ∧ (∀ n, v = QVariant.uint n → r.country = Nat.repr n)
      ∧ (∀ n, v = QVariant.ushort n → r.country = Nat.repr n)
      ∧ (v = QVariant.bool true → r.country = "true")
      ∧ (v = QVariant.bool false → r.country = "false") := by
  have hs := LookupSteps_sound qt db [] _ hreach (CacheSound_nil qt db)
  obtain ⟨r, hr, hcr⟩ := lookupData_of_decoded qt db fuel id h off hs hdec
  rw [countryOf_iso_code qt h h2 v hc hv] at hcr
  refine ⟨r, ?_, hcr, ?_, ?_, ?_, ?_, ?_, ?_⟩
  · rw [lookup_eq_traverse, htrav, Except.bind_ok_eq]; exact hr
  · rintro ⟨m, rfl⟩; rw [hcr]; rfl
  · rintro ⟨l, rfl⟩; rw [hcr]; rfl
  · rintro n rfl; rw [hcr]; rfl
  · rintro n rfl; rw [hcr]; rfl
  · rintro rfl; rw [hcr]; rfl
  · rintro rfl; rw [hcr]; rfl

/-- C9, amended: a lookup whose traversal ends on a record equal to the node
count and a lookup whose traversal ends on a record value that decodes to a
map without the key `country` return the same string, the empty one. -/
theorem lookup_not_found_same_as_no_country (qt : Qt) (db : GeoIPDatabase)
    (addr addr1 : Q_IPV6ADDR) (fuel fuel1 k k1 id off : Nat) (h : QVariantHash)
    (hreach : LookupSteps qt db [] db.m_countries)
    (hnot : traverse db addr = Except.ok (Traversal.noMatch k))
    (htrav : traverse db addr1 = Except.ok (Traversal.data k1 id))
    (hdec : readDataField qt db fuel1 (dataOffset db id) = Except.ok (QVariant.hash h, off))
    (hno : QHash.contains h "country" = false) :
    ∃ r r1, lookup qt db addr fuel = Except.ok r ∧ lookup qt db addr1 fuel1 = Except.ok r1
      ∧ r.country = "" ∧ r1.country = "" ∧ r.country = r1.country := by
  have hs := LookupSteps_sound qt db [] _ hreach (CacheSound_nil qt db)
  obtain ⟨r1, hr1, hc1⟩ := lookupData_of_decoded qt db fuel1 id h off hs hdec
  rw [countryOf_no_country qt h hno] at hc1
  refine ⟨{ country := "", m_countries := db.m_countries, decodeCalls := 0 }, r1, ?_, ?_, rfl,
    hc1, hc1.symm⟩
  · rw [lookup_eq_traverse, hnot]; rfl
  · rw [lookup_eq_traverse, htrav, Except.bind_ok_eq]; exact hr1

/-- In a database that `load` returned, nothing but the invalid value is
decoded at the data offset of a record value less than fifteen above the node
count: the offset lies in the zero separator. -/
theorem readDataField_in_separator (qt : Qt) (data : QByteArray) (fuel fuel1 : Nat)
    (db : GeoIPDatabase) (id : Nat) (v : QVariant × Nat)
    (hload : load qt data fuel = Except.ok (Except.ok db))
    (hlo : db.m_nodeCount < id) (hhi : id < db.m_nodeCount + 15) (hid : id < 4294967296)
    (hv : readDataField qt db fuel1 (dataOffset db id) = Except.ok v) :
    v.1 = QVariant.invalid := by
  obtain ⟨_, _, _, _, hn, _, hi, hsz, hsep, _, hsize, _, hmax⟩ := load_ok qt data fuel db hload
  have hmax1 : db.m_size ≤ MAX_FILE_SIZE := by omega
  have hoff : dataOffset db id = db.m_indexSize + (id - db.m_nodeCount) := by
    rw [dataOffset_eq db id hlo hid]
    simp only [MAX_FILE_SIZE] at hmax1
    simp only [u32]
    omega
  have hd := readDataFieldDescriptor_in_separator db hsep hsz hmax1 (id - db.m_nodeCount)
    (by omega)
  rw [hoff] at hv
  cases fuel1 with
  | zero => simp [readDataField] at hv
  | succ f =>
    rw [readDataField, hd] at hv
    simp only [Except.bind_ok_eq, Except.pure_eq, Except.ok.injEq] at hv
    rw [← hv]

/-- In a database that `load` returned, in any cache state that lookups lead to,
a record value less than fifteen above the node count is never resolved to a
country. -/
theorem lookupData_in_separator (qt : Qt) (data : QByteArray) (fuel fuel1 : Nat)
    (db : GeoIPDatabase) (c : QHash Nat QString) (id : Nat) (r : LookupResult)
    (hload : load qt data fuel = Except.ok (Except.ok db))
    (hreach : LookupSteps qt db [] c)
    (hlo : db.m_nodeCount < id) (hhi : id < db.m_nodeCount + 15) (hid : id < 4294967296)
    (hl : lookupData qt (db.withCountries c) fuel1 id = Except.ok r) : r.country = "" := by
  have hs := LookupSteps_sound qt db [] c hreach (CacheSound_nil qt db)
  have hd : dataOffset (db.withCountries c) id = dataOffset db id := rfl
  rcases lookupData_cases qt _ fuel1 id r hl with
    ⟨s, hf, _, _⟩ | ⟨_, v, hv, ⟨hu, _⟩ | ⟨_, hr⟩⟩
  · obtain ⟨f, v, hv, hu, _⟩ := hs id s hf
    have := readDataField_in_separator qt data fuel f db id v hload hlo hhi hid hv
    rw [this] at hu
    simp [QVariant.userType] at hu
  · rw [readDataField_withCountries, hd] at hv
    have := readDataField_in_separator qt data fuel fuel1 db id v hload hlo hhi hid hv
    rw [this] at hu
    simp [QVariant.userType] at hu
  · rw [hr]

/-- C2, refuted: no database that `load` returns with node count 2 lets a
lookup whose traversal ends on the record value 3 return `US` (or any other
non-empty string), in any cache state that lookups lead to: the data offset
of 3 is 13, inside the separator. -/
theorem no_country_at_node_count_plus_one :
    ¬ ∃ (qt : Qt) (data : QByteArray) (fuel fuel1 k : Nat) (db : GeoIPDatabase)
        (c : QHash Nat QString) (addr : Q_IPV6ADDR) (r : LookupResult),
        load qt data fuel = Except.ok (Except.ok db) ∧ db.m_nodeCount = 2
        ∧ LookupSteps qt db [] c
        ∧ traverse db addr = Except.ok (Traversal.data k 3)
        ∧ lookup qt (db.withCountries c) addr fuel1 = Except.ok r ∧ r.country = "US" := by
  rintro ⟨qt, data, fuel, fuel1, k, db, c, addr, r, hload, hn, hreach, htrav, hl, hus⟩
  rw [lookup_eq_traverse, traverse_withCountries, htrav, Except.bind_ok_eq] at hl
  have := lookupData_in_separator qt data fuel fuel1 db c 3 r hload hreach (by omega) (by omega)
    (by omega) hl
  rw [this] at hus
  exact absurd hus (by decide)

/-- C1, at a concrete input: the database loaded from `countryFile`, the
address with first bits 0 and 1, whose traversal ends on the record value 18;
the decoder is called at offset 28. -/
theorem lookup_decodes_at_data_offset_witness :
    load qtAscii countryFile 3 = Except.ok (Except.ok countryDb)
    ∧ traverse countryDb addr01 = Except.ok (Traversal.data 1 18)
    ∧ u32 (u32 (sub32 (sub32 18 countryDb.m_nodeCount) 16 + countryDb.m_indexSize) + 16)
        = u32 (countryDb.m_indexSize + (18 - countryDb.m_nodeCount))
    ∧ u32 (countryDb.m_indexSize + (18 - countryDb.m_nodeCount)) = 28 :=
  ⟨load_countryFile qtAscii, traverse_countryDb_addr01,
    (lookup_decodes_at_data_offset qtAscii countryDb addr01 3 1 18
      traverse_countryDb_addr01).1, rfl⟩

/-- C2, amended: `countryFile` is accepted by `load` with node count 2; the
address with first bits 0 and 1 ends its traversal at step 1 on the record
value 18, that is the node count plus 16; the data offset of 18 is 28, the
first byte after the separator, where the map `country -> (iso_code -> US)` is
encoded; and `lookup` returns `US`. -/
theorem lookup_returns_US_at_node_count_plus_sixteen :
    ∃ (data : QByteArray) (addr : Q_IPV6ADDR), ∀ qt : Qt, ∃ db : GeoIPDatabase,
      load qt data 3 = Except.ok (Except.ok db) ∧ db.m_nodeCount = 2
      ∧ addr.right 0 = false ∧ addr.right 1 = true
      ∧ traverse db addr = Except.ok (Traversal.data 1 18)
      ∧ dataOffset db 18 = 28
      ∧ readDataField qt db 3 28
          = Except.ok (QVariant.hash
              [("country", QVariant.hash [("iso_code", QVariant.string "US")])], 50)
      ∧ lookup qt db addr 3
          = Except.ok { country := "US", m_countries := [(18, "US")], decodeCalls := 1 } :=
  ⟨countryFile, addr01, fun qt => ⟨countryDb, load_countryFile qt, rfl, rfl, rfl,
    traverse_countryDb_addr01, rfl, decode_countryDb_18 qt, lookup_countryDb_addr01 qt⟩⟩

/-- C3, at a concrete input: the database loaded from `countryFile` and the
address with first bit 1, whose traversal reads the node count at step 0. -/
theorem lookup_no_match_witness :
    traverse countryDb addr1 = Except.ok (Traversal.noMatch 0)
    ∧ lookup qtAscii countryDb addr1 3
        = Except.ok { country := "", m_countries := countryDb.m_countries, decodeCalls := 0 } :=
  ⟨traverse_countryDb_addr1,
    (lookup_no_match qtAscii countryDb addr1 3 0 traverse_countryDb_addr1).2.1⟩

/-- C4, at a concrete input: the database loaded from `countryFile`. -/
theorem lookup_eq_referenceWalk_witness :
    countryDb.m_nodeSize = 6 ∧ countryDb.m_recordBytes = 3
    ∧ traverse countryDb addr01
        = referenceWalk countryDb.m_data countryDb.m_nodeCount addr01 128 0 0 :=
  ⟨rfl, rfl, (lookup_eq_referenceWalk qtAscii countryDb addr01 3 rfl rfl).1⟩

/-- C5, refuted: in the database loaded from `countryFile`, the lookup of the
address with first bits 0 and 0 ends on the record value 40, returns the empty
string and stores it under 40; the same lookup on the database it left calls
the decoder again. -/
theorem empty_result_is_decoded_again :
    ∃ (data : QByteArray) (addr : Q_IPV6ADDR), ∀ qt : Qt, ∃ (db : GeoIPDatabase)
        (r r1 : LookupResult),
      load qt data 3 = Except.ok (Except.ok db)
      ∧ traverse db addr = Except.ok (Traversal.data 1 40)
      ∧ lookup qt db addr 3 = Except.ok r ∧ r.country = ""
      ∧ QHash.find r.m_countries 40 = some ""
      ∧ lookup qt (db.withCountries r.m_countries) addr 3 = Except.ok r1
      ∧ r1.decodeCalls = 1 :=
  ⟨countryFile, addr00, fun qt => ⟨countryDb, _, _, load_countryFile qt,
    traverse_countryDb_addr00, lookup_countryDb_addr00 qt, rfl, rfl,
    lookup_countryDb_addr00_again qt, rfl⟩⟩

/-- C5 amended, at a concrete input: after the lookup of the address with first
bits 0 and 1 in the database loaded from `countryFile` has returned `US`, the
same lookup on the database it left returns `US` with no call of the decoder,
even when the decoder has no fuel at all. -/
theorem lookup_cached_when_not_empty_witness :
    traverse countryDb addr01 = Except.ok (Traversal.data 1 18)
    ∧ lookup qtAscii countryDb addr01 3
        = Except.ok { country := "US", m_countries := [(18, "US")], decodeCalls := 1 }
    ∧ lookup qtAscii (countryDb.withCountries [(18, "US")]) addr01 0
        = Except.ok { country := "US", m_countries := [(18, "US")], decodeCalls := 0 } :=
  ⟨traverse_countryDb_addr01, lookup_countryDb_addr01 qtAscii,
    (lookup_cached_when_not_empty qtAscii countryDb addr01 3 1 18 _
      traverse_countryDb_addr01 (lookup_countryDb_addr01 qtAscii)).1 (by decide)
      [(18, "US")] addr01 0 1 (LookupSteps.refl _) traverse_countryDb_addr01⟩

/-- C6, at a concrete input: the cache that the lookup of the address with
first bits 0 and 1 leaves in the database loaded from `countryFile`. -/
theorem cache_entries_are_decoded_countries_witness :
    LookupSteps qtAscii countryDb [] [(18, "US")]
    ∧ (∀ id s, QHash.find ([(18, "US")] : QHash Nat QString) id = some s →
        ∃ fuel r, readDataField qtAscii countryDb fuel (dataOffset countryDb id) = Except.ok r
          ∧ r.1.userType = QMetaType.QVariantHash ∧ s = countryOf qtAscii r.1) :=
  have hsteps : LookupSteps qtAscii countryDb [] [(18, "US")] :=
    LookupSteps.step addr01 3 { country := "US", m_countries := [(18, "US")], decodeCalls := 1 }
      (LookupSteps.refl []) (lookup_countryDb_addr01 qtAscii)
  ⟨hsteps, (cache_entries_are_decoded_countries qtAscii countryDb [(18, "US")] hsteps).1⟩

/-- C7, at a concrete input: in the database loaded from `countryFile` the
address with first bits 0 and 0 ends on the record value 40, which decodes to
the map `continent -> EU`. -/
theorem lookup_map_without_country_witness :
    traverse countryDb addr00 = Except.ok (Traversal.data 1 40)
    ∧ readDataField qtAscii countryDb 3 (dataOffset countryDb 40)
        = Except.ok (QVariant.hash [("continent", QVariant.string "EU")], 64)
    ∧ ∃ r, lookup qtAscii countryDb addr00 3 = Except.ok r ∧ r.country = "" :=
  ⟨traverse_countryDb_addr00, decode_countryDb_40 qtAscii,
    lookup_map_without_country qtAscii countryDb addr00 3 1 40 64 _ (LookupSteps.refl _)
      traverse_countryDb_addr00 (decode_countryDb_40 qtAscii) rfl⟩

/-- C8, refuted: in the database loaded from `isoNumberFile` the address with
first bits 0 and 1 ends on the record value 18, which decodes to a map whose
`country` entry is a map with the unsigned integer 840 under `iso_code`; the
lookup returns the text `840`, not the empty string. -/
theorem iso_code_number_is_returned_as_text :
    ∃ (data : QByteArray) (addr : Q_IPV6ADDR), ∀ qt : Qt, ∃ (db : GeoIPDatabase)
        (r : LookupResult),
      load qt data 3 = Except.ok (Except.ok db)
      ∧ traverse db addr = Except.ok (Traversal.data 1 18)
      ∧ readDataField qt db 3 (dataOffset db 18)
          = Except.ok (QVariant.hash
              [("country", QVariant.hash [("iso_code", QVariant.uint 840)])], 50)
      ∧ lookup qt db addr 3 = Except.ok r ∧ r.country = "840" ∧ r.country ≠ "" :=
  ⟨isoNumberFile, addr01, fun qt => ⟨isoNumberDb, _, load_isoNumberFile qt,
    traverse_isoNumberDb_addr01, decode_isoNumberDb_18 qt, lookup_isoNumberDb_addr01 qt, rfl,
    by decide⟩⟩

/-- C8 amended, at a concrete input: the database loaded from `isoNumberFile`
and the address with first bits 0 and 1. -/
theorem lookup_iso_code_toString_witness :
    traverse isoNumberDb addr01 = Except.ok (Traversal.data 1 18)
    ∧ ∃ r, lookup qtAscii isoNumberDb addr01 3 = Except.ok r
        ∧ r.country = QVariant.toString qtAscii (QVariant.uint 840) :=
  ⟨traverse_isoNumberDb_addr01,
    (lookup_iso_code_toString qtAscii isoNumberDb addr01 3 1 18 50 _
      [("iso_code", QVariant.uint 840)] (QVariant.uint 840) (LookupSteps.refl _)
      traverse_isoNumberDb_addr01 (decode_isoNumberDb_18 qtAscii) rfl rfl).imp
      (fun _ h => ⟨h.1, h.2.1⟩)⟩

/-- C9, refuted: in the database loaded from `countryFile`, the address with
first bit 1 is not in the database (its traversal reads the node count) and
the address with first bits 0 and 0 reaches a leaf whose map has no `country`
key; `lookup` returns the same string for both. -/
theorem not_found_and_no_country_return_the_same :
    ∃ (data : QByteArray) (addr addr1 : Q_IPV6ADDR), ∀ qt : Qt, ∃ (db : GeoIPDatabase)
        (r r1 : LookupResult),
      load qt data 3 = Except.ok (Except.ok db)
      ∧ traverse db addr = Except.ok (Traversal.noMatch 0)
      ∧ traverse db addr1 = Except.ok (Traversal.data 1 40)
      ∧ readDataField qt db 3 (dataOffset db 40)
          = Except.ok (QVariant.hash [("continent", QVariant.string "EU")], 64)
      ∧ lookup qt db addr 3 = Except.ok r ∧ lookup qt db addr1 3 = Except.ok r1
      ∧ r.country = r1.country :=
  ⟨countryFile, addr1, addr00, fun qt => ⟨countryDb, _, _, load_countryFile qt,
    traverse_countryDb_addr1, traverse_countryDb_addr00, decode_countryDb_40 qt,
    lookup_countryDb_addr1 qt, lookup_countryDb_addr00 qt, rfl⟩⟩

/-- C9 amended, at a concrete input: the database loaded from `countryFile`,
the address with first bit 1 and the address with first bits 0 and 0. -/
theorem lookup_not_found_same_as_no_country_witness :
    traverse countryDb addr1 = Except.ok (Traversal.noMatch 0)
    ∧ traverse countryDb addr00 = Except.ok (Traversal.data 1 40)
    ∧ ∃ r r1, lookup qtAscii countryDb addr1 3 = Except.ok r
        ∧ lookup qtAscii countryDb addr00 3 = Except.ok r1 ∧ r.country = r1.country :=
  ⟨traverse_countryDb_addr1, traverse_countryDb_addr00,
    (lookup_not_found_same_as_no_country qtAscii countryDb addr1 addr00 3 3 0 1 40 64 _
      (LookupSteps.refl _) traverse_countryDb_addr1 traverse_countryDb_addr00
      (decode_countryDb_40 qtAscii) rfl).imp
      (fun _ h => h.imp (fun _ g => ⟨g.1, g.2.1, g.2.2.2.2⟩))⟩

/-- C10, the code at the failing input: `load` accepts `wrapFile`, whose
metadata gives the node count 715827883; the record size is 24, the node size
6 and the record size in bytes 3, but the index size is 2, not six times the
node count, six times the node count plus 16 exceeds the buffer size, and a
lookup reads outside the buffer. -/
theorem load_accepts_wrapped_index_size :
    wrapFile.length ≤ MAX_FILE_SIZE
    ∧ ∀ qt : Qt, ∃ db : GeoIPDatabase,
      load qt wrapFile 3 = Except.ok (Except.ok db)
      ∧ db.m_nodeCount = 715827883 ∧ db.m_recordSize = 24 ∧ db.m_nodeSize = 6
      ∧ db.m_recordBytes = 3 ∧ db.m_indexSize = 2 ∧ db.m_size = wrapFile.length
      ∧ db.m_indexSize ≠ 6 * db.m_nodeCount
      ∧ ¬ (6 * db.m_nodeCount + 16 ≤ db.m_size)
      ∧ ∀ fuel, lookup qt db addr00 fuel = Except.error Fault.outOfBounds :=
  ⟨by rw [wrapFile_length]; decide,
    fun qt => ⟨wrapDb, load_wrapFile qt, rfl, rfl, rfl, rfl, rfl, wrapFile_length.symm,
      by decide, by decide, lookup_wrapDb qt⟩⟩

/-! ## Loading and decoding: lemmas and claims -/

theorem CHECK_METADATA_REQ_eq_none (md : QVariantHash) (key : String) (type : QMetaType) :
    CHECK_METADATA_REQ md key type = none ↔ HasType md key type := by
  unfold CHECK_METADATA_REQ HasType
  by_cases hc : QHash.contains md key = true
  · by_cases ht : (QHash.value md key QVariant.invalid).userType = type
    · simp [hc, ht]
    · simp [hc, ht]
  · simp [hc]

theorem CHECK_METADATA_REQ_error (md : QVariantHash) (key : String) (type : QMetaType)
    (e : LoadError) (h : CHECK_METADATA_REQ md key type = some e) :
    e = LoadError.entryNotFound key ∨ e = LoadError.entryInvalidType key := by
  unfold CHECK_METADATA_REQ at h
  split at h
  · left; exact (Option.some.inj h).symm
  · split at h
    · right; exact (Option.some.inj h).symm
    · simp at h

theorem CHECK_METADATA_OPT_error (md : QVariantHash) (key : String) (type : QMetaType)
    (e : LoadError) (h : CHECK_METADATA_OPT md key type = some e) :
    e = LoadError.entryInvalidType key := by
  unfold CHECK_METADATA_OPT at h
  split at h
  · split at h
    · exact (Option.some.inj h).symm
    · simp at h
  · simp at h

theorem CHECK_METADATA_OPT_eq_none (md : QVariantHash) (key : String) (type : QMetaType) :
    CHECK_METADATA_OPT md key type = none ↔
      (QHash.contains md key = true → (QHash.value md key QVariant.invalid).userType = type) := by
  unfold CHECK_METADATA_OPT
  by_cases hc : QHash.contains md key = true
  · by_cases ht : (QHash.value md key QVariant.invalid).userType = type
    · simp [hc, ht]
    · simp [hc, ht]
  · simp [hc]

/-- When `parseMetadata` succeeds, every check it makes has passed. -/
theorem parseMetadata_ok_checks (qt : Qt) (md : QVariantHash) (db db1 : GeoIPDatabase)
    (h : parseMetadata qt md db = Except.ok db1) :
    HasType md "binary_format_major_version" QMetaType.UShort
    ∧ HasType md "binary_format_minor_version" QMetaType.UShort
    ∧ (QHash.value md "binary_format_major_version" QVariant.invalid).toUInt = 2
    ∧ HasType md "ip_version" QMetaType.UShort
    ∧ (QHash.value md "ip_version" QVariant.invalid).valueUShort = 6
    ∧ HasType md "record_size" QMetaType.UShort
    ∧ (QHash.value md "record_size" QVariant.invalid).valueUShort = 24
    ∧ HasType md "node_count" QMetaType.UInt
    ∧ HasType md "database_type" QMetaType.QString
    ∧ HasType md "build_epoch" QMetaType.ULongLong
    ∧ SpecOptionalMetadata md := by
  unfold parseMetadata at h
  split at h
  · simp at h
  rename_i c1
  split at h
  · simp at h
  rename_i c2
  simp only at h
  split at h
  · simp at h
  rename_i v1
  split at h
  · simp at h
  rename_i c3
  split at h
  · simp at h
  rename_i v2
  split at h
  · simp at h
  rename_i c4
  split at h
  · simp at h
  rename_i v3
  split at h
  · simp at h
  rename_i c5
  split at h
  · simp at h
  rename_i c6
  split at h
  · simp at h
  rename_i c7
  split at h
  · simp at h
  rename_i c8
  split at h
  · simp at h
  rename_i c9
  simp only [ne_eq, Decidable.not_not] at v1 v2 v3
  exact ⟨(CHECK_METADATA_REQ_eq_none _ _ _).mp c1, (CHECK_METADATA_REQ_eq_none _ _ _).mp c2, v1,
    (CHECK_METADATA_REQ_eq_none _ _ _).mp c3, v2, (CHECK_METADATA_REQ_eq_none _ _ _).mp c4, v3,
    (CHECK_METADATA_REQ_eq_none _ _ _).mp c5, (CHECK_METADATA_REQ_eq_none _ _ _).mp c6,
    (CHECK_METADATA_REQ_eq_none _ _ _).mp c7,
    (CHECK_METADATA_OPT_eq_none _ _ _).mp c8, (CHECK_METADATA_OPT_eq_none _ _ _).mp c9⟩

/-- When every check passes, `parseMetadata` succeeds. -/
theorem parseMetadata_of_checks (qt : Qt) (md : QVariantHash) (db : GeoIPDatabase)
    (h1 : HasType md "binary_format_major_version" QMetaType.UShort)
    (h2 : HasType md "binary_format_minor_version" QMetaType.UShort)
    (v1 : (QHash.value md "binary_format_major_version" QVariant.invalid).toUInt = 2)
    (h3 : HasType md "ip_version" QMetaType.UShort)
    (v2 : (QHash.value md "ip_version" QVariant.invalid).valueUShort = 6)
    (h4 : HasType md "record_size" QMetaType.UShort)
    (v3 : (QHash.value md "record_size" QVariant.invalid).valueUShort = 24)
    (h5 : HasType md "node_count" QMetaType.UInt)
    (h6 : HasType md "database_type" QMetaType.QString)
    (h7 : HasType md "build_epoch" QMetaType.ULongLong)
    (h8 : SpecOptionalMetadata md) :
    ∃ db1, parseMetadata qt md db = Except.ok db1 := by
  unfold parseMetadata
  rw [(CHECK_METADATA_REQ_eq_none _ _ _).mpr h1, (CHECK_METADATA_REQ_eq_none _ _ _).mpr h2,
    (CHECK_METADATA_REQ_eq_none _ _ _).mpr h3, (CHECK_METADATA_REQ_eq_none _ _ _).mpr h4,
    (CHECK_METADATA_REQ_eq_none _ _ _).mpr h5, (CHECK_METADATA_REQ_eq_none _ _ _).mpr h6,
    (CHECK_METADATA_REQ_eq_none _ _ _).mpr h7, (CHECK_METADATA_OPT_eq_none _ _ _).mpr h8.1,
    (CHECK_METADATA_OPT_eq_none _ _ _).mpr h8.2]
  simp only [v1, v2, v3, ne_eq, not_true_eq_false, if_false]
  exact ⟨_, rfl⟩

theorem parseMetadata_error_kind (qt : Qt) (md : QVariantHash) (db : GeoIPDatabase)
    (e : LoadError) (h : parseMetadata qt md db = Except.error e) :
    e ≠ LoadError.unsupportedFileSize ∧ e ≠ LoadError.noDataSection := by
  have hreq : ∀ key type e1, CHECK_METADATA_REQ md key type = some e1 →
      e1 ≠ LoadError.unsupportedFileSize ∧ e1 ≠ LoadError.noDataSection := by
    intro key type e1 h1
    rcases CHECK_METADATA_REQ_error md key type e1 h1 with rfl | rfl <;> simp
  have hopt : ∀ key type e1, CHECK_METADATA_OPT md key type = some e1 →
      e1 ≠ LoadError.unsupportedFileSize ∧ e1 ≠ LoadError.noDataSection := by
    intro key type e1 h1
    rw [CHECK_METADATA_OPT_error md key type e1 h1]; simp
  unfold parseMetadata at h
  split at h
  · rename_i c; rw [← Except.error.inj h]; exact hreq _ _ _ c
  split at h
  · rename_i c; rw [← Except.error.inj h]; exact hreq _ _ _ c
  simp only at h
  split at h
  · rw [← Except.error.inj h]; simp
  split at h
  · rename_i c; rw [← Except.error.inj h]; exact hreq _ _ _ c
  split at h
  · rw [← Except.error.inj h]; simp
  split at h
  · rename_i c; rw [← Except.error.inj h]; exact hreq _ _ _ c
  split at h
  · rw [← Except.error.inj h]; simp
  split at h
  · rename_i c; rw [← Except.error.inj h]; exact hreq _ _ _ c
  split at h
  · rename_i c; rw [← Except.error.inj h]; exact hreq _ _ _ c
  split at h
  · rename_i c; rw [← Except.error.inj h]; exact hreq _ _ _ c
  split at h
  · rename_i c; rw [← Except.error.inj h]; exact hopt _ _ _ c
  split at h
  · rename_i c; rw [← Except.error.inj h]; exact hopt _ _ _ c
  simp at h

theorem loadDB_error (db : GeoIPDatabase) (e : LoadError)
    (h : loadDB db = Except.ok (some e)) : e = LoadError.noDataSection := by
  unfold loadDB at h
  simp only at h
  split at h
  · simp only [Except.pure_eq, Except.ok.injEq, Option.some.injEq] at h; exact h.symm
  split at h
  · simp at h
  obtain ⟨bs, _, h⟩ := Except.bind_eq_ok h
  split at h
  · simp only [Except.pure_eq, Except.ok.injEq, Option.some.injEq] at h; exact h.symm
  · simp at h

/-- The function `load` on a buffer that is not too long, in terms of its parts. -/
theorem load_unfold (qt : Qt) (data : QByteArray) (fuel : Nat)
    (hlen : data.length ≤ MAX_FILE_SIZE) :
    load qt data fuel
      = (readMetadata qt (GeoIPDatabase.create data) fuel >>= fun md =>
          match parseMetadata qt md (GeoIPDatabase.create data) with
          | Except.error e => Except.ok (Except.error e)
          | Except.ok db1 =>
            loadDB db1 >>= fun o =>
              match o with
              | some e => Except.ok (Except.error e)
              | none => Except.ok (Except.ok db1)) := by
  unfold load
  rw [if_neg (by omega)]
  rfl

/-- When the metadata that `readMetadata` returns does not pass `parseMetadata`,
`load` reports the error of `parseMetadata`. -/
theorem load_parse_error (qt : Qt) (data : QByteArray) (fuel : Nat) (md : QVariantHash)
    (e : LoadError) (hlen : data.length ≤ MAX_FILE_SIZE)
    (hm : readMetadata qt (GeoIPDatabase.create data) fuel = Except.ok md)
    (hp : parseMetadata qt md (GeoIPDatabase.create data) = Except.error e) :
    load qt data fuel = Except.ok (Except.error e) := by
  rw [load_unfold qt data fuel hlen, hm, Except.bind_ok_eq]
  simp only [hp]

theorem load_too_long (qt : Qt) (data : QByteArray) (fuel : Nat)
    (hlen : data.length > MAX_FILE_SIZE) :
    load qt data fuel = Except.ok (Except.error LoadError.unsupportedFileSize) := by
  unfold load
  rw [if_pos hlen]
  rfl

/-- C11: `load` reports the size error exactly when the buffer is longer than
67108864 bytes; it then does so whatever the bytes are and without decoding
anything (with any fuel, even none). -/
theorem load_size_error_iff (qt : Qt) (data : QByteArray) (fuel : Nat) :
    (load qt data fuel = Except.ok (Except.error LoadError.unsupportedFileSize)
      ↔ data.length > 67108864)
    ∧ (data.length = 67108864 →
        load qt data fuel ≠ Except.ok (Except.error LoadError.unsupportedFileSize))
    ∧ (data.length = 67108865 →
        ∀ (qt1 : Qt) (fuel1 : Nat),
          load qt1 data fuel1 = Except.ok (Except.error LoadError.unsupportedFileSize)) := by
  have hiff : load qt data fuel = Except.ok (Except.error LoadError.unsupportedFileSize)
      ↔ data.length > 67108864 := by
    constructor
    · intro h
      by_contra hle
      have hlen : data.length ≤ MAX_FILE_SIZE := by simp only [MAX_FILE_SIZE]; omega
      rw [load_unfold qt data fuel hlen] at h
      obtain ⟨md, _, h⟩ := Except.bind_eq_ok h
      cases hp : parseMetadata qt md (GeoIPDatabase.create data) with
      | error e =>
        rw [hp] at h
        simp only [Except.ok.injEq, Except.error.injEq] at h
        exact (parseMetadata_error_kind qt md _ e hp).1 h
      | ok db1 =>
        rw [hp] at h
        simp only at h
        obtain ⟨o, ho, h⟩ := Except.bind_eq_ok h
        cases o with
        | none => simp at h
        | some e =>
          simp only [Except.ok.injEq, Except.error.injEq] at h
          have := loadDB_error db1 e ho
          rw [h] at this
          simp at this
    · intro h
      exact load_too_long qt data fuel (by simp only [MAX_FILE_SIZE]; omega)
  refine ⟨hiff, ?_, ?_⟩
  · intro h67 h
    have := hiff.mp h
    omega
  · intro h67 qt1 fuel1
    exact load_too_long qt1 data fuel1 (by simp only [MAX_FILE_SIZE]; omega)

theorem HasType_congr (md md1 : QVariantHash) (key : QString) (type : QMetaType)
    (h : QHash.find md1 key = QHash.find md key) : HasType md1 key type ↔ HasType md key type := by
  simp only [HasType, QHash.contains, QHash.value, h]

theorem QHash.value_congr {κ ν : Type} [DecidableEq κ] (m m1 : QHash κ ν) (k : κ) (d : ν)
    (h : QHash.find m1 k = QHash.find m k) : QHash.value m1 k d = QHash.value m k d := by
  simp only [QHash.value, h]

/-- C12: when a metadata map passes `parseMetadata`, every map with the same
format version and IP version entries whose `record_size` entry is an
unsigned 16-bit value other than 24 is rejected by `parseMetadata` with the
error for an unsupported record size, whatever its other entries are, and
`load` reports that error for a buffer whose metadata decodes to such a map. -/
theorem parseMetadata_rejects_other_record_size (qt : Qt) (md md1 : QVariantHash)
    (db0 db1 db : GeoIPDatabase) (v : Nat)
    (hpass : parseMetadata qt md db0 = Except.ok db1)
    (hsame : ∀ key, key = "binary_format_major_version" ∨ key = "binary_format_minor_version"
        ∨ key = "ip_version" → QHash.find md1 key = QHash.find md key)
    (hrs : QHash.find md1 "record_size" = some (QVariant.ushort v))
    (hv : v < 65536) (hne : v ≠ 24) :
    parseMetadata qt md1 db = Except.error (LoadError.unsupportedRecordSize v)
    ∧ ∀ (data : QByteArray) (fuel : Nat), data.length ≤ MAX_FILE_SIZE →
        readMetadata qt (GeoIPDatabase.create data) fuel = Except.ok md1 →
        load qt data fuel = Except.ok (Except.error (LoadError.unsupportedRecordSize v)) := by
  obtain ⟨h1, h2, v1, h3, v2, _⟩ := parseMetadata_ok_checks qt md db0 db1 hpass
  have e1 := hsame "binary_format_major_version" (Or.inl rfl)
  have e2 := hsame "binary_format_minor_version" (Or.inr (Or.inl rfl))
  have e3 := hsame "ip_version" (Or.inr (Or.inr rfl))
  have hp : ∀ db2, parseMetadata qt md1 db2
      = Except.error (LoadError.unsupportedRecordSize v) := by
    intro db2
    have g1 := (HasType_congr md md1 _ QMetaType.UShort e1).mpr h1
    have g2 := (HasType_congr md md1 _ QMetaType.UShort e2).mpr h2
    have g3 := (HasType_congr md md1 _ QMetaType.UShort e3).mpr h3
    have g4 : HasType md1 "record_size" QMetaType.UShort := by
      simp [HasType, QHash.contains, QHash.value, hrs, QVariant.userType]
    have w1 : (QHash.value md1 "binary_format_major_version" QVariant.invalid).toUInt = 2 := by
      rw [QHash.value_congr md md1 _ _ e1]; exact v1
    have w2 : (QHash.value md1 "ip_version" QVariant.invalid).valueUShort = 6 := by
      rw [QHash.value_congr md md1 _ _ e3]; exact v2
    have w3 : (QHash.value md1 "record_size" QVariant.invalid).valueUShort = v := by
      simp only [QHash.value, hrs, Option.getD_some, QVariant.valueUShort]
      omega
    unfold parseMetadata
    rw [(CHECK_METADATA_REQ_eq_none _ _ _).mpr g1, (CHECK_METADATA_REQ_eq_none _ _ _).mpr g2,
      (CHECK_METADATA_REQ_eq_none _ _ _).mpr g3, (CHECK_METADATA_REQ_eq_none _ _ _).mpr g4]
    simp only [w1, w2, w3, ne_eq, not_true_eq_false, if_false, hne, not_false_eq_true, if_true]
  exact ⟨hp db, fun data fuel hlen hm => load_parse_error qt data fuel md1 _ hlen hm (hp _)⟩

theorem parseMetadata_total (qt : Qt) (md : QVariantHash) (db : GeoIPDatabase) :
    (∃ db1, parseMetadata qt md db = Except.ok db1) ∨ (∃ e, parseMetadata qt md db = Except.error e) := by
  cases parseMetadata qt md db with
  | ok d => exact Or.inl ⟨d, rfl⟩
  | error e => exact Or.inr ⟨e, rfl⟩

/-- C13: `parseMetadata` succeeds only on a metadata map that holds the
required keys with their types and values (the format major version 2, the IP
version 6 and the record size 24 as `UShort`, the node count as `UInt`, the
database type as a string, the build epoch as `ULongLong`); on any other map it
returns an error, and `load` then reports an error and returns no database. -/
theorem parseMetadata_succeeds_only_if (qt : Qt) (md : QVariantHash) (db : GeoIPDatabase) :
    (∀ db1, parseMetadata qt md db = Except.ok db1 → SpecRequiredMetadata md)
    ∧ (¬ SpecRequiredMetadata md →
        (∃ e, parseMetadata qt md db = Except.error e)
        ∧ ∀ (data : QByteArray) (fuel : Nat),
            readMetadata qt (GeoIPDatabase.create data) fuel = Except.ok md →
            (∃ e, load qt data fuel = Except.ok (Except.error e))
            ∧ ∀ db1, load qt data fuel ≠ Except.ok (Except.ok db1)) := by
  have hok : ∀ db0 db1, parseMetadata qt md db0 = Except.ok db1 → SpecRequiredMetadata md := by
    intro db0 db1 h
    obtain ⟨h1, _, v1, h3, v2, h4, v3, h5, h6, h7, _⟩ := parseMetadata_ok_checks qt md db0 db1 h
    exact ⟨h1, v1, h3, v2, h4, v3, h5, h6, h7⟩
  have herr : ¬ SpecRequiredMetadata md → ∀ db0, ∃ e, parseMetadata qt md db0 = Except.error e := by
    intro hn db0
    rcases parseMetadata_total qt md db0 with ⟨d, hd⟩ | he
    · exact absurd (hok db0 d hd) hn
    · exact he
  refine ⟨hok db, fun hn => ⟨herr hn db, ?_⟩⟩
  intro data fuel hm
  have hex : ∃ e, load qt data fuel = Except.ok (Except.error e) := by
    by_cases hlen : data.length ≤ MAX_FILE_SIZE
    · obtain ⟨e, he⟩ := herr hn (GeoIPDatabase.create data)
      exact ⟨e, load_parse_error qt data fuel md e hlen hm he⟩
    · exact ⟨_, load_too_long qt data fuel (by omega)⟩
  refine ⟨hex, ?_⟩
  intro db1 h
  obtain ⟨e, he⟩ := hex
  rw [he] at h
  simp at h

/-- C14, refuted: the metadata map `metadataHashNoMinor` has every key that the
specification lists as required, with the right type and value, and no
optional key, and `parseMetadata` rejects it: the entry
`binary_format_minor_version` is not found. -/
theorem parseMetadata_requires_minor_version :
    SpecRequiredMetadata metadataHashNoMinor ∧ SpecOptionalMetadata metadataHashNoMinor
    ∧ ∀ (qt : Qt) (db : GeoIPDatabase),
        parseMetadata qt metadataHashNoMinor db
          = Except.error (LoadError.entryNotFound "binary_format_minor_version") := by
  refine ⟨?_, ?_, fun qt db => rfl⟩
  · simp only [SpecRequiredMetadata, HasType]
    decide
  · simp only [SpecOptionalMetadata]
    decide

/-- C14, amended: a metadata map that has the required keys the specification
lists, each with its type and value, and also the key
`binary_format_minor_version` with an unsigned 16-bit value, and no ill-typed
optional key, passes `parseMetadata`. -/
theorem parseMetadata_accepts_required_keys (qt : Qt) (md : QVariantHash) (db : GeoIPDatabase)
    (hreq : SpecRequiredMetadata md)
    (hminor : HasType md "binary_format_minor_version" QMetaType.UShort)
    (hopt : SpecOptionalMetadata md) :
    ∃ db1, parseMetadata qt md db = Except.ok db1 := by
  obtain ⟨h1, v1, h3, v2, h4, v3, h5, h6, h7⟩ := hreq
  exact parseMetadata_of_checks qt md db h1 hminor v1 h3 v2 h4 v3 h5 h6 h7 hopt

theorem find_reverse_range_none (p : Nat → Bool) :
    ∀ n, (∀ j, j < n → p j = false) → (List.range n).reverse.find? p = none := by
  intro n
  induction n with
  | zero => intro _; rfl
  | succ n ih =>
    intro h
    rw [List.range_succ, List.reverse_append, List.reverse_singleton, List.singleton_append,
      List.find?_cons, h n (by omega)]
    exact ih (fun j hj => h j (by omega))

theorem find_reverse_range_some (p : Nat → Bool) (i : Nat) (hp : p i = true) :
    ∀ n, i < n → (∀ j, i < j → j < n → p j = false) →
      (List.range n).reverse.find? p = some i := by
  intro n
  induction n with
  | zero => intro h; omega
  | succ n ih =>
    intro hi hlast
    rw [List.range_succ, List.reverse_append, List.reverse_singleton, List.singleton_append,
      List.find?_cons]
    by_cases hin : i = n
    · subst hin; rw [hp]
    · rw [hlast n (by omega) (by omega)]
      exact ih (by omega) (fun j h1 h2 => hlast j h1 (by omega))

theorem MarkerAt_length (data : List uchar) (i : Nat) (h : MarkerAt data i) :
    i + 14 ≤ data.length := by
  have := congrArg List.length h
  simp only [List.length_take, List.length_drop, METADATA_BEGIN_MARK, List.length_cons,
    List.length_nil] at this
  omega

theorem METADATA_BEGIN_MARK_length : METADATA_BEGIN_MARK.length = 14 := rfl

theorem lastIndexOf_drop_some (data : List uchar) (start i : Nat) (hs : start ≤ i)
    (hm : MarkerAt data i) (hlast : ∀ j, i < j → ¬ MarkerAt data j) :
    lastIndexOf (data.drop start) METADATA_BEGIN_MARK = some (i - start) := by
  have hlen := MarkerAt_length data i hm
  unfold lastIndexOf
  rw [METADATA_BEGIN_MARK_length]
  apply find_reverse_range_some
  · simp only [List.drop_drop, decide_eq_true_eq]
    rw [show start + (i - start) = i by omega]
    exact hm
  · simp only [List.length_drop]
    omega
  · intro j hj _
    simp only [List.drop_drop, decide_eq_false_iff_not]
    exact hlast (start + j) (by omega)

theorem lastIndexOf_drop_none (data : List uchar) (start : Nat)
    (hnone : ∀ j, start ≤ j → ¬ MarkerAt data j) :
    lastIndexOf (data.drop start) METADATA_BEGIN_MARK = none := by
  unfold lastIndexOf
  rw [METADATA_BEGIN_MARK_length]
  apply find_reverse_range_none
  intro j _
  simp only [List.drop_drop, decide_eq_false_iff_not]
  exact hnone (start + j) (by omega)

/-- The window in which `readMetadata` searches is the buffer from the index
`size - 131072` on. -/
theorem readMetadata_window (db : GeoIPDatabase) (hsize : db.m_size = db.m_data.length) :
    ((db.m_data.drop (if db.m_size > MAX_METADATA_SIZE then db.m_size - MAX_METADATA_SIZE else 0)).take
        (if db.m_size > MAX_METADATA_SIZE then MAX_METADATA_SIZE else db.m_size))
      = db.m_data.drop (db.m_data.length - 131072)
    ∧ (if db.m_size > MAX_METADATA_SIZE then db.m_size - MAX_METADATA_SIZE else 0)
      = db.m_data.length - 131072 := by
  have hstart : (if db.m_size > MAX_METADATA_SIZE then db.m_size - MAX_METADATA_SIZE else 0)
      = db.m_data.length - 131072 := by
    simp only [MAX_METADATA_SIZE]
    split <;> omega
  refine ⟨?_, hstart⟩
  rw [hstart]
  apply List.take_of_length_le
  simp only [List.length_drop, MAX_METADATA_SIZE]
  split <;> omega

theorem readMetadata_of_window (qt : Qt) (db : GeoIPDatabase) (fuel : Nat) (start : Nat)
    (w : List uchar)
    (hs : (if db.m_size > MAX_METADATA_SIZE then db.m_size - MAX_METADATA_SIZE else 0) = start)
    (hw : ((db.m_data.drop (if db.m_size > MAX_METADATA_SIZE then db.m_size - MAX_METADATA_SIZE else 0)).take
        (if db.m_size > MAX_METADATA_SIZE then MAX_METADATA_SIZE else db.m_size)) = w) :
    readMetadata qt db fuel
      = match lastIndexOf w METADATA_BEGIN_MARK with
        | some index =>
          (readDataField qt db fuel (u32 (index + start + 14)) >>= fun r =>
            if r.1.userType = QMetaType.QVariantHash then Except.ok r.1.toHash
            else Except.ok [])
        | none => Except.ok [] := by
  subst hs
  subst hw
  rfl

theorem readMetadata_last_marker (qt : Qt) (db : GeoIPDatabase) (fuel : Nat)
    (hsize : db.m_size = db.m_data.length) (h32 : db.m_size < 4294967296) (i : Nat)
    (hi : LastMarker db.m_data i) :
    readMetadata qt db fuel
      = (readDataField qt db fuel (i + 14) >>= fun r =>
          if r.1.userType = QMetaType.QVariantHash then Except.ok r.1.toHash
          else Except.ok []) := by
  obtain ⟨hwin, hstart⟩ := readMetadata_window db hsize
  have hrm := readMetadata_of_window qt db fuel _ _ hstart hwin
  obtain ⟨hlo, hm, hlast⟩ := hi
  have hlen := MarkerAt_length db.m_data i hm
  rw [hrm, lastIndexOf_drop_some db.m_data _ i hlo hm hlast]
  have hoff : u32 (i - (db.m_data.length - 131072) + (db.m_data.length - 131072) + 14)
      = i + 14 := by
    simp only [u32]; omega
  simp only [hoff]

theorem readMetadata_no_marker (qt : Qt) (db : GeoIPDatabase) (fuel : Nat)
    (hsize : db.m_size = db.m_data.length)
    (hnone : ∀ i, db.m_data.length - 131072 ≤ i → ¬ MarkerAt db.m_data i) :
    readMetadata qt db fuel = Except.ok [] := by
  obtain ⟨hwin, hstart⟩ := readMetadata_window db hsize
  have hrm := readMetadata_of_window qt db fuel _ _ hstart hwin
  rw [hrm, lastIndexOf_drop_none db.m_data _ hnone]

/-- C17: on a database object whose `m_size` is the length of its buffer,
`readMetadata` decodes the value that starts 14 bytes after the greatest index
`i`, not below `size - 131072`, at which the marker occurs entirely inside the
buffer, and returns it when it is a hash (an empty hash otherwise); without
such an occurrence it returns an empty hash and decodes nothing. -/
theorem readMetadata_decodes_after_last_marker (qt : Qt) (db : GeoIPDatabase) (fuel : Nat)
    (hsize : db.m_size = db.m_data.length) (h32 : db.m_size < 4294967296) :
    (∀ i, LastMarker db.m_data i →
      readMetadata qt db fuel
        = (readDataField qt db fuel (i + 14) >>= fun r =>
            if r.1.userType = QMetaType.QVariantHash then Except.ok r.1.toHash
            else Except.ok []))
    ∧ ((∀ i, db.m_data.length - 131072 ≤ i → ¬ MarkerAt db.m_data i) →
        readMetadata qt db fuel = Except.ok []) :=
  ⟨fun i hi => readMetadata_last_marker qt db fuel hsize h32 i hi,
   fun hnone => readMetadata_no_marker qt db fuel hsize hnone⟩

theorem find_reverse_range_eq_some (p : Nat → Bool) (i : Nat) :
    ∀ n, (List.range n).reverse.find? p = some i →
      p i = true ∧ i < n ∧ ∀ j, i < j → j < n → p j = false := by
  intro n
  induction n with
  | zero => intro h; simp at h
  | succ n ih =>
    intro h
    rw [List.range_succ, List.reverse_append, List.reverse_singleton, List.singleton_append,
      List.find?_cons] at h
    cases hp : p n with
    | true =>
      rw [hp] at h
      simp only [Option.some.injEq] at h
      subst h
      exact ⟨hp, by omega, fun j h1 h2 => by omega⟩
    | false =>
      rw [hp] at h
      obtain ⟨h1, h2, h3⟩ := ih h
      refine ⟨h1, by omega, fun j hj1 hj2 => ?_⟩
      by_cases hjn : j = n
      · subst hjn; exact hp
      · exact h3 j hj1 (by omega)

/-- What `lastIndexOf` finds in a buffer is the last occurrence of the marker. -/
theorem LastMarker_of_lastIndexOf (data : List uchar) (i : Nat)
    (hshort : data.length ≤ 131072)
    (h : lastIndexOf data METADATA_BEGIN_MARK = some i) : LastMarker data i := by
  unfold lastIndexOf at h
  rw [METADATA_BEGIN_MARK_length] at h
  obtain ⟨h1, h2, h3⟩ := find_reverse_range_eq_some _ _ _ h
  simp only [decide_eq_true_eq] at h1
  refine ⟨by omega, h1, fun j hj hm => ?_⟩
  have hlen := MarkerAt_length data j hm
  have := h3 j hj (by omega)
  simp only [decide_eq_false_iff_not] at this
  exact this hm

theorem not_MarkerAt_nil (i : Nat) : ¬ MarkerAt [] i := by
  intro h
  have := MarkerAt_length [] i h
  simp at this

theorem parseMetadata_nil (qt : Qt) (db : GeoIPDatabase) :
    parseMetadata qt [] db
      = Except.error (LoadError.entryNotFound "binary_format_major_version") := rfl

theorem create_size (data : QByteArray) (h : data.length ≤ MAX_FILE_SIZE) :
    (GeoIPDatabase.create data).m_size = (GeoIPDatabase.create data).m_data.length
    ∧ (GeoIPDatabase.create data).m_size < 4294967296 := by
  simp only [GeoIPDatabase.create, u32, MAX_FILE_SIZE] at *
  omega

/-- C18: when the marker does not occur in the search window of `readMetadata`,
or the value decoded right after its last occurrence is not a map, `load`
reports an error and returns no database: the size error for a buffer longer
than 67108864 bytes, and otherwise the error that the first required key of
the metadata is missing. -/
theorem load_fails_without_metadata_map (qt : Qt) (data : QByteArray) (fuel : Nat)
    (hnomap : (∀ i, data.length - 131072 ≤ i → ¬ MarkerAt data i)
      ∨ ∃ i r, LastMarker data i
          ∧ readDataField qt (GeoIPDatabase.create data) fuel (i + 14) = Except.ok r
          ∧ r.1.userType ≠ QMetaType.QVariantHash) :
    load qt data fuel
        = Except.ok (Except.error
            (if data.length > MAX_FILE_SIZE then LoadError.unsupportedFileSize
             else LoadError.entryNotFound "binary_format_major_version"))
    ∧ ∀ db, load qt data fuel ≠ Except.ok (Except.ok db) := by
  have key : load qt data fuel
        = Except.ok (Except.error
            (if data.length > MAX_FILE_SIZE then LoadError.unsupportedFileSize
             else LoadError.entryNotFound "binary_format_major_version")) := by
    by_cases hlen : data.length > MAX_FILE_SIZE
    · rw [if_pos hlen]; exact load_too_long qt data fuel hlen
    · rw [if_neg hlen]
      have hle : data.length ≤ MAX_FILE_SIZE := by omega
      obtain ⟨hsize, h32⟩ := create_size data hle
      have hrm : readMetadata qt (GeoIPDatabase.create data) fuel = Except.ok [] := by
        rcases hnomap with hnone | ⟨i, r, hi, hr, hty⟩
        · exact readMetadata_no_marker qt _ fuel hsize hnone
        · rw [readMetadata_last_marker qt _ fuel hsize h32 i hi, hr, Except.bind_ok_eq,
            if_neg hty]
      exact load_parse_error qt data fuel [] _ hle hrm (parseMetadata_nil qt _)
  refine ⟨key, fun db h => ?_⟩
  rw [key] at h
  simp at h

set_option maxRecDepth 100000 in
theorem LastMarker_markerStringFile : LastMarker markerStringFile 0 :=
  LastMarker_of_lastIndexOf markerStringFile 0 (by decide) (by rfl)

set_option maxRecDepth 100000 in
theorem readDataField_markerStringFile :
    readDataField qtAscii (GeoIPDatabase.create markerStringFile) 1 (0 + 14)
      = Except.ok (QVariant.string "US", 17) := rfl

set_option maxRecDepth 100000 in
theorem LastMarker_countryFile : LastMarker countryFile 64 :=
  LastMarker_of_lastIndexOf countryFile 64 (by rw [countryFile_length]; decide) (by rfl)

/-- C18, at a concrete input: in `markerStringFile` the marker is followed by
the string `US`, which is not a map, and `load` reports that the first
required key is not found. -/
theorem load_fails_without_metadata_map_witness :
    (∃ i r, LastMarker markerStringFile i
        ∧ readDataField qtAscii (GeoIPDatabase.create markerStringFile) 1 (i + 14) = Except.ok r
        ∧ r.1.userType ≠ QMetaType.QVariantHash)
    ∧ load qtAscii markerStringFile 1
        = Except.ok (Except.error (LoadError.entryNotFound "binary_format_major_version")) :=
  ⟨⟨0, (QVariant.string "US", 17), LastMarker_markerStringFile,
      readDataField_markerStringFile, by decide⟩,
   (load_fails_without_metadata_map qtAscii markerStringFile 1
      (Or.inr ⟨0, (QVariant.string "US", 17), LastMarker_markerStringFile,
        readDataField_markerStringFile, by decide⟩)).1⟩

/-- C17, at a concrete input: in `countryFile` the marker occurs last at index
64, and `readMetadata` decodes the value at offset 78. -/
theorem readMetadata_decodes_after_last_marker_witness :
    countryDb0.m_size = countryDb0.m_data.length ∧ countryDb0.m_size < 4294967296
    ∧ LastMarker countryDb0.m_data 64
    ∧ readMetadata qtAscii countryDb0 3
        = (readDataField qtAscii countryDb0 3 (64 + 14) >>= fun r =>
            if r.1.userType = QMetaType.QVariantHash then Except.ok r.1.toHash
            else Except.ok []) :=
  ⟨rfl, by decide, LastMarker_countryFile,
   (readMetadata_decodes_after_last_marker qtAscii countryDb0 3 rfl (by decide)).1 64
     LastMarker_countryFile⟩

theorem dupFile_length : dupFile.length = 191 := rfl

theorem create_dupFile : GeoIPDatabase.create dupFile = dupDb0 := by
  simp only [GeoIPDatabase.create, dupFile_length, u32]
  rfl

theorem readMapValueWith_eq_readPairsWith (rd : Nat → Except Fault (QVariant × Nat)) :
    ∀ (count offset : Nat) (map : QVariantHash),
      readMapValueWith rd count offset map
        = (readPairsWith rd count offset >>= fun r =>
            match r.1 with
            | some ps =>
              Except.ok (QVariant.hash (ps.foldl (fun m p => QHash.insert m p.1 p.2) map), r.2)
            | none => Except.ok (QVariant.invalid, r.2)) := by
  intro count
  induction count with
  | zero => intro offset map; rfl
  | succ count ih =>
    intro offset map
    unfold readMapValueWith readPairsWith
    cases hk : rd offset with
    | error e => rfl
    | ok r =>
      obtain ⟨key, offset1⟩ := r
      simp only [Except.bind_ok_eq]
      cases key with
      | string k =>
        simp only []
        cases hf : rd offset1 with
        | error e => rfl
        | ok r1 =>
          obtain ⟨field, offset2⟩ := r1
          simp only [Except.bind_ok_eq]
          by_cases hu : field.userType = QMetaType.UnknownType
          · simp only [hu, if_true, Except.pure_eq, Except.bind_ok_eq]
          · simp only [hu, if_false]
            rw [ih offset2 (QHash.insert map k field)]
            cases hr : readPairsWith rd count offset2 with
            | error e => rfl
            | ok r2 =>
              obtain ⟨rest, offset3⟩ := r2
              cases rest with
              | none => rfl
              | some ps => rfl
      | _ => rfl

theorem find_foldl_insert (ps : List (QString × QVariant)) :
    ∀ (map : QVariantHash) (k : QString),
      QHash.find (ps.foldl (fun m p => QHash.insert m p.1 p.2) map) k
        = (lastValue ps k).orElse (fun _ => QHash.find map k) := by
  induction ps with
  | nil => intro map k; rfl
  | cons p ps ih =>
    intro map k
    rw [List.foldl_cons, ih, QHash.find_insert]
    unfold lastValue
    rw [List.reverse_cons, List.find?_append]
    cases hfind : List.find? (fun p => decide (p.1 = k)) ps.reverse with
    | some q => rfl
    | none =>
      by_cases hk : k = p.1
      · have : p.1 = k := hk.symm
        simp [hk]
      · have : ¬ p.1 = k := fun e => hk e.symm
        simp [hk, this]

theorem readDataField_map (qt : Qt) (db : GeoIPDatabase) (fuel offset offset1 count : Nat)
    (hd : readDataFieldDescriptor db offset
      = Except.ok (some (offset1, { fieldType := DataType.Map, fieldSize := count }))) :
    readDataField qt db (fuel + 1) offset
      = readMapValueWith (readDataField qt db fuel) count offset1 [] := by
  rw [readDataField, hd, Except.bind_ok_eq]
  simp only []
  rw [if_neg (by decide)]
  exact readPayload_map qt db _ _ _ rfl

set_option maxRecDepth 100000 in
theorem readMetadata_dupFile (qt : Qt) :
    readMetadata qt dupDb0 3 = Except.ok (metadataHash 2) := by
  rw [Qt.eq_normal qt]
  rfl

set_option maxRecDepth 100000 in
theorem load_dupFile (qt : Qt) : load qt dupFile 3 = Except.ok (Except.ok dupDb) := by
  refine load_eq_of qt dupFile 3 dupDb0 dupDb (metadataHash 2) ?_ create_dupFile
    (readMetadata_dupFile qt) rfl rfl
  rw [dupFile_length]
  decide

set_option maxRecDepth 100000 in
theorem readPairsWith_dupFile :
    readPairsWith (readDataField qtAscii (GeoIPDatabase.create dupFile) 2) 8 43
      = Except.ok (some dupPairs, 191) := by
  rw [create_dupFile]
  rfl

set_option maxRecDepth 100000 in
theorem LastMarker_dupFile : LastMarker dupFile 28 :=
  LastMarker_of_lastIndexOf dupFile 28 (by rw [dupFile_length]; decide) (by rfl)

/-- C15, refuted: in the metadata block of `dupFile` the required key
`record_size` is encoded twice (the pairs are `dupPairs`: value 16, then value
24), and `load` returns a database, with record size 24. -/
theorem load_accepts_duplicate_record_size :
    readPairsWith (readDataField qtAscii (GeoIPDatabase.create dupFile) 2) 8 43
        = Except.ok (some dupPairs, 191)
    ∧ (dupPairs.filter (fun p => decide (p.1 = "record_size"))
        = [("record_size", QVariant.ushort 16), ("record_size", QVariant.ushort 24)])
    ∧ ∀ qt : Qt, load qt dupFile 3 = Except.ok (Except.ok dupDb) :=
  ⟨readPairsWith_dupFile, rfl, fun qt => load_dupFile qt⟩

/-- C15, amended: when the value after the last marker is a map, the metadata
that `readMetadata` returns hold under every key the value of the last pair
encoded with that key, earlier pairs with the same key being dropped, and
`load` goes on with these metadata: its outcome is that of `parseMetadata` and
`loadDB` on them.  A key that occurs more than once is no error. -/
theorem load_duplicate_key_last_wins (qt : Qt) (data : QByteArray)
    (fuel i offset1 count offset : Nat) (ps : List (QString × QVariant))
    (hlen : data.length ≤ MAX_FILE_SIZE) (hi : LastMarker data i)
    (hd : readDataFieldDescriptor (GeoIPDatabase.create data) (i + 14)
      = Except.ok (some (offset1, { fieldType := DataType.Map, fieldSize := count })))
    (hps : readPairsWith (readDataField qt (GeoIPDatabase.create data) fuel) count offset1
      = Except.ok (some ps, offset)) :
    ∃ md, (∀ k, QHash.find md k = lastValue ps k)
      ∧ readMetadata qt (GeoIPDatabase.create data) (fuel + 1) = Except.ok md
      ∧ load qt data (fuel + 1)
          = (match parseMetadata qt md (GeoIPDatabase.create data) with
            | Except.error e => Except.ok (Except.error e)
            | Except.ok db1 =>
              loadDB db1 >>= fun o =>
                match o with
                | some e => Except.ok (Except.error e)
                | none => Except.ok (Except.ok db1)) := by
  obtain ⟨hsize, h32⟩ := create_size data hlen
  have hrm : readMetadata qt (GeoIPDatabase.create data) (fuel + 1)
      = Except.ok (ps.foldl (fun m p => QHash.insert m p.1 p.2) []) := by
    rw [readMetadata_last_marker qt _ (fuel + 1) hsize h32 i hi,
      readDataField_map qt _ fuel (i + 14) offset1 count hd,
      readMapValueWith_eq_readPairsWith, hps]
    rfl
  refine ⟨_, fun k => ?_, hrm, ?_⟩
  · rw [find_foldl_insert]
    cases lastValue ps k <;> rfl
  · have h := load_unfold qt data (fuel + 1) hlen
    rw [hrm] at h
    exact h

set_option maxRecDepth 100000 in
theorem descriptor_dupFile :
    readDataFieldDescriptor (GeoIPDatabase.create dupFile) (28 + 14)
      = Except.ok (some (43, { fieldType := DataType.Map, fieldSize := 8 })) := by
  rw [create_dupFile]
  rfl

set_option maxRecDepth 100000 in
theorem lastValue_dupPairs :
    lastValue dupPairs "record_size" = some (QVariant.ushort 24) := rfl

theorem dupFile_length_le : dupFile.length ≤ MAX_FILE_SIZE := by
  rw [dupFile_length]
  decide

/-- C15 amended, at a concrete input: the buffer `dupFile`, whose metadata map
of eight pairs starts at offset 42; the value under `record_size` is 24, that
of the last pair with this key. -/
theorem load_duplicate_key_last_wins_witness :
    dupFile.length ≤ MAX_FILE_SIZE ∧ LastMarker dupFile 28
    ∧ readDataFieldDescriptor (GeoIPDatabase.create dupFile) (28 + 14)
        = Except.ok (some (43, { fieldType := DataType.Map, fieldSize := 8 }))
    ∧ readPairsWith (readDataField qtAscii (GeoIPDatabase.create dupFile) 2) 8 43
        = Except.ok (some dupPairs, 191)
    ∧ lastValue dupPairs "record_size" = some (QVariant.ushort 24)
    ∧ ∃ md, (∀ k, QHash.find md k = lastValue dupPairs k)
      ∧ readMetadata qtAscii (GeoIPDatabase.create dupFile) (2 + 1) = Except.ok md
      ∧ load qtAscii dupFile (2 + 1)
          = (match parseMetadata qtAscii md (GeoIPDatabase.create dupFile) with
            | Except.error e => Except.ok (Except.error e)
            | Except.ok db1 =>
              loadDB db1 >>= fun o =>
                match o with
                | some e => Except.ok (Except.error e)
                | none => Except.ok (Except.ok db1)) :=
  ⟨dupFile_length_le, LastMarker_dupFile, descriptor_dupFile, readPairsWith_dupFile,
    lastValue_dupPairs,
    load_duplicate_key_last_wins qtAscii dupFile 2 28 43 8 191 dupPairs
      dupFile_length_le LastMarker_dupFile descriptor_dupFile readPairsWith_dupFile⟩

theorem negFile_length : negFile.length = 170 := rfl

theorem create_negFile : GeoIPDatabase.create negFile = negDb0 := by
  simp only [GeoIPDatabase.create, negFile_length, u32]
  rfl

set_option maxRecDepth 100000 in
theorem readMetadata_negFile (qt : Qt) :
    readMetadata qt negDb0 3 = Except.ok (metadataHash 715827880) := by
  rw [Qt.eq_normal qt]
  rfl

/-- How a fault of `loadDB` becomes a fault of `load`. -/
theorem load_fault_of (qt : Qt) (data : QByteArray) (fuel : Nat) (db0 db : GeoIPDatabase)
    (md : QVariantHash) (f : Fault) (hlen : data.length ≤ MAX_FILE_SIZE)
    (hc : GeoIPDatabase.create data = db0)
    (hm : readMetadata qt db0 fuel = Except.ok md)
    (hp : parseMetadata qt md db0 = Except.ok db)
    (hl : loadDB db = Except.error f) : load qt data fuel = Except.error f := by
  unfold load
  rw [if_neg (by omega)]
  simp only [hc, hm, Except.bind_ok_eq, hp, hl, Except.bind_error_eq]

set_option maxRecDepth 100000 in
theorem load_negFile (qt : Qt) : load qt negFile 3 = Except.error Fault.outOfBounds := by
  refine load_fault_of qt negFile 3 negDb0 negDb (metadataHash 715827880) _ ?_ create_negFile
    (readMetadata_negFile qt) rfl rfl
  rw [negFile_length]
  decide

theorem toSizeT_natCast (a : Nat) (h : a < 18446744073709551616) : toSizeT (a : Int) = a := by
  unfold toSizeT
  rw [Int.emod_eq_of_lt (by omega) (by omega)]
  exact Int.toNat_ofNat a

/-- The function `loadDB` when six times the node count is below `2^31`: the
check is the one on the separator. -/
theorem loadDB_no_wrap (db : GeoIPDatabase) (hrs : db.m_recordSize = 24)
    (hsize : db.m_size = db.m_data.length) (hn : 6 * db.m_nodeCount < 2147483648) :
    loadDB db
      = Except.ok
          (if db.m_size < 6 * db.m_nodeCount + 16
              ∨ (db.m_data.drop (6 * db.m_nodeCount)).take 16 ≠ List.replicate 16 0
           then some LoadError.noDataSection else none) := by
  unfold loadDB
  simp only [hrs, SEPARATOR_SIZE]
  have h6 : (24 : Nat) / 4 = 6 := rfl
  rw [h6]
  have hu : u32 (u32 (db.m_nodeCount * 6)) = 6 * db.m_nodeCount := by
    simp only [u32]; omega
  have hi : toInt32 (u32 (db.m_nodeCount * 6)) = ((6 * db.m_nodeCount : Nat) : Int) := by
    simp only [toInt32, hu, hn, if_true]
  rw [hi]
  have hs : toSizeT (((6 * db.m_nodeCount : Nat) : Int) + ((16 : Nat) : Int))
      = 6 * db.m_nodeCount + 16 := by
    rw [← Nat.cast_add]
    exact toSizeT_natCast _ (by omega)
  rw [hs]
  by_cases h1 : db.m_size < 6 * db.m_nodeCount + 16
  · rw [if_pos h1, if_pos (Or.inl h1)]
    rfl
  · rw [if_neg h1, if_neg (by omega)]
    simp only [Int.toNat_ofNat, GeoIPDatabase.bytesAt]
    rw [if_neg (by decide), if_pos (by omega), Except.bind_ok_eq]
    by_cases h2 : (db.m_data.drop (6 * db.m_nodeCount)).take 16 = List.replicate 16 0
    · rw [if_neg (by simpa using h2), if_neg (by simp [h1, h2])]
      rfl
    · rw [if_pos h2, if_pos (Or.inr h2)]
      rfl

set_option maxRecDepth 100000 in
theorem loadDB_wrapDb : loadDB wrapDb = Except.ok none := rfl

set_option maxRecDepth 100000 in
theorem loadDB_negDb : loadDB negDb = Except.error Fault.outOfBounds := rfl

/-- C16, the code at the failing inputs.  While six times the node count is
below `2^31`, `loadDB` reports that no data section is found exactly when the
buffer is shorter than the index size plus 16 or one of the 16 bytes after the
index is not zero, and succeeds otherwise.  But `load` accepts `wrapFile`, a
buffer of 170 bytes whose index size, six times the node count 715827883, is
4294967298: the buffer is shorter than the index size plus 16.  And on
`negFile`, with the node count 715827880, the size check passes and the 16
bytes are compared outside the buffer. -/
theorem loadDB_accepts_buffer_shorter_than_index :
    (∀ db : GeoIPDatabase, db.m_recordSize = 24 → db.m_size = db.m_data.length →
      6 * db.m_nodeCount < 2147483648 →
      loadDB db
        = Except.ok
            (if db.m_size < 6 * db.m_nodeCount + 16
                ∨ (db.m_data.drop (6 * db.m_nodeCount)).take 16 ≠ List.replicate 16 0
             then some LoadError.noDataSection else none))
    ∧ (wrapDb.m_size = wrapFile.length ∧ wrapFile.length < 6 * wrapDb.m_nodeCount + 16
        ∧ loadDB wrapDb = Except.ok none
        ∧ ∀ qt : Qt, load qt wrapFile 3 = Except.ok (Except.ok wrapDb))
    ∧ (negDb.m_size = negFile.length ∧ negFile.length < 6 * negDb.m_nodeCount + 16
        ∧ loadDB negDb = Except.error Fault.outOfBounds
        ∧ ∀ qt : Qt, load qt negFile 3 = Except.error Fault.outOfBounds) :=
  ⟨fun db hrs hsize hn => loadDB_no_wrap db hrs hsize hn,
    ⟨wrapFile_length.symm, by rw [wrapFile_length]; decide, loadDB_wrapDb,
      fun qt => load_wrapFile qt⟩,
    ⟨negFile_length.symm, by rw [negFile_length]; decide, loadDB_negDb,
      fun qt => load_negFile qt⟩⟩

/-- A descriptor that `readDataFieldDescriptor` returns with the type `Pointer`
comes from the pointer branch: the control byte has the type bits 1, and the
offset is advanced by the size selector plus 2. -/
theorem readDataFieldDescriptor_pointer (db : GeoIPDatabase) (offset offset1 : Nat)
    (d : DataFieldDescriptor)
    (hd : readDataFieldDescriptor db offset = Except.ok (some (offset1, d)))
    (hp : d.fieldType = DataType.Pointer) :
    ∃ d0, db.byteAt offset = Except.ok d0 ∧ (d0 &&& 0xE0) >>> 5 = DataType.Pointer
      ∧ offset1 = u32 (offset + ((d0 &&& 0x18) >>> 3) + 2) := by
  unfold readDataFieldDescriptor at hd
  simp only at hd
  split at hd
  · simp at hd
  obtain ⟨d0, hd0, hd⟩ := Except.bind_eq_ok hd
  refine ⟨d0, hd0, ?_⟩
  by_cases hpt : (d0 &&& 0xE0) >>> 5 = DataType.Pointer
  · refine ⟨hpt, ?_⟩
    rw [if_pos hpt] at hd
    split at hd
    · simp at hd
    split at hd
    · obtain ⟨d1, _, hd⟩ := Except.bind_eq_ok hd
      simp only [Except.pure_eq, Except.bind_ok_eq, Except.ok.injEq, Option.some.injEq,
        Prod.mk.injEq] at hd
      exact hd.1.symm
    split at hd
    · obtain ⟨d1, _, hd⟩ := Except.bind_eq_ok hd
      obtain ⟨d2, _, hd⟩ := Except.bind_eq_ok hd
      simp only [Except.pure_eq, Except.bind_ok_eq, Except.ok.injEq, Option.some.injEq,
        Prod.mk.injEq] at hd
      exact hd.1.symm
    split at hd
    · obtain ⟨d1, _, hd⟩ := Except.bind_eq_ok hd
      obtain ⟨d2, _, hd⟩ := Except.bind_eq_ok hd
      obtain ⟨d3, _, hd⟩ := Except.bind_eq_ok hd
      simp only [Except.pure_eq, Except.bind_ok_eq, Except.ok.injEq, Option.some.injEq,
        Prod.mk.injEq] at hd
      exact hd.1.symm
    · obtain ⟨d1, _, hd⟩ := Except.bind_eq_ok hd
      obtain ⟨d2, _, hd⟩ := Except.bind_eq_ok hd
      obtain ⟨d3, _, hd⟩ := Except.bind_eq_ok hd
      obtain ⟨d4, _, hd⟩ := Except.bind_eq_ok hd
      simp only [Except.pure_eq, Except.bind_ok_eq, Except.ok.injEq, Option.some.injEq,
        Prod.mk.injEq] at hd
      exact hd.1.symm
  · exfalso
    rw [if_neg hpt] at hd
    split at hd
    · split at hd
      · obtain ⟨d1, _, hd⟩ := Except.bind_eq_ok hd
        split at hd
        · simp at hd
        · rename_i hext
          simp only [Except.pure_eq, Except.ok.injEq, Option.some.injEq, Prod.mk.injEq] at hd
          rw [← hd.2] at hp
          have hp1 : d1 + 7 = 1 := hp
          omega
      · simp only [Except.pure_eq, Except.ok.injEq, Option.some.injEq, Prod.mk.injEq] at hd
        rw [← hd.2] at hp
        exact hpt hp
    · split at hd
      · split at hd
        · simp at hd
        · obtain ⟨d1, _, hd⟩ := Except.bind_eq_ok hd
          simp only [Except.pure_eq, Except.ok.injEq, Option.some.injEq, Prod.mk.injEq] at hd
          rw [← hd.2] at hp
          exact hpt hp
      · split at hd
        · split at hd
          · simp at hd
          · obtain ⟨d1, _, hd⟩ := Except.bind_eq_ok hd
            obtain ⟨d2, _, hd⟩ := Except.bind_eq_ok hd
            simp only [Except.pure_eq, Except.ok.injEq, Option.some.injEq, Prod.mk.injEq] at hd
            rw [← hd.2] at hp
            exact hpt hp
        · split at hd
          · simp at hd
          · obtain ⟨d1, _, hd⟩ := Except.bind_eq_ok hd
            obtain ⟨d2, _, hd⟩ := Except.bind_eq_ok hd
            obtain ⟨d3, _, hd⟩ := Except.bind_eq_ok hd
            simp only [Except.pure_eq, Except.ok.injEq, Option.some.injEq, Prod.mk.injEq] at hd
            rw [← hd.2] at hp
            exact hpt hp

/-- In a database that `load` has returned, the base that `readDataField` adds
to a pointer value, a quarter of the node count times the record size in
bits, is the index size. -/
theorem pointer_base_eq_indexSize (qt : Qt) (data : QByteArray) (fuel : Nat)
    (db : GeoIPDatabase) (h : load qt data fuel = Except.ok (Except.ok db)) :
    u32 (db.m_nodeCount * db.m_recordSize) / 4 = db.m_indexSize := by
  obtain ⟨_, hrs, _, _, _, hidx, _, hsep, _, _, hsize, _, hmax⟩ := load_ok qt data fuel db h
  rw [hrs, hidx]
  rw [hidx, hsize] at hsep
  simp only [MAX_FILE_SIZE] at hmax
  simp only [u32] at *
  omega

theorem pointerFile_length : pointerFile.length = 184 := rfl

theorem create_pointerFile : GeoIPDatabase.create pointerFile = pointerDb0 := by
  simp only [GeoIPDatabase.create, pointerFile_length, u32]
  rfl

set_option maxRecDepth 100000 in
theorem readMetadata_pointerFile (qt : Qt) :
    readMetadata qt pointerDb0 3 = Except.ok (metadataHash 2) := by
  rw [Qt.eq_normal qt]
  rfl

set_option maxRecDepth 100000 in
theorem load_pointerFile (qt : Qt) :
    load qt pointerFile 3 = Except.ok (Except.ok pointerDb) := by
  refine load_eq_of qt pointerFile 3 pointerDb0 pointerDb (metadataHash 2) ?_ create_pointerFile
    (readMetadata_pointerFile qt) rfl rfl
  rw [pointerFile_length]
  decide

set_option maxRecDepth 100000 in
theorem descriptor_pointerDb_28 :
    readDataFieldDescriptor pointerDb 28
      = Except.ok (some (29, { fieldType := DataType.String, fieldSize := 2 })) := rfl

set_option maxRecDepth 100000 in
theorem descriptor_pointerDb_31 :
    readDataFieldDescriptor pointerDb 31
      = Except.ok (some (33, { fieldType := DataType.Pointer, fieldSize := 0 })) := rfl

theorem descriptor_pointerDb_28_not_pointer (o1 : Nat) (d1 : DataFieldDescriptor)
    (h : readDataFieldDescriptor pointerDb 28 = Except.ok (some (o1, d1))) :
    d1.fieldType ≠ DataType.Pointer := by
  rw [descriptor_pointerDb_28] at h
  simp only [Except.ok.injEq, Option.some.injEq, Prod.mk.injEq] at h
  rw [← h.2]
  decide

/-- C19: when the field at `offset` is a pointer and the field at its target,
the pointer value plus a quarter of node count times record size plus 16, is
not a pointer, `readDataField` at the pointer returns the value that
`readDataField` returns at the target (the invalid value or a fault when that
is what the target gives), and leaves the offset after the pointer: the offset
is advanced by the size selector of the control byte plus 2, whatever the
length of the target field.  In a database that `load` has returned the target
is the pointer value plus the index size plus 16, the start of the data
section. -/
theorem readDataField_pointer_transparent (qt : Qt) (db : GeoIPDatabase)
    (fuel offset offset1 target : Nat) (d : DataFieldDescriptor)
    (hd : readDataFieldDescriptor db offset = Except.ok (some (offset1, d)))
    (hp : d.fieldType = DataType.Pointer)
    (ht : target = u32 (d.offset + u32 (db.m_nodeCount * db.m_recordSize) / 4 + SEPARATOR_SIZE))
    (hnp : ∀ o1 d1, readDataFieldDescriptor db target = Except.ok (some (o1, d1)) →
      d1.fieldType ≠ DataType.Pointer) :
    readDataField qt db (fuel + 1) offset
        = (readDataField qt db (fuel + 1) target >>= fun r => Except.ok (r.1, offset1))
    ∧ (∃ d0, db.byteAt offset = Except.ok d0
        ∧ offset1 = u32 (offset + ((d0 &&& 0x18) >>> 3) + 2))
    ∧ (∀ (qt0 : Qt) (data : QByteArray) (fuel0 : Nat),
        load qt0 data fuel0 = Except.ok (Except.ok db) →
        target = u32 (d.offset + (db.m_indexSize + 16))) := by
  refine ⟨?_, ?_, ?_⟩
  · rw [readDataField, hd, Except.bind_ok_eq]
    simp only []
    rw [if_pos hp, ← ht]
    conv => rhs; rw [readDataField]
    cases hdt : readDataFieldDescriptor db target with
    | error e => rfl
    | ok x =>
      cases x with
      | none => rfl
      | some p =>
        obtain ⟨o1, d1⟩ := p
        simp only [Except.bind_ok_eq]
        rw [if_neg (hnp o1 d1 hdt)]
        rfl
  · obtain ⟨d0, h0, _, h1⟩ := readDataFieldDescriptor_pointer db offset offset1 d hd hp
    exact ⟨d0, h0, h1⟩
  · intro qt0 data fuel0 hl
    rw [ht, pointer_base_eq_indexSize qt0 data fuel0 db hl, SEPARATOR_SIZE, Nat.add_assoc]

set_option maxRecDepth 100000 in
theorem readDataField_pointerDb_28 :
    readDataField qtAscii pointerDb 1 28 = Except.ok (QVariant.string "US", 31) := rfl

set_option maxRecDepth 100000 in
theorem readDataField_pointerDb_31 :
    readDataField qtAscii pointerDb 1 31 = Except.ok (QVariant.string "US", 33) := rfl

set_option maxRecDepth 100000 in
theorem pointerDb_target :
    28 = u32 ((DataFieldDescriptor.mk DataType.Pointer 0).offset
      + u32 (pointerDb.m_nodeCount * pointerDb.m_recordSize) / 4 + SEPARATOR_SIZE) := rfl

/-- C19, at a concrete input: in the database loaded from `pointerFile` the
pointer at offset 31 has the target 28, where the string `US` is encoded in
three bytes; `readDataField` at 31 returns `US` and the offset 33. -/
theorem readDataField_pointer_transparent_witness :
    load qtAscii pointerFile 3 = Except.ok (Except.ok pointerDb)
    ∧ readDataFieldDescriptor pointerDb 31
        = Except.ok (some (33, { fieldType := DataType.Pointer, fieldSize := 0 }))
    ∧ readDataFieldDescriptor pointerDb 28
        = Except.ok (some (29, { fieldType := DataType.String, fieldSize := 2 }))
    ∧ readDataField qtAscii pointerDb 1 28 = Except.ok (QVariant.string "US", 31)
    ∧ readDataField qtAscii pointerDb 1 31 = Except.ok (QVariant.string "US", 33)
    ∧ readDataField qtAscii pointerDb (0 + 1) 31
        = (readDataField qtAscii pointerDb (0 + 1) 28 >>= fun r => Except.ok (r.1, 33)) :=
  ⟨load_pointerFile qtAscii, descriptor_pointerDb_31, descriptor_pointerDb_28,
    readDataField_pointerDb_28, readDataField_pointerDb_31,
    (readDataField_pointer_transparent qtAscii pointerDb 0 31 33 28
      { fieldType := DataType.Pointer, fieldSize := 0 } descriptor_pointerDb_31 rfl
      pointerDb_target descriptor_pointerDb_28_not_pointer).1⟩

/-- A string or byte array field whose declared size exceeds the bytes left
after its descriptor is read beyond the buffer. -/
theorem readDataField_payload_out_of_bounds (qt : Qt) (db : GeoIPDatabase)
    (fuel offset offset1 : Nat) (d : DataFieldDescriptor)
    (hd : readDataFieldDescriptor db offset = Except.ok (some (offset1, d)))
    (hty : d.fieldType = DataType.String ∨ d.fieldType = DataType.Bytes)
    (h0 : d.fieldSize ≠ 0) (hlong : db.m_data.length < offset1 + d.fieldSize) :
    readDataField qt db (fuel + 1) offset = Except.error Fault.outOfBounds := by
  have hb : db.bytesAt offset1 d.fieldSize = Except.error Fault.outOfBounds := by
    unfold GeoIPDatabase.bytesAt
    rw [if_neg h0, if_neg (by omega)]
  rw [readDataField, hd, Except.bind_ok_eq]
  simp only []
  rcases hty with h | h
  · rw [if_neg (by rw [h]; decide)]
    unfold readPayload
    rw [if_neg (by rw [h]; decide), if_pos h, hb]
    rfl
  · rw [if_neg (by rw [h]; decide)]
    unfold readPayload
    rw [if_neg (by rw [h]; decide), if_neg (by rw [h]; decide), if_neg (by rw [h]; decide),
      if_pos h, hb]
    rfl

set_option maxRecDepth 100000 in
theorem LastMarker_truncatedStringFile : LastMarker truncatedStringFile 0 :=
  LastMarker_of_lastIndexOf truncatedStringFile 0 (by decide) (by rfl)

set_option maxRecDepth 100000 in
theorem LastMarker_truncatedBytesFile : LastMarker truncatedBytesFile 0 :=
  LastMarker_of_lastIndexOf truncatedBytesFile 0 (by decide) (by rfl)

/-- A fault of the value decoded after the last marker is a fault of `load`. -/
theorem load_fault_after_marker (qt : Qt) (data : QByteArray) (fuel i : Nat) (f : Fault)
    (hlen : data.length ≤ MAX_FILE_SIZE) (hi : LastMarker data i)
    (hf : readDataField qt (GeoIPDatabase.create data) fuel (i + 14) = Except.error f) :
    load qt data fuel = Except.error f := by
  obtain ⟨hsize, h32⟩ := create_size data hlen
  have hrm : readMetadata qt (GeoIPDatabase.create data) fuel = Except.error f := by
    rw [readMetadata_last_marker qt _ fuel hsize h32 i hi, hf]
    rfl
  have h := load_unfold qt data fuel hlen
  rw [hrm] at h
  exact h

set_option maxRecDepth 100000 in
theorem descriptor_truncatedStringFile :
    readDataFieldDescriptor (GeoIPDatabase.create truncatedStringFile) 14
      = Except.ok (some (15, { fieldType := DataType.String, fieldSize := 5 })) := rfl

set_option maxRecDepth 100000 in
theorem descriptor_truncatedBytesFile :
    readDataFieldDescriptor (GeoIPDatabase.create truncatedBytesFile) 14
      = Except.ok (some (15, { fieldType := DataType.Bytes, fieldSize := 5 })) := rfl

/-- C20, the code at the failing inputs.  A string or byte array field with a
size that is not zero and exceeds the bytes left in the buffer after its
descriptor is not decoded to the invalid value: its bytes are read beyond the
end of the buffer.  So it is with the buffer `truncatedStringFile`, the marker
followed by the descriptor of a string of five bytes and two bytes, and with
`truncatedBytesFile`, for `readDataField` right after the marker and for
`load`. -/
theorem readDataField_reads_beyond_buffer :
    (∀ (qt : Qt) (db : GeoIPDatabase) (fuel offset offset1 : Nat) (d : DataFieldDescriptor),
      readDataFieldDescriptor db offset = Except.ok (some (offset1, d)) →
      d.fieldType = DataType.String ∨ d.fieldType = DataType.Bytes →
      d.fieldSize ≠ 0 → db.m_data.length < offset1 + d.fieldSize →
      readDataField qt db (fuel + 1) offset = Except.error Fault.outOfBounds)
    ∧ readDataFieldDescriptor (GeoIPDatabase.create truncatedStringFile) 14
        = Except.ok (some (15, { fieldType := DataType.String, fieldSize := 5 }))
    ∧ truncatedStringFile.length = 17
    ∧ (∀ (qt : Qt) (fuel : Nat),
        readDataField qt (GeoIPDatabase.create truncatedStringFile) (fuel + 1) 14
          = Except.error Fault.outOfBounds
        ∧ load qt truncatedStringFile (fuel + 1) = Except.error Fault.outOfBounds)
    ∧ readDataFieldDescriptor (GeoIPDatabase.create truncatedBytesFile) 14
        = Except.ok (some (15, { fieldType := DataType.Bytes, fieldSize := 5 }))
    ∧ (∀ (qt : Qt) (fuel : Nat),
        readDataField qt (GeoIPDatabase.create truncatedBytesFile) (fuel + 1) 14
          = Except.error Fault.outOfBounds
        ∧ load qt truncatedBytesFile (fuel + 1) = Except.error Fault.outOfBounds) := by
  have hs : ∀ (qt : Qt) (fuel : Nat),
      readDataField qt (GeoIPDatabase.create truncatedStringFile) (fuel + 1) 14
        = Except.error Fault.outOfBounds := fun qt fuel =>
    readDataField_payload_out_of_bounds qt _ fuel 14 15 _ descriptor_truncatedStringFile
      (Or.inl rfl) (by decide) (by decide)
  have hb : ∀ (qt : Qt) (fuel : Nat),
      readDataField qt (GeoIPDatabase.create truncatedBytesFile) (fuel + 1) 14
        = Except.error Fault.outOfBounds := fun qt fuel =>
    readDataField_payload_out_of_bounds qt _ fuel 14 15 _ descriptor_truncatedBytesFile
      (Or.inr rfl) (by decide) (by decide)
  exact ⟨fun qt db fuel offset offset1 d hd hty h0 hlong =>
      readDataField_payload_out_of_bounds qt db fuel offset offset1 d hd hty h0 hlong,
    descriptor_truncatedStringFile, rfl,
    fun qt fuel => ⟨hs qt fuel, load_fault_after_marker qt _ (fuel + 1) 0 _ (by decide)
      LastMarker_truncatedStringFile (hs qt fuel)⟩,
    descriptor_truncatedBytesFile,
    fun qt fuel => ⟨hb qt fuel, load_fault_after_marker qt _ (fuel + 1) 0 _ (by decide)
      LastMarker_truncatedBytesFile (hb qt fuel)⟩⟩

theorem recordSize16File_length : recordSize16File.length = 177 := rfl

theorem create_recordSize16File : GeoIPDatabase.create recordSize16File = recordSize16Db0 := by
  simp only [GeoIPDatabase.create, recordSize16File_length, u32]
  rfl

set_option maxRecDepth 100000 in
theorem readMetadata_recordSize16File :
    readMetadata qtAscii (GeoIPDatabase.create recordSize16File) 3 = Except.ok metadataHash16 := by
  rw [create_recordSize16File]
  rfl

theorem recordSize16File_length_le : recordSize16File.length ≤ MAX_FILE_SIZE := by
  rw [recordSize16File_length]
  decide

set_option maxRecDepth 100000 in
theorem parseMetadata_metadataHash :
    parseMetadata qtAscii (metadataHash 2) countryDb0 = Except.ok countryDb := rfl

theorem metadataHash16_same (key : QString)
    (h : key = "binary_format_major_version" ∨ key = "binary_format_minor_version"
        ∨ key = "ip_version") :
    QHash.find metadataHash16 key = QHash.find (metadataHash 2) key := by
  rcases h with h | h | h <;> subst h <;> rfl

theorem SpecRequiredMetadata_metadataHash : SpecRequiredMetadata (metadataHash 2) := by
  simp only [SpecRequiredMetadata, HasType]
  decide

theorem HasType_minor_metadataHash :
    HasType (metadataHash 2) "binary_format_minor_version" QMetaType.UShort := by
  simp only [HasType]
  decide

theorem SpecOptionalMetadata_metadataHash : SpecOptionalMetadata (metadataHash 2) := by
  simp only [SpecOptionalMetadata]
  decide

/-- C12, at a concrete input: the metadata of `countryFile` pass; with the
record size 16 in place of 24 they are rejected for the record size, and
`load` reports that error for `recordSize16File`. -/
theorem parseMetadata_rejects_other_record_size_witness :
    parseMetadata qtAscii (metadataHash 2) countryDb0 = Except.ok countryDb
    ∧ QHash.find metadataHash16 "record_size" = some (QVariant.ushort 16)
    ∧ parseMetadata qtAscii metadataHash16 recordSize16Db0
        = Except.error (LoadError.unsupportedRecordSize 16)
    ∧ load qtAscii recordSize16File 3
        = Except.ok (Except.error (LoadError.unsupportedRecordSize 16)) :=
  ⟨parseMetadata_metadataHash, rfl,
    (parseMetadata_rejects_other_record_size qtAscii (metadataHash 2) metadataHash16
      countryDb0 countryDb recordSize16Db0 16 parseMetadata_metadataHash metadataHash16_same
      rfl (by decide) (by decide)).1,
    (parseMetadata_rejects_other_record_size qtAscii (metadataHash 2) metadataHash16
      countryDb0 countryDb recordSize16Db0 16 parseMetadata_metadataHash metadataHash16_same
      rfl (by decide) (by decide)).2 recordSize16File 3 recordSize16File_length_le
      readMetadata_recordSize16File⟩

/-- C14 amended, at a concrete input: the metadata of `countryFile`. -/
theorem parseMetadata_accepts_required_keys_witness :
    SpecRequiredMetadata (metadataHash 2)
    ∧ HasType (metadataHash 2) "binary_format_minor_version" QMetaType.UShort
    ∧ SpecOptionalMetadata (metadataHash 2)
    ∧ ∃ db1, parseMetadata qtAscii (metadataHash 2) countryDb0 = Except.ok db1 :=
  ⟨SpecRequiredMetadata_metadataHash, HasType_minor_metadataHash,
    SpecOptionalMetadata_metadataHash,
    parseMetadata_accepts_required_keys qtAscii (metadataHash 2) countryDb0
      SpecRequiredMetadata_metadataHash HasType_minor_metadataHash
      SpecOptionalMetadata_metadataHash⟩

/-! ## The decoder: lemmas and claims -/

theorem byteAt_byte (db : GeoIPDatabase) (i : Nat) (h : i < db.m_data.length) :
    db.byteAt i = Except.ok (db.byte i) := by
  unfold GeoIPDatabase.byteAt GeoIPDatabase.byte
  rw [List.getD_eq_getElem?_getD, List.get?_eq_getElem?, List.getElem?_eq_getElem h]
  rfl

theorem byte_lt (db : GeoIPDatabase) (i : Nat) : db.byte i < 256 := by
  unfold GeoIPDatabase.byte
  exact (db.m_data.getD i 0).isLt

set_option maxRecDepth 100000 in
theorem byte_bits (c : Nat) (h : c < 256) :
    (c &&& 0xE0) >>> 5 = c / 32 ∧ (c &&& 0x18) >>> 3 = c / 8 % 4
      ∧ c &&& 0x07 = c % 8 ∧ c &&& 0x1F = c % 32 := by
  revert c
  decide

set_option maxRecDepth 100000 in
theorem byte_shifts (c : Nat) (h : c < 256) :
    (c &&& 0xE0) >>> 5 = c >>> 5 ∧ (c &&& 0x18) >>> 3 = (c >>> 3) &&& 3 ∧ (c >>> 3) &&& 3 < 4 := by
  revert c
  decide

theorem shiftLeft_bytes (x : Nat) :
    x <<< 8 = x * 256 ∧ x <<< 16 = x * 65536 ∧ x <<< 24 = x * 16777216 := by
  simp only [Nat.shiftLeft_eq]
  norm_num

/-- The bytes left from `offset` on, as `readDataFieldDescriptor` computes
them, when the offset lies inside a buffer of at most `MAX_FILE_SIZE` bytes. -/
theorem availSize_eq (db : GeoIPDatabase) (offset : Nat) (hmax : db.m_size ≤ MAX_FILE_SIZE)
    (hoff : offset < db.m_size) :
    toInt32 (sub32 db.m_size offset) = ((db.m_size - offset : Nat) : Int) :=
  avail_in_bounds db.m_size offset hoff hmax

/-- C22: for a control byte `c` inside the buffer with the type tag 1 and the
selector `s = (c >> 3) & 3`, `readDataFieldDescriptor` fails when fewer than
`s + 2` bytes are left from the offset on, and otherwise advances the offset
by `s + 2` and yields a pointer whose value is `(c & 7) * 256 + b1` for
`s = 0`, `(c & 7) * 65536 + b1 * 256 + b2 + 2048` for `s = 1`,
`(c & 7) * 2^24 + b1 * 65536 + b2 * 256 + b3 + 526336` for `s = 2` and
`b1 * 2^24 + b2 * 65536 + b3 * 256 + b4` modulo `2^32` for `s = 3`, the `b`
being the bytes after the control byte. -/
theorem readDataFieldDescriptor_pointer_value (db : GeoIPDatabase) (offset : Nat)
    (hsize : db.m_size = db.m_data.length) (hmax : db.m_size ≤ MAX_FILE_SIZE)
    (hoff : offset < db.m_size) (htag : db.byte offset >>> 5 = 1) :
    (db.m_size - offset < ((db.byte offset >>> 3) &&& 3) + 2 →
      readDataFieldDescriptor db offset = Except.ok none)
    ∧ (((db.byte offset >>> 3) &&& 3) + 2 ≤ db.m_size - offset →
      readDataFieldDescriptor db offset
        = Except.ok (some (offset + ((db.byte offset >>> 3) &&& 3) + 2,
            { fieldType := DataType.Pointer,
              fieldSize :=
                if (db.byte offset >>> 3) &&& 3 = 0 then
                  (db.byte offset &&& 7) * 256 + db.byte (offset + 1)
                else if (db.byte offset >>> 3) &&& 3 = 1 then
                  (db.byte offset &&& 7) * 65536 + db.byte (offset + 1) * 256
                    + db.byte (offset + 2) + 2048
                else if (db.byte offset >>> 3) &&& 3 = 2 then
                  (db.byte offset &&& 7) * 16777216 + db.byte (offset + 1) * 65536
                    + db.byte (offset + 2) * 256 + db.byte (offset + 3) + 526336
                else
                  (db.byte (offset + 1) * 16777216 + db.byte (offset + 2) * 65536
                    + db.byte (offset + 3) * 256 + db.byte (offset + 4)) % 4294967296 }))) := by
  have hc := byte_lt db offset
  obtain ⟨e5, e3, hs4⟩ := byte_shifts (db.byte offset) hc
  have hav := availSize_eq db offset hmax hoff
  have hb0 := byteAt_byte db offset (by omega)
  have hmax1 : db.m_size ≤ 67108864 := hmax
  unfold readDataFieldDescriptor
  simp only [hav]
  rw [if_neg (by omega), hb0, Except.bind_ok_eq]
  simp only [e5, e3, htag]
  rw [if_pos (show (1 : Nat) = DataType.Pointer from rfl)]
  constructor
  · intro hlt
    rw [if_pos (by omega)]
    rfl
  · intro hge
    rw [if_neg (by omega)]
    have hu : u32 (offset + ((db.byte offset >>> 3) &&& 3) + 2)
        = offset + ((db.byte offset >>> 3) &&& 3) + 2 := by
      simp only [u32]; omega
    rw [hu]
    have h1 := byte_lt db (offset + 1)
    have h2 := byte_lt db (offset + 2)
    have h3 := byte_lt db (offset + 3)
    have h4 := byte_lt db (offset + 4)
    have hc7 : db.byte offset &&& 7 < 8 := by
      rw [(byte_bits _ hc).2.2.1]; omega
    by_cases s0 : (db.byte offset >>> 3) &&& 3 = 0
    · rw [if_pos s0, if_pos s0, byteAt_byte db (offset + 1) (by omega)]
      simp only [Except.bind_ok_eq, Except.pure_eq, (shiftLeft_bytes _).1, (shiftLeft_bytes _).2.1,
          (shiftLeft_bytes _).2.2, u32]
      rw [Nat.mod_eq_of_lt (by omega)]
      rfl
    · rw [if_neg s0, if_neg s0]
      by_cases s1 : (db.byte offset >>> 3) &&& 3 = 1
      · rw [if_pos s1, if_pos s1, byteAt_byte db (offset + 1) (by omega),
          byteAt_byte db (offset + 2) (by omega)]
        simp only [Except.bind_ok_eq, Except.pure_eq, (shiftLeft_bytes _).1, (shiftLeft_bytes _).2.1,
          (shiftLeft_bytes _).2.2, u32]
        rw [Nat.mod_eq_of_lt (by omega)]
        rfl
      · rw [if_neg s1, if_neg s1]
        by_cases s2 : (db.byte offset >>> 3) &&& 3 = 2
        · rw [if_pos s2, if_pos s2, byteAt_byte db (offset + 1) (by omega),
            byteAt_byte db (offset + 2) (by omega), byteAt_byte db (offset + 3) (by omega)]
          simp only [Except.bind_ok_eq, Except.pure_eq, (shiftLeft_bytes _).1, (shiftLeft_bytes _).2.1,
          (shiftLeft_bytes _).2.2, u32]
          rw [Nat.mod_eq_of_lt (by omega)]
          rfl
        · rw [if_neg s2, if_neg s2, byteAt_byte db (offset + 1) (by omega),
            byteAt_byte db (offset + 2) (by omega), byteAt_byte db (offset + 3) (by omega),
            byteAt_byte db (offset + 4) (by omega)]
          simp only [Except.bind_ok_eq, Except.pure_eq, (shiftLeft_bytes _).1, (shiftLeft_bytes _).2.1,
          (shiftLeft_bytes _).2.2, u32]
          rfl

/-- The descriptor of a field whose control byte has the type tag 0 and size
bits up to 28: with three or more bytes left the type is the next byte plus 7,
accepted between 8 and 15; with exactly two bytes left the descriptor is
rejected whatever the next byte is; with one byte left the next byte is read
outside the buffer. -/
theorem readDataFieldDescriptor_extended (db : GeoIPDatabase) (offset : Nat)
    (hsize : db.m_size = db.m_data.length) (hmax : db.m_size ≤ MAX_FILE_SIZE)
    (hoff : offset < db.m_size) (htag : db.byte offset >>> 5 = 0)
    (hv : db.byte offset &&& 31 ≤ 28) :
    (3 ≤ db.m_size - offset →
      readDataFieldDescriptor db offset
        = Except.ok (if db.byte (offset + 1) + 7 ≤ 7 ∨ db.byte (offset + 1) + 7 > 15 then none
            else some (offset + 2,
              { fieldType := db.byte (offset + 1) + 7, fieldSize := db.byte offset &&& 31 })))
    ∧ (db.m_size - offset = 2 → readDataFieldDescriptor db offset = Except.ok none)
    ∧ (db.m_size - offset = 1 →
        readDataFieldDescriptor db offset = Except.error Fault.outOfBounds) := by
  have hc := byte_lt db offset
  obtain ⟨e5, _, _⟩ := byte_shifts (db.byte offset) hc
  have hav := availSize_eq db offset hmax hoff
  have hb0 := byteAt_byte db offset (by omega)
  have hmax1 : db.m_size ≤ 67108864 := hmax
  have hu : u32 (offset + 2) = offset + 2 := by simp only [u32]; omega
  unfold readDataFieldDescriptor
  simp only [hav]
  rw [if_neg (by omega), hb0, Except.bind_ok_eq]
  simp only [e5, htag]
  rw [if_neg (show ¬ (0 : Nat) = DataType.Pointer by decide), if_pos hv,
    if_pos (show (0 : Nat) = DataType.Unknown from rfl)]
  refine ⟨fun h3 => ?_, fun h2 => ?_, fun h1 => ?_⟩
  · rw [byteAt_byte db (offset + 1) (by omega), Except.bind_ok_eq, hu]
    by_cases hx : db.byte (offset + 1) + 7 ≤ 7 ∨ db.byte (offset + 1) + 7 > 15
    · rw [if_pos hx, if_pos]
      · rfl
      · rcases hx with hx | hx
        · exact Or.inl hx
        · exact Or.inr (Or.inl hx)
    · rw [if_neg hx, if_neg]
      · rfl
      · rintro (hx1 | hx1 | hx1)
        · exact hx (Or.inl hx1)
        · exact hx (Or.inr hx1)
        · omega
  · rw [byteAt_byte db (offset + 1) (by omega), Except.bind_ok_eq, if_pos]
    · rfl
    · right; right; omega
  · have : db.byteAt (offset + 1) = Except.error Fault.outOfBounds := by
      unfold GeoIPDatabase.byteAt
      rw [List.get?_eq_none.mpr (by omega)]
    rw [this]
    rfl

/-- C24: for a control byte inside the buffer whose type tag `t` is not 1,
with the low five bits `v`: when `v` is at most 28 the size of every
descriptor that is returned is `v` (and for `t` other than 0 the descriptor is
returned, one byte long); when `v` is 29, 30 or 31 the descriptor is 2, 3 or 4
bytes long, it is rejected when fewer bytes are left, and the size is
`b1 + 29`, `b1 * 256 + b2 + 285` or `b1 * 65536 + b2 * 256 + b3 + 65821`. -/
theorem readDataFieldDescriptor_size (db : GeoIPDatabase) (offset : Nat)
    (hsize : db.m_size = db.m_data.length) (hmax : db.m_size ≤ MAX_FILE_SIZE)
    (hoff : offset < db.m_size) (htag : db.byte offset >>> 5 ≠ 1) :
    (db.byte offset &&& 31 ≤ 28 →
      (∀ o1 d, readDataFieldDescriptor db offset = Except.ok (some (o1, d)) →
        d.fieldSize = db.byte offset &&& 31)
      ∧ (db.byte offset >>> 5 ≠ 0 →
        readDataFieldDescriptor db offset
          = Except.ok (some (offset + 1,
              { fieldType := db.byte offset >>> 5, fieldSize := db.byte offset &&& 31 }))))
    ∧ (db.byte offset &&& 31 = 29 →
      (db.m_size - offset < 2 → readDataFieldDescriptor db offset = Except.ok none)
      ∧ (2 ≤ db.m_size - offset →
        readDataFieldDescriptor db offset
          = Except.ok (some (offset + 2,
              { fieldType := db.byte offset >>> 5, fieldSize := db.byte (offset + 1) + 29 }))))
    ∧ (db.byte offset &&& 31 = 30 →
      (db.m_size - offset < 3 → readDataFieldDescriptor db offset = Except.ok none)
      ∧ (3 ≤ db.m_size - offset →
        readDataFieldDescriptor db offset
          = Except.ok (some (offset + 3,
              { fieldType := db.byte offset >>> 5,
                fieldSize := db.byte (offset + 1) * 256 + db.byte (offset + 2) + 285 }))))
    ∧ (db.byte offset &&& 31 = 31 →
      (db.m_size - offset < 4 → readDataFieldDescriptor db offset = Except.ok none)
      ∧ (4 ≤ db.m_size - offset →
        readDataFieldDescriptor db offset
          = Except.ok (some (offset + 4,
              { fieldType := db.byte offset >>> 5,
                fieldSize := db.byte (offset + 1) * 65536 + db.byte (offset + 2) * 256
                  + db.byte (offset + 3) + 65821 })))) := by
  have hc := byte_lt db offset
  obtain ⟨e5, _, _⟩ := byte_shifts (db.byte offset) hc
  have hav := availSize_eq db offset hmax hoff
  have hb0 := byteAt_byte db offset (by omega)
  have hmax1 : db.m_size ≤ 67108864 := hmax
  have hnp : ¬ db.byte offset >>> 5 = DataType.Pointer := htag
  have key : readDataFieldDescriptor db offset
      = (if db.byte offset &&& 31 ≤ 28 then
          if db.byte offset >>> 5 = DataType.Unknown then do
            let d1 ← db.byteAt (offset + 1)
            if d1 + 7 ≤ DataType.Map ∨ d1 + 7 > DataType.Float
                ∨ ((db.m_size - offset : Nat) : Int) < 3 then pure none
            else pure (some (u32 (offset + 2),
              { fieldType := d1 + 7, fieldSize := db.byte offset &&& 31 }))
          else pure (some (u32 (offset + 1),
            { fieldType := db.byte offset >>> 5, fieldSize := db.byte offset &&& 31 }))
        else if db.byte offset &&& 31 = 29 then
          if ((db.m_size - offset : Nat) : Int) < 2 then pure none
          else do
            let d1 ← db.byteAt (offset + 1)
            pure (some (u32 (offset + 2),
              { fieldType := db.byte offset >>> 5, fieldSize := d1 + 29 }))
        else if db.byte offset &&& 31 = 30 then
          if ((db.m_size - offset : Nat) : Int) < 3 then pure none
          else do
            let d1 ← db.byteAt (offset + 1)
            let d2 ← db.byteAt (offset + 2)
            pure (some (u32 (offset + 3),
              { fieldType := db.byte offset >>> 5, fieldSize := (d1 <<< 8) + d2 + 285 }))
        else
          if ((db.m_size - offset : Nat) : Int) < 4 then pure none
          else do
            let d1 ← db.byteAt (offset + 1)
            let d2 ← db.byteAt (offset + 2)
            let d3 ← db.byteAt (offset + 3)
            pure (some (u32 (offset + 4),
              { fieldType := db.byte offset >>> 5,
                fieldSize := (d1 <<< 16) + (d2 <<< 8) + d3 + 65821 }))) := by
    unfold readDataFieldDescriptor
    simp only [hav]
    rw [if_neg (by omega), hb0, Except.bind_ok_eq]
    simp only [e5]
    rw [if_neg hnp]
  have hu : ∀ k, k ≤ 4 → u32 (offset + k) = offset + k := by
    intro k hk; simp only [u32]; omega
  refine ⟨fun hv => ⟨fun o1 d h => ?_, fun ht => ?_⟩, fun hv => ⟨fun hlt => ?_, fun hge => ?_⟩,
    fun hv => ⟨fun hlt => ?_, fun hge => ?_⟩, fun hv => ⟨fun hlt => ?_, fun hge => ?_⟩⟩
  · rw [key, if_pos hv] at h
    split at h
    · obtain ⟨d1, _, h⟩ := Except.bind_eq_ok h
      split at h
      · simp at h
      · simp only [Except.pure_eq, Except.ok.injEq, Option.some.injEq, Prod.mk.injEq] at h
        rw [← h.2]
    · simp only [Except.pure_eq, Except.ok.injEq, Option.some.injEq, Prod.mk.injEq] at h
      rw [← h.2]
  · have ht1 : ¬ db.byte offset >>> 5 = DataType.Unknown := ht
    rw [key, if_pos hv, if_neg ht1, hu 1 (by omega)]
    rfl
  · rw [key, if_neg (by omega), if_pos hv, if_pos (by omega)]
    rfl
  · rw [key, if_neg (by omega), if_pos hv, if_neg (by omega),
      byteAt_byte db (offset + 1) (by omega), hu 2 (by omega)]
    rfl
  · rw [key, if_neg (by omega), if_neg (by omega), if_pos hv, if_pos (by omega)]
    rfl
  · rw [key, if_neg (by omega), if_neg (by omega), if_pos hv, if_neg (by omega),
      byteAt_byte db (offset + 1) (by omega), byteAt_byte db (offset + 2) (by omega),
      hu 3 (by omega)]
    simp only [Except.bind_ok_eq, Except.pure_eq, (shiftLeft_bytes _).1]
  · rw [key, if_neg (by omega), if_neg (by omega), if_neg (by omega), if_pos (by omega)]
    rfl
  · rw [key, if_neg (by omega), if_neg (by omega), if_neg (by omega), if_neg (by omega),
      byteAt_byte db (offset + 1) (by omega), byteAt_byte db (offset + 2) (by omega),
      byteAt_byte db (offset + 3) (by omega), hu 4 (by omega)]
    simp only [Except.bind_ok_eq, Except.pure_eq, (shiftLeft_bytes _).1, (shiftLeft_bytes _).2.1]

theorem extTailFile_length : extTailFile.length = 181 := rfl

theorem extTailPlus_length : (extTailFile ++ [0]).length = 182 := rfl

theorem farPointerFile_length : farPointerFile.length = 182 := rfl

theorem create_extTailFile : GeoIPDatabase.create extTailFile = extTailDb0 := by
  simp only [GeoIPDatabase.create, extTailFile_length, u32]
  rfl

theorem create_extTailPlus : GeoIPDatabase.create (extTailFile ++ [0]) = extTailPlusDb0 := by
  simp only [GeoIPDatabase.create, extTailPlus_length, u32]
  rfl

theorem create_farPointerFile : GeoIPDatabase.create farPointerFile = farPointerDb0 := by
  simp only [GeoIPDatabase.create, farPointerFile_length, u32]
  rfl

set_option maxRecDepth 100000 in
theorem readMetadata_extTailFile (qt : Qt) : readMetadata qt extTailDb0 3 = Except.ok [] := by
  rw [Qt.eq_normal qt]
  rfl

set_option maxRecDepth 100000 in
theorem readMetadata_extTailPlus (qt : Qt) :
    readMetadata qt extTailPlusDb0 3
      = Except.ok (("x", QVariant.bool true) :: metadataHash 2) := by
  rw [Qt.eq_normal qt]
  rfl

set_option maxRecDepth 100000 in
theorem readMetadata_farPointerFile (qt : Qt) :
    readMetadata qt farPointerDb0 3 = Except.ok (metadataHash 2) := by
  rw [Qt.eq_normal qt]
  rfl

set_option maxRecDepth 100000 in
theorem load_extTailFile (qt : Qt) :
    load qt extTailFile 3
      = Except.ok (Except.error (LoadError.entryNotFound "binary_format_major_version")) := by
  have hm : readMetadata qt (GeoIPDatabase.create extTailFile) 3 = Except.ok [] := by
    rw [create_extTailFile]; exact readMetadata_extTailFile qt
  exact load_parse_error qt extTailFile 3 [] _ (by rw [extTailFile_length]; decide) hm
    (parseMetadata_nil qt _)

set_option maxRecDepth 100000 in
theorem load_extTailPlus (qt : Qt) :
    load qt (extTailFile ++ [0]) 3 = Except.ok (Except.ok extTailPlusDb) := by
  refine load_eq_of qt _ 3 extTailPlusDb0 extTailPlusDb _ ?_ create_extTailPlus
    (readMetadata_extTailPlus qt) rfl rfl
  rw [extTailPlus_length]
  decide

set_option maxRecDepth 100000 in
theorem load_farPointerFile (qt : Qt) :
    load qt farPointerFile 3 = Except.ok (Except.ok farPointerDb) := by
  refine load_eq_of qt _ 3 farPointerDb0 farPointerDb _ ?_ create_farPointerFile
    (readMetadata_farPointerFile qt) rfl rfl
  rw [farPointerFile_length]
  decide

set_option maxRecDepth 100000 in
theorem descriptor_extTailDb0 :
    readDataFieldDescriptor extTailDb0 179 = Except.ok none := rfl

set_option maxRecDepth 100000 in
theorem descriptor_extTailPlusDb0 :
    readDataFieldDescriptor extTailPlusDb0 179
      = Except.ok (some (181, { fieldType := DataType.Boolean, fieldSize := 1 })) := rfl

set_option maxRecDepth 100000 in
theorem descriptor_farPointerDb_28 :
    readDataFieldDescriptor farPointerDb 28
      = Except.ok (some (33, { fieldType := DataType.Pointer, fieldSize := 4294967040 })) := rfl

set_option maxRecDepth 100000 in
theorem descriptor_farPointerDb_target :
    readDataFieldDescriptor farPointerDb 4294967068 = Except.error Fault.outOfBounds := rfl

set_option maxRecDepth 100000 in
theorem traverse_farPointerDb_addr01 :
    traverse farPointerDb addr01 = Except.ok (Traversal.data 1 18) := rfl

set_option maxRecDepth 100000 in
theorem lookup_farPointerDb (qt : Qt) (fuel : Nat) :
    lookup qt farPointerDb addr01 (fuel + 1) = Except.error Fault.outOfBounds := rfl

/-- The descriptor at an offset that is not inside the buffer: up to `2^31`
bytes past the end the bytes left are not positive as an `int` and the
descriptor is rejected; further on the difference `m_size - offset` wraps to a
positive `int` and the control byte is read outside the buffer. -/
theorem readDataFieldDescriptor_past_end (db : GeoIPDatabase) (offset : Nat)
    (hsize : db.m_size = db.m_data.length) (hmax : db.m_size ≤ MAX_FILE_SIZE)
    (hend : db.m_size ≤ offset) (h32 : offset < 4294967296) :
    (offset ≤ db.m_size + 2147483648 → readDataFieldDescriptor db offset = Except.ok none)
    ∧ (db.m_size + 2147483648 < offset →
        readDataFieldDescriptor db offset = Except.error Fault.outOfBounds) := by
  have hmax1 : db.m_size ≤ 67108864 := hmax
  have hsub : sub32 db.m_size offset = (db.m_size + 4294967296 - offset) % 4294967296 := by
    simp only [sub32, u32]
    rw [Nat.mod_eq_of_lt (show db.m_size < 4294967296 by omega), Nat.mod_eq_of_lt h32]
  constructor
  · intro hnear
    have hneg : toInt32 (sub32 db.m_size offset) < 1 := by
      rw [hsub]
      simp only [toInt32, u32]
      split <;> omega
    unfold readDataFieldDescriptor
    simp only []
    rw [if_pos hneg]
    rfl
  · intro hfar
    have hpos : ¬ toInt32 (sub32 db.m_size offset) < 1 := by
      rw [hsub]
      simp only [toInt32, u32]
      split <;> omega
    have hb : db.byteAt offset = Except.error Fault.outOfBounds := by
      unfold GeoIPDatabase.byteAt
      rw [List.get?_eq_none.mpr (by omega)]
    unfold readDataFieldDescriptor
    simp only []
    rw [if_neg hpos, hb]
    rfl

theorem selectorDb_max : selectorDb.m_size ≤ MAX_FILE_SIZE := by decide

/-- C22, at a concrete input: the control byte `0x29` at offset 0 of
`selectorFile` has the type tag 1, the selector 1 and the low bits 1; with the
bytes 1 and 2 after it the pointer value is `65536 + 256 + 2 + 2048`, and three
bytes are consumed. -/
theorem readDataFieldDescriptor_pointer_value_witness :
    selectorDb.m_size = selectorDb.m_data.length ∧ selectorDb.m_size ≤ MAX_FILE_SIZE
    ∧ 0 < selectorDb.m_size ∧ selectorDb.byte 0 >>> 5 = 1
    ∧ ((selectorDb.byte 0 >>> 3) &&& 3) + 2 ≤ selectorDb.m_size - 0
    ∧ readDataFieldDescriptor selectorDb 0
        = Except.ok (some (3, { fieldType := DataType.Pointer, fieldSize := 67842 })) :=
  ⟨rfl, selectorDb_max, by decide, by decide, by decide,
    (readDataFieldDescriptor_pointer_value selectorDb 0 rfl selectorDb_max (by decide)
      (by decide)).2 (by decide)⟩

/-- C24, at a concrete input: the control byte `0x5D` at offset 3 of
`selectorFile` has the type tag 2 and the low bits 29; with the byte 3 after it
the size is 32, and two bytes are consumed. -/
theorem readDataFieldDescriptor_size_witness :
    selectorDb.m_size = selectorDb.m_data.length ∧ selectorDb.m_size ≤ MAX_FILE_SIZE
    ∧ 3 < selectorDb.m_size ∧ selectorDb.byte 3 >>> 5 ≠ 1
    ∧ selectorDb.byte 3 &&& 31 = 29
    ∧ readDataFieldDescriptor selectorDb 3
        = Except.ok (some (5, { fieldType := DataType.String, fieldSize := 32 })) :=
  ⟨rfl, selectorDb_max, by decide, by decide, by decide,
    ((readDataFieldDescriptor_size selectorDb 3 rfl selectorDb_max (by decide)
      (by decide)).2.1 (by decide)).2 (by decide)⟩

/-- C25, the code at the failing input.  For a control byte with the type tag 0
and size bits up to 28: with three or more bytes left the descriptor is
rejected exactly when the next byte plus 7 is not between 8 and 15; with
exactly two bytes left, the two bytes of the descriptor, it is rejected
whatever the next byte is; with one byte left the next byte is read outside
the buffer.  So `extTailFile`, whose last two bytes are the descriptor of a
boolean, is not loaded, and the same bytes followed by one more byte are. -/
theorem readDataFieldDescriptor_rejects_extended_type_at_end :
    (∀ (db : GeoIPDatabase) (offset : Nat), db.m_size = db.m_data.length →
      db.m_size ≤ MAX_FILE_SIZE → offset < db.m_size → db.byte offset >>> 5 = 0 →
      db.byte offset &&& 31 ≤ 28 →
      (3 ≤ db.m_size - offset →
        readDataFieldDescriptor db offset
          = Except.ok (if db.byte (offset + 1) + 7 ≤ 7 ∨ db.byte (offset + 1) + 7 > 15 then none
              else some (offset + 2,
                { fieldType := db.byte (offset + 1) + 7,
                  fieldSize := db.byte offset &&& 31 })))
      ∧ (db.m_size - offset = 2 → readDataFieldDescriptor db offset = Except.ok none)
      ∧ (db.m_size - offset = 1 →
          readDataFieldDescriptor db offset = Except.error Fault.outOfBounds))
    ∧ extTailDb0.m_size = 181 ∧ extTailDb0.byte 179 = 1 ∧ extTailDb0.byte 180 + 7 = 14
    ∧ readDataFieldDescriptor extTailDb0 179 = Except.ok none
    ∧ (∀ qt : Qt, load qt extTailFile 3
        = Except.ok (Except.error (LoadError.entryNotFound "binary_format_major_version")))
    ∧ readDataFieldDescriptor extTailPlusDb0 179
        = Except.ok (some (181, { fieldType := DataType.Boolean, fieldSize := 1 }))
    ∧ (∀ qt : Qt, load qt (extTailFile ++ [0]) 3 = Except.ok (Except.ok extTailPlusDb)) :=
  ⟨fun db offset hsize hmax hoff htag hv =>
      readDataFieldDescriptor_extended db offset hsize hmax hoff htag hv,
    rfl, by decide, by decide, descriptor_extTailDb0, fun qt => load_extTailFile qt,
    descriptor_extTailPlusDb0, fun qt => load_extTailPlus qt⟩

/-- C26, the code at the failing input.  At an offset from the buffer size up
to the buffer size plus `2^31` the descriptor is rejected and no byte is read;
at a greater 32-bit offset the control byte is read outside the buffer.  So it
is in the database loaded from `farPointerFile`: the pointer at offset 28 has
the value 4294967040 and the target 4294967068, and the lookup of the address
that leads to it reads outside the buffer. -/
theorem readDataFieldDescriptor_reads_far_offset :
    (∀ (db : GeoIPDatabase) (offset : Nat), db.m_size = db.m_data.length →
      db.m_size ≤ MAX_FILE_SIZE → db.m_size ≤ offset → offset < 4294967296 →
      (offset ≤ db.m_size + 2147483648 → readDataFieldDescriptor db offset = Except.ok none)
      ∧ (db.m_size + 2147483648 < offset →
          readDataFieldDescriptor db offset = Except.error Fault.outOfBounds))
    ∧ (∀ qt : Qt, load qt farPointerFile 3 = Except.ok (Except.ok farPointerDb))
    ∧ traverse farPointerDb addr01 = Except.ok (Traversal.data 1 18)
    ∧ dataOffset farPointerDb 18 = 28
    ∧ readDataFieldDescriptor farPointerDb 28
        = Except.ok (some (33, { fieldType := DataType.Pointer, fieldSize := 4294967040 }))
    ∧ u32 (4294967040 + u32 (farPointerDb.m_nodeCount * farPointerDb.m_recordSize) / 4
        + SEPARATOR_SIZE) = 4294967068
    ∧ farPointerDb.m_size = 182
    ∧ readDataFieldDescriptor farPointerDb 4294967068 = Except.error Fault.outOfBounds
    ∧ (∀ (qt : Qt) (fuel : Nat),
        lookup qt farPointerDb addr01 (fuel + 1) = Except.error Fault.outOfBounds) :=
  ⟨fun db offset hsize hmax hend h32 =>
      readDataFieldDescriptor_past_end db offset hsize hmax hend h32,
    fun qt => load_farPointerFile qt, traverse_farPointerDb_addr01, by decide,
    descriptor_farPointerDb_28, by decide, rfl, descriptor_farPointerDb_target,
    fun qt fuel => lookup_farPointerDb qt fuel⟩

set_option maxRecDepth 100000 in
theorem descriptor_pointerDb_33 :
    readDataFieldDescriptor pointerDb 33
      = Except.ok (some (35, { fieldType := DataType.Pointer, fieldSize := 3 })) := rfl

set_option maxRecDepth 100000 in
theorem readDataField_pointerDb_33 (qt : Qt) (fuel : Nat) :
    readDataField qt pointerDb (fuel + 1) 33 = Except.ok (QVariant.invalid, 35) := rfl

/-- C23, refuted: in the database loaded from `pointerFile` the field at offset
33 is a pointer whose target, offset 31, holds a pointer to the string `US` at
offset 28; `readDataField` at offset 33 returns the invalid value, and the
offset after the first pointer. -/
theorem pointer_to_pointer_is_invalid :
    (∀ qt : Qt, load qt pointerFile 3 = Except.ok (Except.ok pointerDb))
    ∧ readDataFieldDescriptor pointerDb 33
        = Except.ok (some (35, { fieldType := DataType.Pointer, fieldSize := 3 }))
    ∧ u32 (3 + u32 (pointerDb.m_nodeCount * pointerDb.m_recordSize) / 4 + SEPARATOR_SIZE) = 31
    ∧ readDataField qtAscii pointerDb 1 31 = Except.ok (QVariant.string "US", 33)
    ∧ (∀ (qt : Qt) (fuel : Nat),
        readDataField qt pointerDb (fuel + 1) 33 = Except.ok (QVariant.invalid, 35)) :=
  ⟨fun qt => load_pointerFile qt, descriptor_pointerDb_33, by decide,
    readDataField_pointerDb_31, fun qt fuel => readDataField_pointerDb_33 qt fuel⟩

/-- C23, amended: a pointer whose target holds a field that is not a pointer
decodes to the value of that field; a pointer whose target holds a pointer
decodes to the invalid value, the second pointer not being followed; in both
cases the offset is left after the first pointer. -/
theorem readDataField_pointer_one_level (qt : Qt) (db : GeoIPDatabase)
    (fuel offset offset1 : Nat) (d : DataFieldDescriptor)
    (hd : readDataFieldDescriptor db offset = Except.ok (some (offset1, d)))
    (hp : d.fieldType = DataType.Pointer) :
    (∀ o1 d1, readDataFieldDescriptor db
          (u32 (d.offset + u32 (db.m_nodeCount * db.m_recordSize) / 4 + SEPARATOR_SIZE))
        = Except.ok (some (o1, d1)) →
      (d1.fieldType ≠ DataType.Pointer →
        readDataField qt db (fuel + 1) offset
          = (readDataField qt db (fuel + 1)
              (u32 (d.offset + u32 (db.m_nodeCount * db.m_recordSize) / 4 + SEPARATOR_SIZE))
              >>= fun r => Except.ok (r.1, offset1)))
      ∧ (d1.fieldType = DataType.Pointer →
        readDataField qt db (fuel + 1) offset = Except.ok (QVariant.invalid, offset1))) := by
  intro o1 d1 hd1
  have hl : readDataField qt db (fuel + 1) offset
      = (readPayload qt db (readDataField qt db fuel) d1 o1 >>= fun r =>
          Except.ok (r.1, offset1)) := by
    rw [readDataField, hd, Except.bind_ok_eq]
    simp only []
    rw [if_pos hp, hd1, Except.bind_ok_eq]
    rfl
  constructor
  · intro hnp
    rw [hl]
    conv => rhs; rw [readDataField, hd1, Except.bind_ok_eq]
    simp only []
    rw [if_neg hnp]
  · intro hp1
    rw [hl]
    unfold readPayload
    rw [if_pos hp1]
    rfl

/-- C23 amended, at a concrete input: the pointer at offset 33 of the database
loaded from `pointerFile`, whose target holds a pointer. -/
theorem readDataField_pointer_one_level_witness :
    readDataFieldDescriptor pointerDb 33
        = Except.ok (some (35, { fieldType := DataType.Pointer, fieldSize := 3 }))
    ∧ readDataFieldDescriptor pointerDb 31
        = Except.ok (some (33, { fieldType := DataType.Pointer, fieldSize := 0 }))
    ∧ readDataField qtAscii pointerDb (0 + 1) 33 = Except.ok (QVariant.invalid, 35) :=
  ⟨descriptor_pointerDb_33, descriptor_pointerDb_31,
    ((readDataField_pointer_one_level qtAscii pointerDb 0 33 35
      { fieldType := DataType.Pointer, fieldSize := 3 } descriptor_pointerDb_33 rfl)
      33 { fieldType := DataType.Pointer, fieldSize := 0 } descriptor_pointerDb_31).2 rfl⟩

theorem readPairsWith_length (rd : Nat → Except Fault (QVariant × Nat)) :
    ∀ (n offset : Nat) (ps : List (QString × QVariant)) (off : Nat),
      readPairsWith rd n offset = Except.ok (some ps, off) → ps.length = n := by
  intro n
  induction n with
  | zero =>
    intro offset ps off h
    simp only [readPairsWith, Except.pure_eq, Except.ok.injEq, Prod.mk.injEq,
      Option.some.injEq] at h
    rw [← h.1]
    rfl
  | succ n ih =>
    intro offset ps off h
    unfold readPairsWith at h
    obtain ⟨⟨key, offset1⟩, _, h⟩ := Except.bind_eq_ok h
    cases key with
    | string k =>
      simp only [] at h
      obtain ⟨⟨field, offset2⟩, _, h⟩ := Except.bind_eq_ok h
      simp only [] at h
      split at h
      · simp at h
      · obtain ⟨⟨rest, offset3⟩, hrest, h⟩ := Except.bind_eq_ok h
        simp only [Except.pure_eq, Except.ok.injEq, Prod.mk.injEq] at h
        cases rest with
        | none => simp at h
        | some qs =>
          simp only [Option.map_some', Option.some.injEq] at h
          rw [← h.1, List.length_cons, ih offset2 qs offset3 hrest]
    | _ => simp at h

/-- Once `i` pairs have been read, the loop of `readMapValue` goes on with the
pairs that are left. -/
theorem readMapValueWith_after_pairs (rd : Nat → Except Fault (QVariant × Nat)) :
    ∀ (i k offset : Nat) (map : QVariantHash) (ps : List (QString × QVariant)) (off : Nat),
      readPairsWith rd i offset = Except.ok (some ps, off) →
      readMapValueWith rd (i + k) offset map
        = readMapValueWith rd k off (ps.foldl (fun m p => QHash.insert m p.1 p.2) map) := by
  intro i
  induction i with
  | zero =>
    intro k offset map ps off h
    simp only [readPairsWith, Except.pure_eq, Except.ok.injEq, Prod.mk.injEq,
      Option.some.injEq] at h
    rw [← h.1, ← h.2, Nat.zero_add]
    rfl
  | succ i ih =>
    intro k offset map ps off h
    unfold readPairsWith at h
    obtain ⟨⟨key, offset1⟩, hkey, h⟩ := Except.bind_eq_ok h
    cases key with
    | string s =>
      simp only [] at h
      obtain ⟨⟨field, offset2⟩, hfield, h⟩ := Except.bind_eq_ok h
      simp only [] at h
      split at h
      · simp at h
      · rename_i hvalid
        obtain ⟨⟨rest, offset3⟩, hrest, h⟩ := Except.bind_eq_ok h
        simp only [Except.pure_eq, Except.ok.injEq, Prod.mk.injEq] at h
        cases rest with
        | none => simp at h
        | some qs =>
          simp only [Option.map_some', Option.some.injEq] at h
          rw [show i + 1 + k = (i + k) + 1 by omega, readMapValueWith, hkey, Except.bind_ok_eq]
          simp only []
          rw [hfield, Except.bind_ok_eq]
          simp only []
          rw [if_neg hvalid, ih k offset2 _ qs offset3 hrest, ← h.1, ← h.2]
          rfl
    | _ => simp at h

theorem readMapValueWith_key_not_string (rd : Nat → Except Fault (QVariant × Nat))
    (k offset offset1 : Nat) (map : QVariantHash) (key : QVariant)
    (hkey : rd offset = Except.ok (key, offset1)) (hns : key.userType ≠ QMetaType.QString) :
    readMapValueWith rd (k + 1) offset map = Except.ok (QVariant.invalid, offset1) := by
  rw [readMapValueWith, hkey, Except.bind_ok_eq]
  cases key with
  | string s => exact absurd rfl hns
  | _ => rfl

/-- C27: decoding a map field of size `n` reads `n` key/value pairs one after
the other; when all of them are read the result is the hash of these pairs and
the offset after the last one, and when, after `i < n` pairs, the next key
decodes to a value that is not a string, the result is the invalid value. -/
theorem readDataField_map_pairs (qt : Qt) (db : GeoIPDatabase) (fuel offset offset1 n : Nat)
    (hd : readDataFieldDescriptor db offset
      = Except.ok (some (offset1, { fieldType := DataType.Map, fieldSize := n }))) :
    (∀ ps off, readPairsWith (readDataField qt db fuel) n offset1 = Except.ok (some ps, off) →
      ps.length = n
      ∧ readDataField qt db (fuel + 1) offset
          = Except.ok (QVariant.hash (ps.foldl (fun m p => QHash.insert m p.1 p.2) []), off))
    ∧ (∀ i ps off key off1, i < n →
      readPairsWith (readDataField qt db fuel) i offset1 = Except.ok (some ps, off) →
      readDataField qt db fuel off = Except.ok (key, off1) →
      key.userType ≠ QMetaType.QString →
      readDataField qt db (fuel + 1) offset = Except.ok (QVariant.invalid, off1)) := by
  have hm := readDataField_map qt db fuel offset offset1 n hd
  constructor
  · intro ps off hps
    refine ⟨readPairsWith_length _ n offset1 ps off hps, ?_⟩
    rw [hm, readMapValueWith_eq_readPairsWith, hps]
    rfl
  · intro i ps off key off1 hi hps hkey hns
    obtain ⟨k, hk⟩ : ∃ k, n = i + (k + 1) := ⟨n - i - 1, by omega⟩
    rw [hm, hk, readMapValueWith_after_pairs _ i (k + 1) offset1 [] ps off hps]
    exact readMapValueWith_key_not_string _ k off off1 _ key hkey hns

set_option maxRecDepth 100000 in
theorem descriptor_badKeyDb :
    readDataFieldDescriptor badKeyDb 0
      = Except.ok (some (1, { fieldType := DataType.Map, fieldSize := 2 })) := rfl

set_option maxRecDepth 100000 in
theorem readPairsWith_badKeyDb :
    readPairsWith (readDataField qtAscii badKeyDb 1) 1 1
      = Except.ok (some [("a", QVariant.string "US")], 6) := rfl

set_option maxRecDepth 100000 in
theorem readDataField_badKeyDb_6 :
    readDataField qtAscii badKeyDb 1 6 = Except.ok (QVariant.bool true, 8) := rfl

/-- C27, at a concrete input: in `badKeyFile` the map at offset 0 has two pairs;
the first is `a -> US`, the second key is a boolean, and the map decodes to the
invalid value. -/
theorem readDataField_map_pairs_witness :
    readDataFieldDescriptor badKeyDb 0
        = Except.ok (some (1, { fieldType := DataType.Map, fieldSize := 2 }))
    ∧ readPairsWith (readDataField qtAscii badKeyDb 1) 1 1
        = Except.ok (some [("a", QVariant.string "US")], 6)
    ∧ readDataField qtAscii badKeyDb 1 6 = Except.ok (QVariant.bool true, 8)
    ∧ readDataField qtAscii badKeyDb (1 + 1) 0 = Except.ok (QVariant.invalid, 8) :=
  ⟨descriptor_badKeyDb, readPairsWith_badKeyDb, readDataField_badKeyDb_6,
    (readDataField_map_pairs qtAscii badKeyDb 1 0 1 2 descriptor_badKeyDb).2 1 _ 6 _ 8
      (by decide) readPairsWith_badKeyDb readDataField_badKeyDb_6 (by decide)⟩

/-- C28: when the descriptor at offset `o` occupies `h` bytes and describes a
byte array of `n` bytes, and `o + h + n` lies inside the buffer,
`readDataField` returns the `n` bytes of the buffer from index `o + h` on, and
the offset `o + h + n`. -/
theorem readDataField_bytes (qt : Qt) (db : GeoIPDatabase) (fuel o h n : Nat)
    (hd : readDataFieldDescriptor db o
      = Except.ok (some (o + h, { fieldType := DataType.Bytes, fieldSize := n })))
    (hin : o + h + n ≤ db.m_data.length) (h32 : db.m_data.length < 4294967296) :
    readDataField qt db (fuel + 1) o
        = Except.ok (QVariant.bytes ((db.m_data.drop (o + h)).take n), o + h + n)
    ∧ ((db.m_data.drop (o + h)).take n).length = n
    ∧ ∀ j, j < n → ((db.m_data.drop (o + h)).take n).get? j = db.m_data.get? (o + h + j) := by
  have hb : db.bytesAt (o + h) n = Except.ok ((db.m_data.drop (o + h)).take n) := by
    unfold GeoIPDatabase.bytesAt
    by_cases h0 : n = 0
    · rw [if_pos h0, h0]
      rfl
    · rw [if_neg h0, if_pos hin]
  refine ⟨?_, ?_, ?_⟩
  · rw [readDataField, hd, Except.bind_ok_eq]
    simp only []
    rw [if_neg (by decide)]
    unfold readPayload
    rw [if_neg (show ¬ DataType.Bytes = DataType.Pointer by decide),
      if_neg (show ¬ DataType.Bytes = DataType.String by decide),
      if_neg (show ¬ DataType.Bytes = DataType.Double by decide), if_pos rfl]
    simp only []
    rw [hb, Except.bind_ok_eq]
    have hu : u32 (o + h + n) = o + h + n := by simp only [u32]; omega
    rw [hu]
    rfl
  · rw [List.length_take, List.length_drop]
    omega
  · intro j hj
    rw [List.get?_eq_getElem?, List.get?_eq_getElem?, List.getElem?_take_of_lt hj,
      List.getElem?_drop]

set_option maxRecDepth 100000 in
theorem descriptor_bytesDb :
    readDataFieldDescriptor bytesDb 0
      = Except.ok (some (0 + 1, { fieldType := DataType.Bytes, fieldSize := 3 })) := rfl

/-- C28, at a concrete input: the byte array of three bytes at offset 0 of
`bytesFile`. -/
theorem readDataField_bytes_witness :
    readDataFieldDescriptor bytesDb 0
        = Except.ok (some (0 + 1, { fieldType := DataType.Bytes, fieldSize := 3 }))
    ∧ 0 + 1 + 3 ≤ bytesDb.m_data.length
    ∧ readDataField qtAscii bytesDb (0 + 1) 0 = Except.ok (QVariant.bytes [1, 2, 3], 4) :=
  ⟨descriptor_bytesDb, by decide,
    (readDataField_bytes qtAscii bytesDb 0 0 1 3 descriptor_bytesDb (by decide) (by decide)).1⟩

/-- C30: in a database that `load` has returned, the base that `readDataField`
adds to a pointer value, a quarter of node count times record size in bits
plus 16 in 32-bit arithmetic, is the base of `lookup`, the index size plus 16
with the index size six times the node count in 32-bit arithmetic: a pointer
with the value `v` and a record value `id` with `id - node count - 16 = v`
lead to the same offset. -/
theorem pointer_base_eq_lookup_base (qt : Qt) (data : QByteArray) (fuel : Nat)
    (db : GeoIPDatabase) (h : load qt data fuel = Except.ok (Except.ok db)) :
    data.length ≤ 67108864
    ∧ db.m_indexSize = u32 (db.m_nodeCount * 6)
    ∧ u32 (u32 (db.m_nodeCount * db.m_recordSize) / 4 + SEPARATOR_SIZE)
        = u32 (db.m_indexSize + SEPARATOR_SIZE)
    ∧ (∀ v, u32 (v + u32 (db.m_nodeCount * db.m_recordSize) / 4 + SEPARATOR_SIZE)
        = u32 (v + (db.m_indexSize + SEPARATOR_SIZE)))
    ∧ (∀ id, db.m_nodeCount + 16 ≤ id → id < 4294967296 →
        dataOffset db id
          = u32 ((id - db.m_nodeCount - 16) + u32 (db.m_nodeCount * db.m_recordSize) / 4
              + SEPARATOR_SIZE)) := by
  have hb := pointer_base_eq_indexSize qt data fuel db h
  obtain ⟨_, _, _, _, _, hidx, _, _, _, _, _, _, hmax⟩ := load_ok qt data fuel db h
  refine ⟨hmax, hidx, ?_, ?_, ?_⟩
  · rw [hb]
  · intro v
    rw [hb, Nat.add_assoc]
  · intro id hid h32
    rw [hb, dataOffset_eq db id (by omega) h32]
    simp only [u32, SEPARATOR_SIZE]
    congr 1
    omega

/-- C30, at a concrete input: the database loaded from `countryFile`, whose
bases are both 28. -/
theorem pointer_base_eq_lookup_base_witness :
    load qtAscii countryFile 3 = Except.ok (Except.ok countryDb)
    ∧ u32 (u32 (countryDb.m_nodeCount * countryDb.m_recordSize) / 4 + SEPARATOR_SIZE)
        = u32 (countryDb.m_indexSize + SEPARATOR_SIZE)
    ∧ u32 (countryDb.m_indexSize + SEPARATOR_SIZE) = 28 :=
  ⟨load_countryFile qtAscii,
    (pointer_base_eq_lookup_base qtAscii countryFile 3 countryDb
      (load_countryFile qtAscii)).2.2.1, by decide⟩

theorem readRecord_inside (db : GeoIPDatabase) (hrec : db.m_recordBytes = 3) (p : Nat)
    (h : p + 3 ≤ db.m_data.length) : ∃ id, readRecord db p = Except.ok id := by
  unfold readRecord
  rw [hrec, if_neg (by decide)]
  unfold GeoIPDatabase.bytesAt
  rw [if_neg (by decide), if_pos h]
  exact ⟨_, rfl⟩

/-- The loop of `lookup` on an index that fits the buffer: every read lies
inside the index and its separator, and the loop ends without a fault. -/
theorem traverseLoop_inside (db : GeoIPDatabase) (addr : Q_IPV6ADDR)
    (hnode : db.m_nodeSize = 6) (hrec : db.m_recordBytes = 3)
    (hfit : 6 * db.m_nodeCount + 16 ≤ db.m_data.length) :
    ∀ steps k ptr, ptr + 6 ≤ 6 * db.m_nodeCount + 16 →
      (∀ p, p ∈ readOffsets db addr steps k ptr → p + 3 ≤ 6 * db.m_nodeCount + 16)
      ∧ ∃ t, traverseLoop db addr steps k ptr = Except.ok t := by
  intro steps
  induction steps with
  | zero =>
    intro k ptr _
    exact ⟨fun p hp => by simp [readOffsets] at hp, ⟨_, rfl⟩⟩
  | succ n ih =>
    intro k ptr hptr
    have hp1 : (if addr.right k = true then ptr + db.m_recordBytes else ptr) + 3
        ≤ 6 * db.m_nodeCount + 16 := by
      rw [hrec]; split <;> omega
    obtain ⟨id, hid⟩ := readRecord_inside db hrec _ (Nat.le_trans hp1 hfit)
    unfold readOffsets traverseLoop
    simp only [hid, Except.bind_ok_eq]
    by_cases h1 : id = db.m_nodeCount
    · rw [if_pos h1, if_pos h1]
      refine ⟨fun p hp => ?_, ⟨_, rfl⟩⟩
      simp only [List.mem_singleton] at hp
      rw [hp]; exact hp1
    · rw [if_neg h1, if_neg h1]
      by_cases h2 : id > db.m_nodeCount
      · rw [if_pos h2, if_pos h2]
        refine ⟨fun p hp => ?_, ⟨_, rfl⟩⟩
        simp only [List.mem_singleton] at hp
        rw [hp]; exact hp1
      · rw [if_neg h2, if_neg h2]
        have hnext : u32 (id * db.m_nodeSize) + 6 ≤ 6 * db.m_nodeCount + 16 := by
          rw [hnode]
          have : u32 (id * 6) ≤ id * 6 := by simp only [u32]; exact Nat.mod_le _ _
          omega
        obtain ⟨hin, ht⟩ := ih (k + 1) _ hnext
        refine ⟨fun p hp => ?_, ht⟩
        rcases List.mem_cons.mp hp with hp | hp
        · rw [hp]; exact hp1
        · exact hin p hp

/-- C29: on a database object with 6-byte nodes and 3-byte records whose
buffer holds `6 * node count + 16` bytes or more, every record that the
traversal of `lookup` reads for an address starts at an offset `p` with
`p + 3 ≤ 6 * node count + 16`, whatever the node count is, and the traversal
ends without a read outside the buffer. -/
theorem lookup_reads_inside_index (db : GeoIPDatabase) (addr : Q_IPV6ADDR)
    (hnode : db.m_nodeSize = 6) (hrec : db.m_recordBytes = 3)
    (hsize : db.m_size = db.m_data.length)
    (hfit : 6 * db.m_nodeCount + 16 ≤ db.m_size) :
    (∀ p, p ∈ readOffsets db addr 128 0 0 →
      p + 3 ≤ 6 * db.m_nodeCount + 16 ∧ p + 3 ≤ db.m_data.length)
    ∧ (∃ t, traverse db addr = Except.ok t)
    ∧ ∀ (qt : Qt) (fuel : Nat), ∃ t, traverse db addr = Except.ok t
        ∧ lookup qt db addr fuel = finish qt db fuel t := by
  rw [hsize] at hfit
  obtain ⟨hin, t, ht⟩ := traverseLoop_inside db addr hnode hrec hfit 128 0 0 (by omega)
  refine ⟨fun p hp => ⟨hin p hp, by have := hin p hp; omega⟩, ⟨t, ht⟩, fun qt fuel => ⟨t, ht, ?_⟩⟩
  rw [lookup_eq_traverse]
  have ht1 : traverse db addr = Except.ok t := ht
  rw [ht1, Except.bind_ok_eq]

set_option maxRecDepth 100000 in
theorem readOffsets_countryDb_addr01 : readOffsets countryDb addr01 128 0 0 = [0, 9] := rfl

/-- C29, at a concrete input: in the database loaded from `countryFile` the
traversal for the address with first bits 0 and 1 reads the records at the
offsets 0 and 9; the index and its separator end at offset 28. -/
theorem lookup_reads_inside_index_witness :
    countryDb.m_nodeSize = 6 ∧ countryDb.m_recordBytes = 3
    ∧ 6 * countryDb.m_nodeCount + 16 ≤ countryDb.m_size
    ∧ readOffsets countryDb addr01 128 0 0 = [0, 9]
    ∧ ∀ p, p ∈ readOffsets countryDb addr01 128 0 0 →
        p + 3 ≤ 6 * countryDb.m_nodeCount + 16 ∧ p + 3 ≤ countryDb.m_data.length :=
  ⟨rfl, rfl, by decide, readOffsets_countryDb_addr01,
    (lookup_reads_inside_index countryDb addr01 rfl rfl rfl (by decide)).1⟩

/-- The function `readDataField`, one level unfolded, with the target of a
pointer named. -/
theorem readDataField_unfold (qt : Qt) (db : GeoIPDatabase) (fuel offset : Nat) :
    readDataField qt db (fuel + 1) offset
      = (readDataFieldDescriptor db offset >>= fun x =>
          match x with
          | none => Except.ok (QVariant.invalid, offset)
          | some (offset1, descr) =>
            if descr.fieldType = DataType.Pointer then
              readDataFieldDescriptor db (pointerTarget db descr) >>= fun y =>
                match y with
                | none => Except.ok (QVariant.invalid, offset1)
                | some (locOffset1, descr1) =>
                  readPayload qt db (readDataField qt db fuel) descr1 locOffset1 >>= fun r =>
                    Except.ok (r.1, offset1)
            else readPayload qt db (readDataField qt db fuel) descr offset1) := by
  rw [readDataField]
  rfl

theorem containerAt_false (db : GeoIPDatabase) (t o1 : Nat) (d : DataFieldDescriptor)
    (hc : containerAt db t = false)
    (hd : readDataFieldDescriptor db t = Except.ok (some (o1, d))) :
    d.fieldType ≠ DataType.Map ∧ d.fieldType ≠ DataType.Array := by
  unfold containerAt at hc
  rw [hd] at hc
  simp only [Bool.or_eq_false_iff, decide_eq_false_iff_not] at hc
  exact hc

set_option maxRecDepth 100000 in
theorem pointerTargetAt_cycleDb : pointerTargetAt cycleDb 19 = some 16 := rfl

/-- A map of one pair whose value is a pointer to the map: `readDataField`
runs out of fuel at the map and at the pointer, whatever the fuel. -/
theorem readDataField_cycle (qt : Qt) (db : GeoIPDatabase) (a a1 b c v : Nat) (k : QString)
    (hmap : readDataFieldDescriptor db a
      = Except.ok (some (a1, { fieldType := DataType.Map, fieldSize := 1 })))
    (hkey : ∀ fuel, readDataField qt db (fuel + 1) a1 = Except.ok (QVariant.string k, b))
    (hptr : readDataFieldDescriptor db b
      = Except.ok (some (c, { fieldType := DataType.Pointer, fieldSize := v })))
    (htarget : pointerTarget db { fieldType := DataType.Pointer, fieldSize := v } = a) :
    ∀ fuel, readDataField qt db fuel a = Except.error Fault.outOfFuel
      ∧ readDataField qt db fuel b = Except.error Fault.outOfFuel := by
  intro fuel
  induction fuel with
  | zero => exact ⟨rfl, rfl⟩
  | succ n ih =>
    have hloop : readMapValueWith (readDataField qt db n) 1 a1 []
        = Except.error Fault.outOfFuel := by
      rw [readMapValueWith]
      cases n with
      | zero => rfl
      | succ m =>
        rw [hkey m, Except.bind_ok_eq]
        simp only []
        rw [ih.2]
        rfl
    constructor
    · rw [readDataField_map qt db n a a1 1 hmap, hloop]
    · rw [readDataField_unfold, hptr, Except.bind_ok_eq]
      simp only []
      rw [if_pos trivial, htarget, hmap, Except.bind_ok_eq]
      simp only []
      rw [readPayload_map qt db _ _ _ rfl, hloop]
      rfl

set_option maxRecDepth 100000 in
theorem descriptor_cycleDb_16 :
    readDataFieldDescriptor cycleDb 16
      = Except.ok (some (17, { fieldType := DataType.Map, fieldSize := 1 })) := rfl

set_option maxRecDepth 100000 in
theorem descriptor_cycleDb_19 :
    readDataFieldDescriptor cycleDb 19
      = Except.ok (some (21, { fieldType := DataType.Pointer, fieldSize := 0 })) := rfl

set_option maxRecDepth 100000 in
theorem readDataField_cycleDb_key (qt : Qt) (fuel : Nat) :
    readDataField qt cycleDb (fuel + 1) 17
      = Except.ok (QVariant.string (qt.fromUtf8 (ascii "a")), 19) := rfl

theorem readDataField_cycleDb (qt : Qt) (fuel : Nat) :
    readDataField qt cycleDb fuel 16 = Except.error Fault.outOfFuel :=
  (readDataField_cycle qt cycleDb 16 17 19 21 0 _ descriptor_cycleDb_16
    (readDataField_cycleDb_key qt) descriptor_cycleDb_19 rfl fuel).1

set_option maxRecDepth 100000 in
theorem containerAt_cycleDb : containerAt cycleDb 16 = true := rfl

/-- The buffer `cycleDb`, whose pointer is a member of the map at its target,
is not one in which the target fields are complete before their pointers. -/
theorem TargetsComplete_cycleDb (qt : Qt) : ¬ TargetsComplete qt cycleDb := by
  intro h
  obtain ⟨fuel, r, hr, _⟩ := h 19 16 pointerTargetAt_cycleDb containerAt_cycleDb
  rw [readDataField_cycleDb qt fuel] at hr
  exact Except.noConfusion hr

end GeoIP
